import Mathlib

set_option maxRecDepth 8000

/-!
Verification development for the ffp chess engine (src/ffp.c, src/ffp.h).
The C code is embedded shallowly: U64 bitboards become `Nat` values kept
below `2 ^ 64` (left shifts are truncated with an explicit mask), C `int`
fields that can hold the sentinel `-1` become `Int`, and the mutable
`Position` is threaded functionally.  Wall-clock and external-stop reads in
the search are abstracted as boolean oracles indexed by the number of abort
checks performed so far.
-/

/-- The 64-bit mask: bitboards are C `uint64_t` values. -/
def mask64 : Nat := 0xFFFFFFFFFFFFFFFF

/-- C left shift on `U64`: truncated to 64 bits. -/
def shl64 (b k : Nat) : Nat := (b <<< k) &&& mask64

/-- C bitwise complement `~b` on a `U64`. -/
def compl64 (b : Nat) : Nat := b ^^^ mask64

/-- File masks from ffp.c. -/
def FILE_A : Nat := 0x0101010101010101

/-- File h mask from ffp.c. -/
def FILE_H : Nat := 0x8080808080808080

/-- C `RANK_MASK(n)`: `0xFF << (8*(8-n))` for `1 <= n <= 8`, else 0. -/
def RANK_MASK (n : Nat) : Nat := if 1 ≤ n ∧ n ≤ 8 then 0xFF <<< (8 * (8 - n)) else 0

/-- C `shift_east`. -/
def shift_east (bb : Nat) : Nat := shl64 (bb &&& compl64 FILE_H) 1

/-- C `shift_west`. -/
def shift_west (bb : Nat) : Nat := (bb &&& compl64 FILE_A) >>> 1

/-- C `shift_south`. -/
def shift_south (bb : Nat) : Nat := shl64 bb 8

/-- C `shift_north`. -/
def shift_north (bb : Nat) : Nat := bb >>> 8

/-- C `shift_ne`. -/
def shift_ne (bb : Nat) : Nat := (bb &&& compl64 FILE_H) >>> 7

/-- C `shift_nw`. -/
def shift_nw (bb : Nat) : Nat := (bb &&& compl64 FILE_A) >>> 9

/-- C `shift_se`. -/
def shift_se (bb : Nat) : Nat := shl64 (bb &&& compl64 FILE_H) 9

/-- C `shift_sw`. -/
def shift_sw (bb : Nat) : Nat := shl64 (bb &&& compl64 FILE_A) 7

/-- C `king_attacks_from`. -/
def king_attacks_from (src : Nat) : Nat :=
  shift_north src ||| shift_south src ||| shift_east src ||| shift_west src |||
  shift_ne src ||| shift_nw src ||| shift_se src ||| shift_sw src

/-- C `knight_attacks_from`. -/
def knight_attacks_from (src : Nat) : Nat :=
  let nn := shift_north (shift_north src)
  let ss := shift_south (shift_south src)
  let ee := shift_east (shift_east src)
  let ww := shift_west (shift_west src)
  shift_east nn ||| shift_west nn ||| shift_east ss ||| shift_west ss |||
  shift_north ee ||| shift_south ee ||| shift_north ww ||| shift_south ww

/-- C `white_pawn_attacks` (set-wise). -/
def white_pawn_attacks (p : Nat) : Nat := shift_nw p ||| shift_ne p

/-- C `black_pawn_attacks` (set-wise). -/
def black_pawn_attacks (p : Nat) : Nat := shift_sw p ||| shift_se p

/-- The blocker-aware ray walk of ffp.c
(`while((x=shift(x))){a|=x;if(x&o)break;}`); eight iterations of any
directional shift empty a 64-bit board, so fuel 8 reproduces the loop. -/
def rayGo (step : Nat → Nat) : Nat → Nat → Nat → Nat
  | 0, _, _ => 0
  | fuel + 1, x, o =>
    let x2 := step x
    if x2 = 0 then 0
    else if x2 &&& o ≠ 0 then x2
    else x2 ||| rayGo step fuel x2 o

/-- C `ray_north`. -/
def ray_north (s o : Nat) : Nat := rayGo shift_north 8 s o

/-- C `ray_south`. -/
def ray_south (s o : Nat) : Nat := rayGo shift_south 8 s o

/-- C `ray_east`. -/
def ray_east (s o : Nat) : Nat := rayGo shift_east 8 s o

/-- C `ray_west`. -/
def ray_west (s o : Nat) : Nat := rayGo shift_west 8 s o

/-- C `ray_ne`. -/
def ray_ne (s o : Nat) : Nat := rayGo shift_ne 8 s o

/-- C `ray_nw`. -/
def ray_nw (s o : Nat) : Nat := rayGo shift_nw 8 s o

/-- C `ray_se`. -/
def ray_se (s o : Nat) : Nat := rayGo shift_se 8 s o

/-- C `ray_sw`. -/
def ray_sw (s o : Nat) : Nat := rayGo shift_sw 8 s o

/-- C `rook_attacks_from`. -/
def rook_attacks_from (s o : Nat) : Nat :=
  ray_north s o ||| ray_south s o ||| ray_east s o ||| ray_west s o

/-- C `bishop_attacks_from`. -/
def bishop_attacks_from (s o : Nat) : Nat :=
  ray_ne s o ||| ray_nw s o ||| ray_se s o ||| ray_sw s o

/-- C `queen_attacks_from`. -/
def queen_attacks_from (s o : Nat) : Nat := rook_attacks_from s o ||| bishop_attacks_from s o

/-- C `Side` (`BLACK=0, WHITE=1`). -/
inductive Side where
  | BLACK : Side
  | WHITE : Side
deriving DecidableEq, Repr

/-- C `(Side)!side`. -/
def flipSide : Side → Side
  | Side.BLACK => Side.WHITE
  | Side.WHITE => Side.BLACK

/-- C `Position`: twelve piece bitboards (indices `WP=0, WR=1, WN=2, WB=3,
WQ=4, WK=5, BP=6, BR=7, BN=8, BB=9, BQ=10, BK=11`), cached occupancies,
and the scalar game state. -/
structure Position where
  bb : List Nat
  occ_white : Nat
  occ_black : Nat
  occ_all : Nat
  side : Side
  castling : Nat
  ep_square : Int
  halfmove_clock : Int
  fullmove_number : Int
deriving DecidableEq, Repr

/-- Read piece bitboard `i` (C `pos->bb[i]`). -/
def bbGet (pos : Position) (i : Nat) : Nat := pos.bb.getD i 0

/-- Write piece bitboard `i`. -/
def bbSet (pos : Position) (i : Nat) (v : Nat) : Position := { pos with bb := pos.bb.set i v }

/-- C `set_bit(&pos->bb[i], s)`. -/
def posSetBit (pos : Position) (i s : Nat) : Position := bbSet pos i (bbGet pos i ||| (1 <<< s))

/-- C `pop_bit(&pos->bb[i], s)`. -/
def posPopBit (pos : Position) (i s : Nat) : Position :=
  bbSet pos i (bbGet pos i &&& compl64 (1 <<< s))

/-- C `update_occupancy`. -/
def update_occupancy (pos : Position) : Position :=
  let ow := bbGet pos 0 ||| bbGet pos 1 ||| bbGet pos 2 ||| bbGet pos 3 ||| bbGet pos 4 ||| bbGet pos 5
  let ob := bbGet pos 6 ||| bbGet pos 7 ||| bbGet pos 8 ||| bbGet pos 9 ||| bbGet pos 10 ||| bbGet pos 11
  { pos with occ_white := ow, occ_black := ob, occ_all := ow ||| ob }

/-- Indices of the set bits of a 64-bit word, in increasing order: the order
in which the C loops `while(b){s=LSB_INDEX(b); ...; b&=b-1;}` visit them. -/
def bitIndices (b : Nat) : List Nat := (List.range 64).filter (fun i => b.testBit i)

/-- C `LSB_INDEX` (64 when no bit is set; C leaves that case undefined). -/
def lsbIdx (b : Nat) : Nat := ((List.range 64).find? (fun i => b.testBit i)).getD 64

/-- C `popcount64` (for 64-bit inputs). -/
def popcount64 (b : Nat) : Nat := (bitIndices b).length

/-- C `ffp_is_square_attacked`. -/
def ffp_is_square_attacked (pos : Position) (sq : Nat) (bySide : Side) : Bool :=
  let t := (1 : Nat) <<< sq
  let occ := pos.occ_all
  match bySide with
  | Side.WHITE =>
    (white_pawn_attacks (bbGet pos 0) &&& t ≠ 0) ||
    (bitIndices (bbGet pos 2)).any (fun s => knight_attacks_from ((1 : Nat) <<< s) &&& t ≠ 0) ||
    (bitIndices (bbGet pos 3 ||| bbGet pos 4)).any
      (fun s => bishop_attacks_from ((1 : Nat) <<< s) occ &&& t ≠ 0) ||
    (bitIndices (bbGet pos 1 ||| bbGet pos 4)).any
      (fun s => rook_attacks_from ((1 : Nat) <<< s) occ &&& t ≠ 0) ||
    (king_attacks_from (bbGet pos 5) &&& t ≠ 0)
  | Side.BLACK =>
    (black_pawn_attacks (bbGet pos 6) &&& t ≠ 0) ||
    (bitIndices (bbGet pos 8)).any (fun s => knight_attacks_from ((1 : Nat) <<< s) &&& t ≠ 0) ||
    (bitIndices (bbGet pos 9 ||| bbGet pos 10)).any
      (fun s => bishop_attacks_from ((1 : Nat) <<< s) occ &&& t ≠ 0) ||
    (bitIndices (bbGet pos 7 ||| bbGet pos 10)).any
      (fun s => rook_attacks_from ((1 : Nat) <<< s) occ &&& t ≠ 0) ||
    (king_attacks_from (bbGet pos 11) &&& t ≠ 0)

/-- Move flags from ffp.h. -/
def MF_QUIET : Nat := 0

/-- C `MF_CAPTURE`. -/
def MF_CAPTURE : Nat := 1

/-- C `MF_PROMO`. -/
def MF_PROMO : Nat := 2

/-- C `MF_ENPASSANT`. -/
def MF_ENPASSANT : Nat := 4

/-- C `MF_CASTLE`. -/
def MF_CASTLE : Nat := 8

/-- C `MF_DOUBLE`. -/
def MF_DOUBLE : Nat := 16

/-- C `Move` (`from`/`to` renamed: `from` is a Lean keyword). -/
structure Move where
  fromSq : Int
  toSq : Int
  piece : Int
  promo : Int
  captured : Int
  flags : Nat
deriving DecidableEq, Repr

/-- C `add_move` argument order `(from, to, piece, captured, promo, flags)`. -/
def mkMove (f t p cap pr : Int) (fl : Nat) : Move :=
  { fromSq := f, toSq := t, piece := p, promo := pr, captured := cap, flags := fl }

/-- List concatenation over a generator, used to model nested C loops. -/
def listFlat {α β : Type} : List α → (α → List β) → List β
  | [], _ => []
  | a :: t, f => f a ++ listFlat t f

/-- The capture scan of the C pawn-capture loops: first piece index in
`lo..lo+5` whose board contains `to`, or `-1`. -/
def pawnCapScan (pos : Position) (lo : Nat) (sq : Nat) : Int :=
  (((List.range 6).map (fun i => lo + i)).find? (fun p => (bbGet pos p).testBit sq)).elim
    (-1) (fun p => (p : Int))

/-- The capture chain of the C knight/slider/king loops against Black
(`...?BP:...?BQ:BK`). -/
def victimChainB (pos : Position) (sq : Nat) : Int :=
  if (bbGet pos 6).testBit sq then 6 else if (bbGet pos 7).testBit sq then 7
  else if (bbGet pos 8).testBit sq then 8 else if (bbGet pos 9).testBit sq then 9
  else if (bbGet pos 10).testBit sq then 10 else 11

/-- The capture chain against White. -/
def victimChainW (pos : Position) (sq : Nat) : Int :=
  if (bbGet pos 0).testBit sq then 0 else if (bbGet pos 1).testBit sq then 1
  else if (bbGet pos 2).testBit sq then 2 else if (bbGet pos 3).testBit sq then 3
  else if (bbGet pos 4).testBit sq then 4 else 5

/-- One non-pawn, non-king piece section of `ffp_generate_pseudo_legal`. -/
def pieceMoves (pos : Position) (pieceIdx : Nat) (attOf : Nat → Nat) (own opp : Nat)
    (victim : Position → Nat → Int) : List Move :=
  listFlat (bitIndices (bbGet pos pieceIdx)) (fun s =>
    (bitIndices (attOf s &&& compl64 own)).map (fun (t : Nat) =>
      let cap : Int := if opp.testBit t then victim pos t else -1
      mkMove (s : Int) (t : Int) (pieceIdx : Int) cap (-1)
        (if cap ≠ -1 then MF_CAPTURE else MF_QUIET)))

/-- The white pawn section of `ffp_generate_pseudo_legal`. -/
def whitePawnMoves (pos : Position) : List Move :=
  let pawns := bbGet pos 0
  let empty := compl64 pos.occ_all
  let opp := pos.occ_black
  let single := shift_north pawns &&& empty
  let doublep := shift_north (single &&& RANK_MASK 3) &&& empty
  let promo_push := single &&& RANK_MASK 8
  let quiet_push := single &&& compl64 (RANK_MASK 8)
  let capL := shift_nw pawns &&& opp
  let capR := shift_ne pawns &&& opp
  let promoL := capL &&& RANK_MASK 8
  let promoR := capR &&& RANK_MASK 8
  let normL := capL &&& compl64 (RANK_MASK 8)
  let normR := capR &&& compl64 (RANK_MASK 8)
  ((bitIndices quiet_push).map (fun (t : Nat) => mkMove ((t : Int) + 8) (t : Int) 0 (-1) (-1) MF_QUIET)) ++
  ((bitIndices doublep).map (fun (t : Nat) => mkMove ((t : Int) + 16) (t : Int) 0 (-1) (-1) MF_DOUBLE)) ++
  (listFlat (bitIndices promo_push) (fun t =>
    [mkMove ((t : Int) + 8) (t : Int) 0 (-1) 4 MF_PROMO,
     mkMove ((t : Int) + 8) (t : Int) 0 (-1) 1 MF_PROMO,
     mkMove ((t : Int) + 8) (t : Int) 0 (-1) 3 MF_PROMO,
     mkMove ((t : Int) + 8) (t : Int) 0 (-1) 2 MF_PROMO])) ++
  ((bitIndices normL).map (fun (t : Nat) =>
    mkMove ((t : Int) + 9) (t : Int) 0 (pawnCapScan pos 6 t) (-1) MF_CAPTURE)) ++
  ((bitIndices normR).map (fun (t : Nat) =>
    mkMove ((t : Int) + 7) (t : Int) 0 (pawnCapScan pos 6 t) (-1) MF_CAPTURE)) ++
  (listFlat (bitIndices promoL) (fun t =>
    let cap := pawnCapScan pos 6 t
    [mkMove ((t : Int) + 9) (t : Int) 0 cap 4 (MF_CAPTURE ||| MF_PROMO),
     mkMove ((t : Int) + 9) (t : Int) 0 cap 1 (MF_CAPTURE ||| MF_PROMO),
     mkMove ((t : Int) + 9) (t : Int) 0 cap 3 (MF_CAPTURE ||| MF_PROMO),
     mkMove ((t : Int) + 9) (t : Int) 0 cap 2 (MF_CAPTURE ||| MF_PROMO)])) ++
  (listFlat (bitIndices promoR) (fun t =>
    let cap := pawnCapScan pos 6 t
    [mkMove ((t : Int) + 7) (t : Int) 0 cap 4 (MF_CAPTURE ||| MF_PROMO),
     mkMove ((t : Int) + 7) (t : Int) 0 cap 1 (MF_CAPTURE ||| MF_PROMO),
     mkMove ((t : Int) + 7) (t : Int) 0 cap 3 (MF_CAPTURE ||| MF_PROMO),
     mkMove ((t : Int) + 7) (t : Int) 0 cap 2 (MF_CAPTURE ||| MF_PROMO)])) ++
  (if pos.ep_square ≠ -1 then
    let ep := (1 : Nat) <<< pos.ep_square.toNat
    (if shift_nw pawns &&& ep ≠ 0 then
      [mkMove (pos.ep_square + 9) pos.ep_square 0 6 (-1) (MF_ENPASSANT ||| MF_CAPTURE)] else []) ++
    (if shift_ne pawns &&& ep ≠ 0 then
      [mkMove (pos.ep_square + 7) pos.ep_square 0 6 (-1) (MF_ENPASSANT ||| MF_CAPTURE)] else [])
  else [])

/-- The black pawn section of `ffp_generate_pseudo_legal`. -/
def blackPawnMoves (pos : Position) : List Move :=
  let pawns := bbGet pos 6
  let empty := compl64 pos.occ_all
  let opp := pos.occ_white
  let single := shift_south pawns &&& empty
  let doublep := shift_south (single &&& RANK_MASK 6) &&& empty
  let promo_push := single &&& RANK_MASK 1
  let quiet_push := single &&& compl64 (RANK_MASK 1)
  let capL := shift_sw pawns &&& opp
  let capR := shift_se pawns &&& opp
  let promoL := capL &&& RANK_MASK 1
  let promoR := capR &&& RANK_MASK 1
  let normL := capL &&& compl64 (RANK_MASK 1)
  let normR := capR &&& compl64 (RANK_MASK 1)
  ((bitIndices quiet_push).map (fun (t : Nat) => mkMove ((t : Int) - 8) (t : Int) 6 (-1) (-1) MF_QUIET)) ++
  ((bitIndices doublep).map (fun (t : Nat) => mkMove ((t : Int) - 16) (t : Int) 6 (-1) (-1) MF_DOUBLE)) ++
  (listFlat (bitIndices promo_push) (fun t =>
    [mkMove ((t : Int) - 8) (t : Int) 6 (-1) 10 MF_PROMO,
     mkMove ((t : Int) - 8) (t : Int) 6 (-1) 7 MF_PROMO,
     mkMove ((t : Int) - 8) (t : Int) 6 (-1) 9 MF_PROMO,
     mkMove ((t : Int) - 8) (t : Int) 6 (-1) 8 MF_PROMO])) ++
  ((bitIndices normL).map (fun (t : Nat) =>
    mkMove ((t : Int) - 9) (t : Int) 6 (pawnCapScan pos 0 t) (-1) MF_CAPTURE)) ++
  ((bitIndices normR).map (fun (t : Nat) =>
    mkMove ((t : Int) - 7) (t : Int) 6 (pawnCapScan pos 0 t) (-1) MF_CAPTURE)) ++
  (listFlat (bitIndices promoL) (fun t =>
    let cap := pawnCapScan pos 0 t
    [mkMove ((t : Int) - 9) (t : Int) 6 cap 10 (MF_CAPTURE ||| MF_PROMO),
     mkMove ((t : Int) - 9) (t : Int) 6 cap 7 (MF_CAPTURE ||| MF_PROMO),
     mkMove ((t : Int) - 9) (t : Int) 6 cap 9 (MF_CAPTURE ||| MF_PROMO),
     mkMove ((t : Int) - 9) (t : Int) 6 cap 8 (MF_CAPTURE ||| MF_PROMO)])) ++
  (listFlat (bitIndices promoR) (fun t =>
    let cap := pawnCapScan pos 0 t
    [mkMove ((t : Int) - 7) (t : Int) 6 cap 10 (MF_CAPTURE ||| MF_PROMO),
     mkMove ((t : Int) - 7) (t : Int) 6 cap 7 (MF_CAPTURE ||| MF_PROMO),
     mkMove ((t : Int) - 7) (t : Int) 6 cap 9 (MF_CAPTURE ||| MF_PROMO),
     mkMove ((t : Int) - 7) (t : Int) 6 cap 8 (MF_CAPTURE ||| MF_PROMO)])) ++
  (if pos.ep_square ≠ -1 then
    let ep := (1 : Nat) <<< pos.ep_square.toNat
    (if shift_sw pawns &&& ep ≠ 0 then
      [mkMove (pos.ep_square - 9) pos.ep_square 6 0 (-1) (MF_ENPASSANT ||| MF_CAPTURE)] else []) ++
    (if shift_se pawns &&& ep ≠ 0 then
      [mkMove (pos.ep_square - 7) pos.ep_square 6 0 (-1) (MF_ENPASSANT ||| MF_CAPTURE)] else [])
  else [])

/-- The white king section (single king square via `LSB_INDEX`) plus castling. -/
def whiteKingMoves (pos : Position) : List Move :=
  let own := pos.occ_white
  let opp := pos.occ_black
  let s := lsbIdx (bbGet pos 5)
  ((bitIndices (king_attacks_from ((1 : Nat) <<< s) &&& compl64 own)).map (fun (t : Nat) =>
    let cap : Int := if opp.testBit t then victimChainB pos t else -1
    mkMove (s : Int) (t : Int) 5 cap (-1) (if cap ≠ -1 then MF_CAPTURE else MF_QUIET))) ++
  (if pos.castling &&& 1 ≠ 0 ∧ pos.occ_all &&& (((1 : Nat) <<< 61) ||| ((1 : Nat) <<< 62)) = 0 ∧
      ¬ffp_is_square_attacked pos 60 Side.BLACK ∧ ¬ffp_is_square_attacked pos 61 Side.BLACK ∧
      ¬ffp_is_square_attacked pos 62 Side.BLACK then
    [mkMove 60 62 5 (-1) (-1) MF_CASTLE] else []) ++
  (if pos.castling &&& 2 ≠ 0 ∧
      pos.occ_all &&& (((1 : Nat) <<< 57) ||| ((1 : Nat) <<< 58) ||| ((1 : Nat) <<< 59)) = 0 ∧
      ¬ffp_is_square_attacked pos 60 Side.BLACK ∧ ¬ffp_is_square_attacked pos 59 Side.BLACK ∧
      ¬ffp_is_square_attacked pos 58 Side.BLACK then
    [mkMove 60 58 5 (-1) (-1) MF_CASTLE] else [])

/-- The black king section plus castling. -/
def blackKingMoves (pos : Position) : List Move :=
  let own := pos.occ_black
  let opp := pos.occ_white
  let s := lsbIdx (bbGet pos 11)
  ((bitIndices (king_attacks_from ((1 : Nat) <<< s) &&& compl64 own)).map (fun (t : Nat) =>
    let cap : Int := if opp.testBit t then victimChainW pos t else -1
    mkMove (s : Int) (t : Int) 11 cap (-1) (if cap ≠ -1 then MF_CAPTURE else MF_QUIET))) ++
  (if pos.castling &&& 4 ≠ 0 ∧ pos.occ_all &&& (((1 : Nat) <<< 5) ||| ((1 : Nat) <<< 6)) = 0 ∧
      ¬ffp_is_square_attacked pos 4 Side.WHITE ∧ ¬ffp_is_square_attacked pos 5 Side.WHITE ∧
      ¬ffp_is_square_attacked pos 6 Side.WHITE then
    [mkMove 4 6 11 (-1) (-1) MF_CASTLE] else []) ++
  (if pos.castling &&& 8 ≠ 0 ∧
      pos.occ_all &&& (((1 : Nat) <<< 1) ||| ((1 : Nat) <<< 2) ||| ((1 : Nat) <<< 3)) = 0 ∧
      ¬ffp_is_square_attacked pos 4 Side.WHITE ∧ ¬ffp_is_square_attacked pos 3 Side.WHITE ∧
      ¬ffp_is_square_attacked pos 2 Side.WHITE then
    [mkMove 4 2 11 (-1) (-1) MF_CASTLE] else [])

/-- C `ffp_generate_pseudo_legal`: pawns, knights, bishops, rooks, queens,
king and castling, in the source's emission order. -/
def ffp_generate_pseudo_legal (pos : Position) : List Move :=
  match pos.side with
  | Side.WHITE =>
    let own := pos.occ_white
    let opp := pos.occ_black
    whitePawnMoves pos ++
    pieceMoves pos 2 (fun s => knight_attacks_from ((1 : Nat) <<< s)) own opp victimChainB ++
    pieceMoves pos 3 (fun s => bishop_attacks_from ((1 : Nat) <<< s) pos.occ_all) own opp victimChainB ++
    pieceMoves pos 1 (fun s => rook_attacks_from ((1 : Nat) <<< s) pos.occ_all) own opp victimChainB ++
    pieceMoves pos 4 (fun s => queen_attacks_from ((1 : Nat) <<< s) pos.occ_all) own opp victimChainB ++
    whiteKingMoves pos
  | Side.BLACK =>
    let own := pos.occ_black
    let opp := pos.occ_white
    blackPawnMoves pos ++
    pieceMoves pos 8 (fun s => knight_attacks_from ((1 : Nat) <<< s)) own opp victimChainW ++
    pieceMoves pos 9 (fun s => bishop_attacks_from ((1 : Nat) <<< s) pos.occ_all) own opp victimChainW ++
    pieceMoves pos 7 (fun s => rook_attacks_from ((1 : Nat) <<< s) pos.occ_all) own opp victimChainW ++
    pieceMoves pos 10 (fun s => queen_attacks_from ((1 : Nat) <<< s) pos.occ_all) own opp victimChainW ++
    blackKingMoves pos

/-- C `Undo`. -/
structure Undo where
  castling : Nat
  ep_square : Int
  halfmove_clock : Int
  fullmove_number : Int
  captured : Int
deriving DecidableEq, Repr

/-- C `type_of_piece` (`p % 6`). -/
def type_of_piece (p : Int) : Int := p % 6

/-- C `castling &= ~mask` on a 32-bit `int` holding a small non-negative value. -/
def andNotC (c mask : Nat) : Nat := c &&& (0xFFFFFFFF ^^^ mask)

/-- C `ffp_make_move`: returns the updated position and the undo record. -/
def ffp_make_move (pos : Position) (m : Move) : Position × Undo :=
  let u : Undo := ⟨pos.castling, pos.ep_square, pos.halfmove_clock, pos.fullmove_number, m.captured⟩
  let pos := { pos with
    halfmove_clock :=
      if type_of_piece m.piece = 0 ∨ m.flags &&& (MF_CAPTURE ||| MF_ENPASSANT) ≠ 0 then 0
      else pos.halfmove_clock + 1,
    ep_square := -1 }
  let pos :=
    if m.flags &&& MF_ENPASSANT ≠ 0 then
      match pos.side with
      | Side.WHITE => posPopBit pos 6 (m.toSq + 8).toNat
      | Side.BLACK => posPopBit pos 0 (m.toSq - 8).toNat
    else if m.captured ≠ -1 then posPopBit pos m.captured.toNat m.toSq.toNat
    else pos
  let pos := posSetBit (posPopBit pos m.piece.toNat m.fromSq.toNat) m.piece.toNat m.toSq.toNat
  let pos :=
    if m.flags &&& MF_PROMO ≠ 0 then
      match pos.side with
      | Side.WHITE => posSetBit (posPopBit pos 0 m.toSq.toNat) m.promo.toNat m.toSq.toNat
      | Side.BLACK => posSetBit (posPopBit pos 6 m.toSq.toNat) m.promo.toNat m.toSq.toNat
    else pos
  let pos :=
    if m.flags &&& MF_CASTLE ≠ 0 then
      if m.piece = 5 then
        if m.toSq = 62 then posSetBit (posPopBit pos 1 63) 1 61
        else if m.toSq = 58 then posSetBit (posPopBit pos 1 56) 1 59
        else pos
      else if m.piece = 11 then
        if m.toSq = 6 then posSetBit (posPopBit pos 7 7) 7 5
        else if m.toSq = 2 then posSetBit (posPopBit pos 7 0) 7 3
        else pos
      else pos
    else pos
  let fromBB := (1 : Nat) <<< m.fromSq.toNat
  let ftBB := fromBB ||| ((1 : Nat) <<< m.toSq.toNat)
  let pos := if ftBB.testBit 60 ∨ m.piece = 5 then
      { pos with castling := andNotC pos.castling 3 } else pos
  let pos := if fromBB.testBit 63 ∨ (m.captured = 1 ∧ m.toSq = 63) then
      { pos with castling := andNotC pos.castling 1 } else pos
  let pos := if fromBB.testBit 56 ∨ (m.captured = 1 ∧ m.toSq = 56) then
      { pos with castling := andNotC pos.castling 2 } else pos
  let pos := if ftBB.testBit 4 ∨ m.piece = 11 then
      { pos with castling := andNotC pos.castling 12 } else pos
  let pos := if fromBB.testBit 7 ∨ (m.captured = 7 ∧ m.toSq = 7) then
      { pos with castling := andNotC pos.castling 4 } else pos
  let pos := if fromBB.testBit 0 ∨ (m.captured = 7 ∧ m.toSq = 0) then
      { pos with castling := andNotC pos.castling 8 } else pos
  let pos := if m.flags &&& MF_DOUBLE ≠ 0 then
      { pos with ep_square := match pos.side with
        | Side.WHITE => m.toSq + 8
        | Side.BLACK => m.toSq - 8 }
    else pos
  let pos := if pos.side = Side.BLACK then
      { pos with fullmove_number := pos.fullmove_number + 1 } else pos
  let pos := { pos with side := flipSide pos.side }
  (update_occupancy pos, u)

/-- C `ffp_unmake_move`. -/
def ffp_unmake_move (pos : Position) (m : Move) (u : Undo) : Position :=
  let pos := { pos with castling := u.castling, ep_square := u.ep_square,
                        halfmove_clock := u.halfmove_clock, fullmove_number := u.fullmove_number }
  let pos := { pos with side := flipSide pos.side }
  let pos := posSetBit (posPopBit pos m.piece.toNat m.toSq.toNat) m.piece.toNat m.fromSq.toNat
  let pos :=
    if m.flags &&& MF_PROMO ≠ 0 then
      match pos.side with
      | Side.WHITE => posSetBit (posPopBit pos m.promo.toNat m.toSq.toNat) 0 m.fromSq.toNat
      | Side.BLACK => posSetBit (posPopBit pos m.promo.toNat m.toSq.toNat) 6 m.fromSq.toNat
    else pos
  let pos :=
    if m.flags &&& MF_CASTLE ≠ 0 then
      if m.piece = 5 then
        if m.toSq = 62 then posSetBit (posPopBit pos 1 61) 1 63
        else if m.toSq = 58 then posSetBit (posPopBit pos 1 59) 1 56
        else pos
      else if m.piece = 11 then
        if m.toSq = 6 then posSetBit (posPopBit pos 7 5) 7 7
        else if m.toSq = 2 then posSetBit (posPopBit pos 7 3) 7 0
        else pos
      else pos
    else pos
  let pos :=
    if m.flags &&& MF_ENPASSANT ≠ 0 then
      match pos.side with
      | Side.WHITE => posSetBit pos 6 (m.toSq + 8).toNat
      | Side.BLACK => posSetBit pos 0 (m.toSq - 8).toNat
    else if u.captured ≠ -1 then posSetBit pos u.captured.toNat m.toSq.toNat
    else pos
  update_occupancy pos

/-- C `ffp_generate_legal`: the pseudo-legal list filtered by the
make-then-king-attacked test. -/
def ffp_generate_legal (pos : Position) : List Move :=
  (ffp_generate_pseudo_legal pos).filter (fun mv =>
    let p := (ffp_make_move pos mv).1
    match p.side with
    | Side.WHITE => ¬ffp_is_square_attacked p (lsbIdx (bbGet p 11)) Side.WHITE
    | Side.BLACK => ¬ffp_is_square_attacked p (lsbIdx (bbGet p 5)) Side.BLACK)

/-- C `ffp_generate_legal_array`: the returned count and the list of moves
written through the output pointer (modelled by `movesNonNull`). -/
def ffp_generate_legal_array (pos : Position) (movesNonNull : Bool) (max_moves : Int) :
    Int × List Move :=
  let ml := ffp_generate_legal pos
  let written :=
    if movesNonNull ∧ max_moves > 0 then
      ml.take (if (ml.length : Int) < max_moves then ml.length else max_moves.toNat)
    else []
  ((ml.length : Int), written)

/-- C `ffp_position_clear`. -/
def ffp_position_clear : Position :=
  { bb := List.replicate 12 0, occ_white := 0, occ_black := 0, occ_all := 0,
    side := Side.WHITE, castling := 0, ep_square := -1, halfmove_clock := 0, fullmove_number := 1 }

/-- C `isdigit` on the ASCII range used here. -/
def isdigitC (c : Char) : Bool := 48 ≤ c.toNat ∧ c.toNat ≤ 57

/-- The piece index of a FEN placement character, `-1` for unknown. -/
def pieceOfChar (c : Char) : Int :=
  if c = 'P' then 0 else if c = 'R' then 1 else if c = 'N' then 2 else if c = 'B' then 3
  else if c = 'Q' then 4 else if c = 'K' then 5
  else if c = 'p' then 6 else if c = 'r' then 7 else if c = 'n' then 8 else if c = 'b' then 9
  else if c = 'q' then 10 else if c = 'k' then 11 else -1

/-- Reading `*p` when the rest of the C string is `cs` (NUL at the end). -/
def headC (cs : List Char) : Char := cs.headD (Char.ofNat 0)

/-- The placement loop of `ffp_position_from_fen`.  A `Except.error` result
is a `return false` inside the loop and carries the partially written
position, exactly as the C code leaves it. -/
def placementLoop : List Char → Position → Int → Int →
    Except Position (Position × Int × Int × List Char)
  | [], pos, file, rank => Except.ok (pos, file, rank, [])
  | c :: rest, pos, file, rank =>
    if rank < 0 then Except.ok (pos, file, rank, c :: rest)
    else if c = ' ' then Except.ok (pos, file, rank, c :: rest)
    else if c = '/' then
      if file ≠ 8 then Except.error pos else placementLoop rest pos 0 (rank - 1)
    else if isdigitC c then
      let n : Int := (c.toNat : Int) - 48
      if n < 1 ∨ n > 8 then Except.error pos
      else if file + n > 8 then Except.error pos
      else placementLoop rest pos (file + n) rank
    else
      let piece := pieceOfChar c
      if piece = -1 then Except.error pos
      else if file ≥ 8 then Except.error pos
      else
        let sq := ((7 - rank) * 8 + file).toNat
        let pos1 := posSetBit pos piece.toNat sq
        if file + 1 = 8 ∧ rank > 0 ∧ headC rest ≠ '/' ∧ headC rest ≠ ' ' then Except.error pos1
        else placementLoop rest pos1 (file + 1) rank

/-- C `while (*p==' ') p++`. -/
def skipSpaces : List Char → List Char
  | ' ' :: t => skipSpaces t
  | cs => cs

/-- The castling-field loop; an error carries the partially accumulated
rights, as the C code updates `pos->castling` in place. -/
def castlingLoop : List Char → Nat → Except Nat (Nat × List Char)
  | [], c => Except.ok (c, [])
  | ch :: t, c =>
    if ch = ' ' then Except.ok (c, ch :: t)
    else if ch = 'K' then castlingLoop t (c ||| 1)
    else if ch = 'Q' then castlingLoop t (c ||| 2)
    else if ch = 'k' then castlingLoop t (c ||| 4)
    else if ch = 'q' then castlingLoop t (c ||| 8)
    else Except.error c

/-- C `isspace` (the characters `atoi` skips). -/
def isspaceC (c : Char) : Bool :=
  c = ' ' ∨ c.toNat = 9 ∨ c.toNat = 10 ∨ c.toNat = 11 ∨ c.toNat = 12 ∨ c.toNat = 13

/-- Digit accumulation of `atoi`. -/
def atoiDigits : List Char → Nat → Nat
  | c :: t, acc => if isdigitC c then atoiDigits t (acc * 10 + (c.toNat - 48)) else acc
  | [], acc => acc

/-- C `atoi` (unbounded; the C `int` overflow cases are undefined behaviour). -/
def atoiC (cs : List Char) : Int :=
  let cs2 := cs.dropWhile isspaceC
  match cs2 with
  | '-' :: t => -(atoiDigits t 0 : Int)
  | '+' :: t => (atoiDigits t 0 : Int)
  | _ => (atoiDigits cs2 0 : Int)

/-- Dropping one leading space (C `if (*p==' ') p++`). -/
def skipOneSpace : List Char → List Char
  | [] => []
  | c :: t => if c = ' ' then t else c :: t

/-- The fullmove field of `ffp_position_from_fen` (cannot fail). -/
def fenClocksTail2 : Position → List Char → Bool × Position
  | pos, [] => (true, update_occupancy pos)
  | pos, c :: t => (true, update_occupancy { pos with fullmove_number := atoiC (c :: t) })

/-- The halfmove field of `ffp_position_from_fen` (cannot fail). -/
def fenClocksTail : Position → List Char → Bool × Position
  | pos, [] => (true, update_occupancy pos)
  | pos, c :: t =>
    fenClocksTail2 { pos with halfmove_clock := atoiC (c :: t) }
      (skipOneSpace ((c :: t).dropWhile (fun ch => ch ≠ ' ')))

/-- The optional halfmove/fullmove tail of `ffp_position_from_fen`. -/
def fenClocks (pos : Position) (rest6 : List Char) : Bool × Position :=
  fenClocksTail pos (skipOneSpace rest6)

/-- The file/rank case of the en-passant field: the loader accepts a file
letter a..h and any rank digit 1..8 and stores `(rank-1)*8 + file`. -/
def fenEpSq : Position → Char → List Char → Bool × Position
  | pos, _, [] => (false, pos)
  | pos, c, r :: t2 =>
    if 97 ≤ c.toNat ∧ c.toNat ≤ 104 ∧ 49 ≤ r.toNat ∧ r.toNat ≤ 56 then
      fenClocks
        { pos with ep_square := ((r.toNat : Int) - 49) * 8 + ((c.toNat : Int) - 97) } t2
    else (false, pos)

/-- The en-passant field of `ffp_position_from_fen`. -/
def fenEp : Position → List Char → Bool × Position
  | pos, [] => (false, pos)
  | pos, c :: t =>
    if c = '-' then fenClocks { pos with ep_square := -1 } t else fenEpSq pos c t

/-- After the castling field: the single mandatory space, then en-passant. -/
def fenAfterCastling : Position → Nat → List Char → Bool × Position
  | pos, cast, [] => (false, { pos with castling := cast })
  | pos, cast, c2 :: rest5 =>
    if c2 = ' ' then fenEp { pos with castling := cast } rest5
    else (false, { pos with castling := cast })

/-- Dispatch on the result of the in-place castling scan. -/
def fenCastlingRes : Position → Except Nat (Nat × List Char) → Bool × Position
  | pos, Except.error cpart => (false, { pos with castling := cpart })
  | pos, Except.ok (cast, rest4) => fenAfterCastling pos cast rest4

/-- The letters case of the castling field. -/
def fenCastlingLetters (pos : Position) (other : List Char) : Bool × Position :=
  fenCastlingRes pos (castlingLoop other 0)

/-- The dash case of the castling field. -/
def fenDashTail : Position → List Char → Bool × Position
  | pos, [] => (false, { pos with castling := 0 })
  | pos, c2 :: rest5 =>
    if c2 = ' ' then fenEp { pos with castling := 0 } rest5
    else (false, { pos with castling := 0 })

/-- The castling field of `ffp_position_from_fen` (the C code zeroes
`pos->castling` first and updates it in place while scanning). -/
def fenCastling : Position → List Char → Bool × Position
  | pos, [] => fenCastlingLetters pos []
  | pos, c :: t =>
    if c = '-' then fenDashTail pos t else fenCastlingLetters pos (c :: t)

/-- The single mandatory space after the side field. -/
def fenSideSp : Position → List Char → Bool × Position
  | pos2, [] => (false, pos2)
  | pos2, c2 :: rest3 =>
    if c2 = ' ' then fenCastling pos2 rest3 else (false, pos2)

/-- The side-to-move character. -/
def fenSideGo : Position → List Char → Bool × Position
  | pos, [] => (false, pos)
  | pos, c :: rest2 =>
    if c ≠ 'w' ∧ c ≠ 'b' then (false, pos)
    else fenSideSp { pos with side := if c = 'w' then Side.WHITE else Side.BLACK } rest2

/-- The side field of `ffp_position_from_fen` (one or more spaces are
skipped before it). -/
def fenSide (pos : Position) (rest : List Char) : Bool × Position :=
  fenSideGo pos (skipSpaces rest)

/-- Dispatch on the placement loop result: the C code then checks
`rank==0 && file==8` before the side field. -/
def fenTop : Except Position (Position × Int × Int × List Char) → Bool × Position
  | Except.error p => (false, p)
  | Except.ok (pos, file, rank, rest) =>
    if rank ≠ 0 ∨ file ≠ 8 then (false, pos) else fenSide pos rest

/-- C `ffp_position_from_fen`.  The C function clears `*pos` first and then
writes into it while parsing, so the result position is a function of the
FEN string alone; the boolean is the C return value and the position is the
state `*pos` is left in (partially written on failure). -/
def ffp_position_from_fen (fen : List Char) : Bool × Position :=
  fenTop (placementLoop fen ffp_position_clear 0 7)

/-- The canonical start FEN of ffp.c. -/
def FFP_FEN_STARTPOS : List Char :=
  "rnbqkbnr/pppppppp/8/8/8/8/PPPPPPPP/RNBQKBNR w KQkq - 0 1".toList

/-- C `ffp_position_set_start` (ignores the loader's result, like the source). -/
def ffp_position_set_start : Position := (ffp_position_from_fen FFP_FEN_STARTPOS).2

/-- C `PIECE_CHARS`. -/
def pieceCharOf (p : Nat) : Char :=
  if p = 0 then 'P' else if p = 1 then 'R' else if p = 2 then 'N' else if p = 3 then 'B'
  else if p = 4 then 'Q' else if p = 5 then 'K' else if p = 6 then 'p' else if p = 7 then 'r'
  else if p = 8 then 'n' else if p = 9 then 'b' else if p = 10 then 'q' else 'k'

/-- The first-piece scan of `ffp_position_to_fen` (`for p in 0..11`). -/
def firstPieceAt (pos : Position) (sq : Nat) : Int :=
  (((List.range 12).find? (fun p => (bbGet pos p).testBit sq))).elim (-1) (fun p => (p : Int))

/-- One emitted rank of `ffp_position_to_fen`: files left to right with the
empty-run counter.  `filesLeft` counts the remaining files. -/
def fenRankGo (pos : Position) (rank : Nat) : Nat → Nat → Nat → List Char
  | _, 0, empty => if empty > 0 then [Char.ofNat (48 + empty)] else []
  | file, filesLeft + 1, empty =>
    let sq := rank * 8 + file
    let piece := firstPieceAt pos sq
    if piece = -1 then fenRankGo pos rank (file + 1) filesLeft (empty + 1)
    else
      (if empty > 0 then [Char.ofNat (48 + empty)] else []) ++
      pieceCharOf piece.toNat :: fenRankGo pos rank (file + 1) filesLeft 0

/-- The rank loop of `ffp_position_to_fen`: the source iterates `rank` from
7 down to 0 over squares `rank*8+file` and separates ranks with a slash. -/
def fenRanksFrom (pos : Position) : Nat → List Char
  | 0 => fenRankGo pos 0 0 8 0
  | r + 1 => fenRankGo pos (r + 1) 0 8 0 ++ '/' :: fenRanksFrom pos r

/-- Decimal digits of a natural number (33 digits of fuel is plenty
for any value reachable here). -/
def natDigitsGo : Nat → Nat → List Char
  | 0, _ => []
  | _, 0 => []
  | f + 1, n => natDigitsGo f (n / 10) ++ [Char.ofNat (48 + n % 10)]

/-- Decimal rendering of a natural number. -/
def natToChars (n : Nat) : List Char := if n = 0 then ['0'] else natDigitsGo 33 n

/-- C `%d` rendering of an `int`. -/
def intToChars (i : Int) : List Char :=
  if i < 0 then '-' :: natToChars i.natAbs else natToChars i.toNat

/-- C `ffp_position_to_fen` with a buffer of size `length`: `none` models a
`false` return (null/zero-length buffer, oversized output). -/
def ffp_position_to_fen (pos : Position) (length : Nat) : Option (List Char) :=
  if length = 0 then none
  else
    let temp := fenRanksFrom pos 7 ++ [' '] ++
      [(if pos.side = Side.WHITE then 'w' else 'b')] ++ [' '] ++
      (if pos.castling = 0 then ['-']
       else (if pos.castling &&& 1 ≠ 0 then ['K'] else []) ++
            (if pos.castling &&& 2 ≠ 0 then ['Q'] else []) ++
            (if pos.castling &&& 4 ≠ 0 then ['k'] else []) ++
            (if pos.castling &&& 8 ≠ 0 then ['q'] else [])) ++ [' '] ++
      (if pos.ep_square = -1 then ['-']
       else [Char.ofNat (97 + (pos.ep_square % 8).toNat),
             Char.ofNat (49 + (pos.ep_square / 8).toNat)]) ++ [' '] ++
      intToChars pos.halfmove_clock ++ [' '] ++ intToChars pos.fullmove_number
    if temp.length + 1 > 128 then none
    else if temp.length + 1 > length then none
    else some temp

/-- C `ffp_move_to_string` (empty list for the no-move record). -/
def ffp_move_to_string (m : Move) : List Char :=
  if m.fromSq < 0 ∨ m.toSq < 0 then []
  else
    [Char.ofNat (97 + (m.fromSq % 8).toNat), Char.ofNat (49 + (m.fromSq / 8).toNat),
     Char.ofNat (97 + (m.toSq % 8).toNat), Char.ofNat (49 + (m.toSq / 8).toNat)] ++
    (if m.flags &&& MF_PROMO ≠ 0 then
      [if type_of_piece m.promo = 4 then 'q' else if type_of_piece m.promo = 1 then 'r'
       else if type_of_piece m.promo = 3 then 'b' else 'n']
     else [])

/-- C `tolower` on ASCII. -/
def tolowerC (c : Char) : Char :=
  if 65 ≤ c.toNat ∧ c.toNat ≤ 90 then Char.ofNat (c.toNat + 32) else c

/-- C `ffp_move_from_string`: `none` models a `false` return. -/
def ffp_move_from_string (pos : Position) (uci : List Char) : Option Move :=
  if uci.length < 4 then none
  else
    let nul := Char.ofNat 0
    let ffile : Int := ((uci.getD 0 nul).toNat : Int) - 97
    let frank : Int := ((uci.getD 1 nul).toNat : Int) - 49
    let tfile : Int := ((uci.getD 2 nul).toNat : Int) - 97
    let trank : Int := ((uci.getD 3 nul).toNat : Int) - 49
    if ffile < 0 ∨ ffile > 7 ∨ tfile < 0 ∨ tfile > 7 ∨ frank < 0 ∨ frank > 7 ∨
        trank < 0 ∨ trank > 7 then none
    else
      let fromI := frank * 8 + ffile
      let toI := trank * 8 + tfile
      let c5 := uci.getD 4 nul
      let promo : Int :=
        if c5 ≠ nul then
          let pc := tolowerC c5
          if pc = 'q' then (if pos.side = Side.WHITE then 4 else 10)
          else if pc = 'r' then (if pos.side = Side.WHITE then 1 else 7)
          else if pc = 'b' then (if pos.side = Side.WHITE then 3 else 9)
          else if pc = 'n' then (if pos.side = Side.WHITE then 2 else 8)
          else -1
        else -1
      (ffp_generate_legal pos).find? (fun mv =>
        mv.fromSq = fromI ∧ mv.toSq = toI ∧
        ((promo = -1 ∧ mv.flags &&& MF_PROMO = 0) ∨
         (promo ≠ -1 ∧ mv.flags &&& MF_PROMO ≠ 0 ∧ mv.promo = promo)))

/-- C `evaluate` (material only, from the side to move). -/
def evaluate (pos : Position) : Int :=
  let s : Int :=
    (popcount64 (bbGet pos 0) : Int) * 100 + (popcount64 (bbGet pos 1) : Int) * 500 +
    (popcount64 (bbGet pos 2) : Int) * 320 + (popcount64 (bbGet pos 3) : Int) * 330 +
    (popcount64 (bbGet pos 4) : Int) * 900 -
    ((popcount64 (bbGet pos 6) : Int) * 100 + (popcount64 (bbGet pos 7) : Int) * 500 +
     (popcount64 (bbGet pos 8) : Int) * 320 + (popcount64 (bbGet pos 9) : Int) * 330 +
     (popcount64 (bbGet pos 10) : Int) * 900)
  if pos.side = Side.WHITE then s else -s

/-- C `SearchLimits`.  The wall clock and the external stop flag cannot be
read inside a pure embedding, so the two tests
`elapsed_ms >= time_ms` (only evaluated when `time_ms > 0`) and `*stop`
are modelled by boolean oracles indexed by the number of abort checks
performed so far; a `stop` of `none` is a NULL stop pointer. -/
structure SearchLimits where
  max_depth : Int
  time_ms : Int
  node_limit : Nat
  stop : Option (Nat → Bool)
  timeOracle : Nat → Bool

/-- C `SearchContext` (the `clock_t start` is absorbed into the oracle). -/
structure SearchContext where
  nodes : Nat
  checks : Nat
  limits : SearchLimits
  aborted : Bool

/-- C `search_should_abort` (mutates the context). -/
def search_should_abort (ctx : SearchContext) : Bool × SearchContext :=
  let k := ctx.checks
  let ctx := { ctx with checks := k + 1 }
  if ctx.aborted then (true, ctx)
  else if ctx.limits.node_limit ≠ 0 ∧ ctx.nodes ≥ ctx.limits.node_limit then
    (true, { ctx with aborted := true })
  else if (match ctx.limits.stop with | some f => f k | none => false) then
    (true, { ctx with aborted := true })
  else if ctx.limits.time_ms > 0 ∧ ctx.limits.timeOracle k then
    (true, { ctx with aborted := true })
  else (false, ctx)

/-- The move loop of C `alphabeta`, parameterised by the recursive call
(`recFn` is `alphabeta` at depth `depth-1`). -/
def abLoopF (recFn : Position → Int → Int → SearchContext → Int × SearchContext × Position) :
    List Move → Position → Int → Int → SearchContext → Int × SearchContext × Position
  | [], pos, alpha, _, ctx => (alpha, ctx, pos)
  | mv :: rest, pos, alpha, beta, ctx =>
    let mk := ffp_make_move pos mv
    let rec1 := recFn mk.1 (-beta) (-alpha) ctx
    let score := -rec1.1
    let ctx2 := rec1.2.1
    let pos3 := ffp_unmake_move rec1.2.2 mv mk.2
    if ctx2.aborted then (0, ctx2, pos3)
    else if score ≥ beta then (beta, ctx2, pos3)
    else abLoopF recFn rest pos3 (if score > alpha then score else alpha) beta ctx2

/-- C `alphabeta`; the returned position is the state of the borrowed
`Position` at return.  C passes `depth-1` to the recursive calls of the
move loop, which the `d + 1` pattern mirrors. -/
def alphabeta (pos : Position) (depth : Nat) (alpha beta : Int) (ctx : SearchContext) :
    Int × SearchContext × Position :=
  let r := search_should_abort ctx
  if r.1 then (0, r.2, pos)
  else
    let ctx := { r.2 with nodes := r.2.nodes + 1 }
    match depth with
    | 0 => (evaluate pos, ctx, pos)
    | d + 1 =>
      let ml := ffp_generate_legal pos
      if ml.length = 0 then
        let ks := match pos.side with
          | Side.WHITE => lsbIdx (bbGet pos 5)
          | Side.BLACK => lsbIdx (bbGet pos 11)
        if ffp_is_square_attacked pos ks (flipSide pos.side) then
          (-20000 + (5 - ((d : Int) + 1)), ctx, pos)
        else (0, ctx, pos)
      else abLoopF (fun p a b c => alphabeta p d a b c) ml pos alpha beta ctx

/-- The no-move record `ffp_search` initialises `best_move` with. -/
def noMove : Move := { fromSq := -1, toSq := -1, piece := -1, promo := -1, captured := -1, flags := 0 }

/-- C `SearchResult`. -/
structure SearchResult where
  best_move : Move
  depth_reached : Int
  score : Int
  nodes : Nat
  aborted : Bool
deriving DecidableEq, Repr

/-- The root-move loop of `ffp_search` at one depth; `dM1` is `depth-1`. -/
def rootLoop (ms : List Move) (pos : Position) (dM1 : Nat) (ctx : SearchContext)
    (best_score : Int) (best_move_depth : Move) (found : Bool) :
    Int × Move × Bool × SearchContext × Position :=
  match ms with
  | [] => (best_score, best_move_depth, found, ctx, pos)
  | mv :: rest =>
    let r := search_should_abort ctx
    if r.1 then (best_score, best_move_depth, found, r.2, pos)
    else
      let ctx := r.2
      let mk := ffp_make_move pos mv
      let rec1 := alphabeta mk.1 dM1 (-30000) 30000 ctx
      let score := -rec1.1
      let ctx := rec1.2.1
      let pos3 := ffp_unmake_move rec1.2.2 mv mk.2
      if ctx.aborted then (best_score, best_move_depth, found, ctx, pos3)
      else if ¬found ∨ score > best_score then rootLoop rest pos3 dM1 ctx score mv true
      else rootLoop rest pos3 dM1 ctx best_score best_move_depth found

/-- The iterative-deepening loop of `ffp_search`: `depth` is the current
depth, `remaining` the number of depths still to run. -/
def idLoop (rootMoves : List Move) : Nat → Nat → Position → SearchContext → SearchResult →
    Move → SearchResult × SearchContext × Position × Move
  | _, 0, pos, ctx, result, bsf => (result, ctx, pos, bsf)
  | depth, remaining + 1, pos, ctx, result, bsf =>
    let r := rootLoop rootMoves pos (depth - 1) ctx (-30000) (rootMoves.headD noMove) false
    let found := r.2.2.1
    let ctx := r.2.2.2.1
    let pos := r.2.2.2.2
    let result := { result with nodes := ctx.nodes, aborted := ctx.aborted }
    if ctx.aborted then (result, ctx, pos, bsf)
    else
      let bs := r.1
      let bmd := r.2.1
      if found then
        idLoop rootMoves (depth + 1) remaining pos ctx
          { result with best_move := bmd, depth_reached := (depth : Int), score := bs } bmd
      else idLoop rootMoves (depth + 1) remaining pos ctx result bsf

/-- C `ffp_search` (with a non-null `limits`); returns the result and the
final state of the borrowed position. -/
def ffp_search (pos : Position) (limits : SearchLimits) : SearchResult × Position :=
  let effective := if limits.max_depth ≤ 0 then { limits with max_depth := 4 } else limits
  let ctx : SearchContext := { nodes := 0, checks := 0, limits := effective, aborted := false }
  let result0 : SearchResult :=
    { best_move := noMove, depth_reached := 0, score := 0, nodes := 0, aborted := false }
  let rootMoves := ffp_generate_legal pos
  if rootMoves.length = 0 then
    let ks := match pos.side with
      | Side.WHITE => lsbIdx (bbGet pos 5)
      | Side.BLACK => lsbIdx (bbGet pos 11)
    let in_check := ffp_is_square_attacked pos ks (flipSide pos.side)
    ({ result0 with score := if in_check then -20000 else 0, aborted := false }, pos)
  else
    let bsf0 := rootMoves.headD noMove
    let r := idLoop rootMoves 1 effective.max_depth.toNat pos ctx result0 bsf0
    let result := r.1
    let ctx := r.2.1
    let posF := r.2.2.1
    let bsf := r.2.2.2
    let result := if result.best_move.fromSq = -1 then { result with best_move := bsf } else result
    ({ result with nodes := ctx.nodes, aborted := ctx.aborted }, posF)

/-- The king square of the side to move, as the search computes it. -/
def kingSqOfMover (pos : Position) : Nat :=
  match pos.side with
  | Side.WHITE => lsbIdx (bbGet pos 5)
  | Side.BLACK => lsbIdx (bbGet pos 11)

/-- Spec invariant: the bitboard list has its twelve entries, each a 64-bit
value (the C `U64 bb[12]` representation). -/
abbrev bbRep (pos : Position) : Prop :=
  pos.bb.length = 12 ∧ ∀ i < 12, bbGet pos i < 2 ^ 64

/-- Spec invariant 2: cached occupancies equal the unions of the
corresponding piece sets. -/
abbrev coherentOcc (pos : Position) : Prop :=
  pos.occ_white = (bbGet pos 0 ||| bbGet pos 1 ||| bbGet pos 2 |||
    bbGet pos 3 ||| bbGet pos 4 ||| bbGet pos 5) ∧
  pos.occ_black = (bbGet pos 6 ||| bbGet pos 7 ||| bbGet pos 8 |||
    bbGet pos 9 ||| bbGet pos 10 ||| bbGet pos 11) ∧
  pos.occ_all = (pos.occ_white ||| pos.occ_black)

/-- Spec invariant 1: piece sets are pairwise disjoint. -/
abbrev disjointBB (pos : Position) : Prop :=
  ∀ i < 12, ∀ j < 12, i ≠ j → bbGet pos i &&& bbGet pos j = 0

/-- Spec invariant 3: each side has exactly one king. -/
abbrev oneKingEach (pos : Position) : Prop :=
  (∃ k, k < 64 ∧ bbGet pos 5 = 2 ^ k) ∧ (∃ k, k < 64 ∧ bbGet pos 11 = 2 ^ k)

/-- Spec invariant 4: the en-passant target, when set, is on rank 6 (board
rows 16..23) when White is to move and rank 3 (rows 40..47) when Black is. -/
abbrev epRankOK (pos : Position) : Prop :=
  pos.ep_square = -1 ∨
  (pos.side = Side.WHITE ∧ 16 ≤ pos.ep_square ∧ pos.ep_square < 24) ∨
  (pos.side = Side.BLACK ∧ 40 ≤ pos.ep_square ∧ pos.ep_square < 48)

/-- Spec invariant 5: castling rights imply king and rook on their origin
squares (and the four-bit representation of the C loader). -/
abbrev castlePlacementOK (pos : Position) : Prop :=
  pos.castling < 16 ∧
  (pos.castling &&& 1 ≠ 0 → (bbGet pos 5).testBit 60 ∧ (bbGet pos 1).testBit 63) ∧
  (pos.castling &&& 2 ≠ 0 → (bbGet pos 5).testBit 60 ∧ (bbGet pos 1).testBit 56) ∧
  (pos.castling &&& 4 ≠ 0 → (bbGet pos 11).testBit 4 ∧ (bbGet pos 7).testBit 7) ∧
  (pos.castling &&& 8 ≠ 0 → (bbGet pos 11).testBit 4 ∧ (bbGet pos 7).testBit 0)

/-- Spec invariant 6: the side not to move is not in check. -/
abbrev nonMoverSafe (pos : Position) : Prop :=
  (pos.side = Side.WHITE → ffp_is_square_attacked pos (lsbIdx (bbGet pos 11)) Side.WHITE = false) ∧
  (pos.side = Side.BLACK → ffp_is_square_attacked pos (lsbIdx (bbGet pos 5)) Side.BLACK = false)

/-- The six quiescent-point invariants of the spec (plus the machine-width
representation constraints of the C types). -/
abbrev QuiescentInv (pos : Position) : Prop :=
  bbRep pos ∧ disjointBB pos ∧ coherentOcc pos ∧ oneKingEach pos ∧ epRankOK pos ∧
  castlePlacementOK pos ∧ nonMoverSafe pos

/-- En-passant consistency (the meaning the spec's data model gives the
field, not listed among the numbered invariants): a set en-passant target is
an empty square and the opposing pawn that just double-pushed stands on the
square behind it. -/
abbrev EpConsistent (pos : Position) : Prop :=
  pos.ep_square ≠ -1 →
    (∀ i < 12, (bbGet pos i).testBit pos.ep_square.toNat = false) ∧
    (pos.side = Side.WHITE → (bbGet pos 6).testBit (pos.ep_square.toNat + 8) = true) ∧
    (pos.side = Side.BLACK → (bbGet pos 0).testBit (pos.ep_square.toNat - 8) = true)

/-- The spec scenario S3 FEN. -/
def s3fen : List Char := "rnbqkbnr/ppp1p1pp/8/3pPp2/8/8/PPPP1PPP/RNBQKBNR w KQkq f6 0 3".toList

/-- Back-rank mate used as a no-legal-moves test position: black king a8,
white queen b7, white king c6, Black to move (checkmate). -/
def matePos : Position :=
  update_occupancy
    { bb := [0, 0, 0, 0, 512, 262144, 0, 0, 0, 0, 0, 1],
      occ_white := 0, occ_black := 0, occ_all := 0, side := Side.BLACK, castling := 0,
      ep_square := -1, halfmove_clock := 0, fullmove_number := 1 }

/-- Search limits with `max_depth = 1` and no other limit; both oracles
answer false (no timeout, no external stop). -/
def depth1Limits : SearchLimits := ⟨1, 0, 0, none, fun _ => false⟩

/-- A fresh search context over `depth1Limits`. -/
def ctx0 : SearchContext := ⟨0, 0, depth1Limits, false⟩

/-- A position satisfying the six numbered quiescent invariants whose
en-passant data is inconsistent: white king a1 (56), black king a8 (0),
white pawn e5 (28), en-passant target f6 (21) with no black pawn on f5. -/
def ghostEpPos : Position :=
  update_occupancy
    { bb := [268435456, 0, 0, 0, 0, 72057594037927936, 0, 0, 0, 0, 0, 1],
      occ_white := 0, occ_black := 0, occ_all := 0, side := Side.WHITE, castling := 0,
      ep_square := 21, halfmove_clock := 0, fullmove_number := 1 }

/-- The en-passant move `ffp_generate_pseudo_legal` emits from `ghostEpPos`. -/
def ghostEpMove : Move := mkMove 28 21 0 6 (-1) (MF_ENPASSANT ||| MF_CAPTURE)

/-- A FEN whose en-passant field names rank 4 (the spec grammar allows only
ranks 3 and 6). -/
def epRank4Fen : List Char := "4k3/8/8/8/8/8/8/4K3 w - e4 0 1".toList

/-- A FEN with an empty castling field (two spaces after the side field). -/
def emptyCastleFen : List Char := "4k3/8/8/8/8/8/8/4K3 w  - - 0 1".toList

/-- A FEN that fails in the castling field after the placement and side have
already been written into the position. -/
def badCastleFen : List Char := "4k3/8/8/8/8/8/8/4K3 w Kx - 0 1".toList

/-- The string `ffp_position_to_fen` produces for the start position
(ranks emitted bottom-up by the source). -/
def mirroredStartFen : List Char :=
  "RNBQKBNR/PPPPPPPP/8/8/8/8/pppppppp/rnbqkbnr w KQkq - 0 1".toList

/-- The white double push e2e4 in the engine's board indexing (52 to 36). -/
def e2e4Move : Move := mkMove 52 36 0 (-1) (-1) MF_DOUBLE

/-- Spec-side placement grammar checker (ranks top to bottom separated by
slashes, each summing to eight files via digits 1..8 and known piece
characters); returns the remainder after the placement. -/
def placeChk : List Char → Int → Int → Option (List Char)
  | [], file, rank => if file = 8 ∧ rank = 0 then some [] else none
  | c :: rest, file, rank =>
    if c = ' ' then (if file = 8 ∧ rank = 0 then some (c :: rest) else none)
    else if c = '/' then
      (if file = 8 ∧ rank > 0 then placeChk rest 0 (rank - 1) else none)
    else if isdigitC c then
      (if 1 ≤ (c.toNat : Int) - 48 ∧ (c.toNat : Int) - 48 ≤ 8 ∧ file + ((c.toNat : Int) - 48) ≤ 8
       then placeChk rest (file + ((c.toNat : Int) - 48)) rank else none)
    else if pieceOfChar c ≠ -1 ∧ file < 8 then placeChk rest (file + 1) rank
    else none

/-- Spec-side en-passant square shape: file letter a..h, rank digit 1..8
(the loader accepts every rank, not only 3 and 6). -/
def epFieldChk2 : Char → List Char → Bool
  | _, [] => false
  | c, r :: _ => 97 ≤ c.toNat ∧ c.toNat ≤ 104 ∧ 49 ≤ r.toNat ∧ r.toNat ≤ 56

/-- Spec-side en-passant field: a dash or a square. -/
def epFieldChk : List Char → Bool
  | [] => false
  | c :: t => if c = '-' then true else epFieldChk2 c t

/-- Spec-side castling letters: zero or more characters from KQkq ending at
the mandatory space, then the en-passant field. -/
def castLettersChk : List Char → Bool
  | [] => false
  | c :: v =>
    if c = ' ' then epFieldChk v
    else if c = 'K' ∨ c = 'Q' ∨ c = 'k' ∨ c = 'q' then castLettersChk v
    else false

/-- Spec-side dash castling field: the dash must be followed by a space. -/
def castDashChk : List Char → Bool
  | [] => false
  | c2 :: v => if c2 = ' ' then epFieldChk v else false

/-- Spec-side castling field: a dash or letters, ending at a space. -/
def castFieldChk : List Char → Bool
  | [] => false
  | c :: t => if c = '-' then castDashChk t else castLettersChk (c :: t)

/-- Spec-side single space before the castling field. -/
def fenGoodSp : List Char → Bool
  | [] => false
  | c2 :: v => if c2 = ' ' then castFieldChk v else false

/-- Spec-side side field: w or b then a space. -/
def fenGoodSide : List Char → Bool
  | [] => false
  | c :: u => if c = 'w' ∨ c = 'b' then fenGoodSp u else false

/-- Spec-side: one or more spaces after the placement, then the side. -/
def fenGoodRest : List Char → Bool
  | [] => false
  | c :: t => if c = ' ' then fenGoodSide (skipSpaces t) else false

/-- Spec-side dispatch on the placement check. -/
def fenGoodTop : Option (List Char) → Bool
  | none => false
  | some rest => fenGoodRest rest

/-- Spec-side FEN shape, written from the spec grammar: placement ranks
summing to 8 with known piece characters, space(s), side, single space,
castling field, single space, en-passant field; anything may follow. -/
def fenGood (cs : List Char) : Bool := fenGoodTop (placeChk cs 0 7)

/-- A FEN whose en-passant field "f6" is stored as square 45, a square
occupied by a black rook (board square f3), with a white pawn on g2. -/
def epRookFen : List Char := "4k3/8/8/8/8/5r2/6P1/4K3 w - f6 0 1".toList

/-- The position the loader builds from `epRookFen`. -/
def epRookPos : Position := (ffp_position_from_fen epRookFen).2

/-- The en-passant capture onto the occupied square 45 that
`ffp_generate_pseudo_legal` emits from `epRookPos` (g2 onto board f3). -/
def epRookMove : Move := mkMove 54 45 0 6 (-1) (MF_ENPASSANT ||| MF_CAPTURE)

def emptyAt (pos : Position) (t : Nat) : Prop := ∀ i < 12, (bbGet pos i).testBit t = false

def MFnormal (pos : Position) (m : Move) : Prop :=
  ∃ p f t : Nat,
    m.piece = (p : Int) ∧ m.fromSq = (f : Int) ∧ m.toSq = (t : Int) ∧ m.promo = -1 ∧
    p < 12 ∧ f < 64 ∧ t < 64 ∧ f ≠ t ∧
    (pos.side = Side.WHITE → p < 6) ∧ (pos.side = Side.BLACK → 6 ≤ p) ∧
    (bbGet pos p).testBit f = true ∧
    m.flags &&& MF_ENPASSANT = 0 ∧ m.flags &&& MF_PROMO = 0 ∧ m.flags &&& MF_CASTLE = 0 ∧
    ((m.captured = -1 ∧ emptyAt pos t) ∨
      (∃ c : Nat, m.captured = (c : Int) ∧ c < 12 ∧ c ≠ p ∧
        (pos.side = Side.WHITE → 6 ≤ c ∧ c < 11) ∧ (pos.side = Side.BLACK → c < 5) ∧
        (bbGet pos c).testBit t = true ∧
        (∀ i < 12, i ≠ c → (bbGet pos i).testBit t = false) ∧
        m.flags &&& MF_DOUBLE = 0)) ∧
    (m.flags &&& MF_DOUBLE ≠ 0 →
      m.captured = -1 ∧
      ((pos.side = Side.WHITE ∧ p = 0 ∧ f = t + 16 ∧ 32 ≤ t ∧ t < 40 ∧ emptyAt pos (t + 8)) ∨
       (pos.side = Side.BLACK ∧ p = 6 ∧ f + 16 = t ∧ 24 ≤ t ∧ t < 32 ∧ emptyAt pos (t - 8))))

def MFep (pos : Position) (m : Move) : Prop :=
  ∃ f t : Nat,
    m.fromSq = (f : Int) ∧ m.toSq = (t : Int) ∧ m.promo = -1 ∧
    f < 64 ∧
    m.flags &&& MF_ENPASSANT ≠ 0 ∧ m.flags &&& MF_PROMO = 0 ∧ m.flags &&& MF_CASTLE = 0 ∧
    m.flags &&& MF_DOUBLE = 0 ∧
    emptyAt pos t ∧ pos.ep_square = (t : Int) ∧
    ((pos.side = Side.WHITE ∧ m.piece = 0 ∧ m.captured = 6 ∧ 16 ≤ t ∧ t < 24 ∧
      (bbGet pos 0).testBit f = true ∧ (bbGet pos 6).testBit (t + 8) = true) ∨
     (pos.side = Side.BLACK ∧ m.piece = 6 ∧ m.captured = 0 ∧ 40 ≤ t ∧ t < 48 ∧
      (bbGet pos 6).testBit f = true ∧ (bbGet pos 0).testBit (t - 8) = true))

def MFpromo (pos : Position) (m : Move) : Prop :=
  ∃ f t q : Nat,
    m.fromSq = (f : Int) ∧ m.toSq = (t : Int) ∧ m.promo = (q : Int) ∧
    f < 64 ∧ t < 64 ∧ f ≠ t ∧ q < 12 ∧
    m.flags &&& MF_ENPASSANT = 0 ∧ m.flags &&& MF_PROMO ≠ 0 ∧ m.flags &&& MF_CASTLE = 0 ∧
    m.flags &&& MF_DOUBLE = 0 ∧
    ((pos.side = Side.WHITE ∧ m.piece = 0 ∧ 1 ≤ q ∧ q ≤ 4 ∧ t < 8 ∧
      (bbGet pos 0).testBit f = true) ∨
     (pos.side = Side.BLACK ∧ m.piece = 6 ∧ 7 ≤ q ∧ q ≤ 10 ∧ 56 ≤ t ∧
      (bbGet pos 6).testBit f = true)) ∧
    ((m.captured = -1 ∧ emptyAt pos t) ∨
      (∃ c : Nat, m.captured = (c : Int) ∧ c < 12 ∧
        (pos.side = Side.WHITE → 6 ≤ c ∧ c < 11) ∧ (pos.side = Side.BLACK → c < 5) ∧
        (bbGet pos c).testBit t = true ∧
        (∀ i < 12, i ≠ c → (bbGet pos i).testBit t = false)))

def MFcastle (pos : Position) (m : Move) : Prop :=
  m.captured = -1 ∧ m.promo = -1 ∧
  m.flags &&& MF_ENPASSANT = 0 ∧ m.flags &&& MF_PROMO = 0 ∧ m.flags &&& MF_CASTLE ≠ 0 ∧
  m.flags &&& MF_DOUBLE = 0 ∧
  ((pos.side = Side.WHITE ∧ m.piece = 5 ∧ m.fromSq = 60 ∧
    (bbGet pos 5).testBit 60 = true ∧
    ((m.toSq = 62 ∧ (bbGet pos 1).testBit 63 = true ∧ emptyAt pos 61 ∧ emptyAt pos 62) ∨
     (m.toSq = 58 ∧ (bbGet pos 1).testBit 56 = true ∧ emptyAt pos 59 ∧ emptyAt pos 58))) ∨
   (pos.side = Side.BLACK ∧ m.piece = 11 ∧ m.fromSq = 4 ∧
    (bbGet pos 11).testBit 4 = true ∧
    ((m.toSq = 6 ∧ (bbGet pos 7).testBit 7 = true ∧ emptyAt pos 5 ∧ emptyAt pos 6) ∨
     (m.toSq = 2 ∧ (bbGet pos 7).testBit 0 = true ∧ emptyAt pos 3 ∧ emptyAt pos 2))))

def MoveFacts (pos : Position) (m : Move) : Prop :=
  MFnormal pos m ∨ MFep pos m ∨ MFpromo pos m ∨ MFcastle pos m

/-- A fully consistent test position: black pawn d5 (square 27), white pawn
e4 (36), black king h8 (7), white king h1 (63), Black to move. -/
def probePos : Position :=
  update_occupancy
    { bb := [2 ^ 36, 0, 0, 0, 0, 2 ^ 63, 2 ^ 27, 0, 0, 0, 0, 2 ^ 7],
      occ_white := 0, occ_black := 0, occ_all := 0, side := Side.BLACK, castling := 0,
      ep_square := -1, halfmove_clock := 0, fullmove_number := 1 }

/-- The black pawn capture d5xe4 as the generator emits it from `probePos`:
the recorded from square is 29 (f5), not 27 (d5), because the black capture
sections pair `shift_sw` with `to-9` and `shift_se` with `to-7`. -/
def blackCapMove : Move := mkMove 29 36 6 0 (-1) MF_CAPTURE

-- ===================================================================
-- Theorems.
-- ===================================================================

-- Bit-level toolbox, make/unmake descriptions and the move-facts
-- extraction used by the make/unmake and search analyses.

theorem one_shl (s : Nat) : (1 : Nat) <<< s = 2 ^ s := Nat.one_shiftLeft s

theorem shl_one_testBit (s j : Nat) : ((1 : Nat) <<< s).testBit j = decide (s = j) := by
  rw [one_shl, Nat.testBit_two_pow]

theorem mask64_testBit (j : Nat) : mask64.testBit j = decide (j < 64) := by
  have h : mask64 = 2 ^ 64 - 1 := by norm_num [mask64]
  rw [h, Nat.testBit_two_pow_sub_one]

theorem compl64_testBit (x j : Nat) :
    (compl64 x).testBit j = (x.testBit j ^^ decide (j < 64)) := by
  rw [compl64, Nat.testBit_xor, mask64_testBit]

theorem testBit_ge_pow (b j n : Nat) (hb : b < 2 ^ n) (h : n ≤ j) : b.testBit j = false :=
  Nat.testBit_lt_two_pow (lt_of_lt_of_le hb (Nat.pow_le_pow_right (by norm_num) h))

theorem testBit_lt_pow (b j n : Nat) (hb : b < 2 ^ n) (h : b.testBit j = true) : j < n := by
  by_contra hj
  rw [testBit_ge_pow b j n hb (by omega)] at h
  simp at h

theorem testBit_high (b j : Nat) (hb : b < 2 ^ 64) (h : 64 ≤ j) : b.testBit j = false :=
  testBit_ge_pow b j 64 hb h

theorem testBit_lt64 (b j : Nat) (hb : b < 2 ^ 64) (h : b.testBit j = true) : j < 64 :=
  testBit_lt_pow b j 64 hb h

theorem setBit_testBit (b s j : Nat) :
    (b ||| (1 : Nat) <<< s).testBit j = (b.testBit j || decide (s = j)) := by
  rw [Nat.testBit_or, shl_one_testBit]

theorem popBit_testBit (b s j : Nat) (hb : b < 2 ^ 64) :
    (b &&& compl64 ((1 : Nat) <<< s)).testBit j = (b.testBit j && !(decide (s = j))) := by
  rw [Nat.testBit_and, compl64_testBit, shl_one_testBit]
  by_cases hj : j < 64
  · simp [hj]
  · rw [testBit_high b j hb (by omega)]
    simp

theorem setBit_lt (b s : Nat) (hb : b < 2 ^ 64) (hs : s < 64) :
    b ||| (1 : Nat) <<< s < 2 ^ 64 := by
  refine Nat.or_lt_two_pow hb ?_
  rw [one_shl]
  exact Nat.pow_lt_pow_right (by norm_num) hs

theorem popBit_lt (b s : Nat) (hb : b < 2 ^ 64) :
    b &&& compl64 ((1 : Nat) <<< s) < 2 ^ 64 :=
  lt_of_le_of_lt Nat.and_le_left hb

theorem and_eq_zero_iff_bits (a b : Nat) :
    a &&& b = 0 ↔ ∀ i, ¬(a.testBit i = true ∧ b.testBit i = true) := by
  constructor
  · intro h i hc
    have h2 := congrArg (fun x => x.testBit i) h
    simp only [Nat.testBit_and, Nat.zero_testBit] at h2
    rw [hc.1, hc.2] at h2
    simp at h2
  · intro h
    apply Nat.eq_of_testBit_eq
    intro i
    rw [Nat.testBit_and, Nat.zero_testBit]
    by_cases ha : a.testBit i
    · by_cases hbb : b.testBit i
      · exact absurd ⟨ha, hbb⟩ (h i)
      · simp [hbb]
    · simp [ha]

theorem and_shl_ne_zero (x t : Nat) : (x &&& (1 : Nat) <<< t ≠ 0) ↔ x.testBit t = true := by
  rw [one_shl, Nat.and_two_pow]
  rcases hx : x.testBit t
  · simp
  · simp [Nat.pow_eq_zero]

theorem shift_north_testBit (b t : Nat) : (shift_north b).testBit t = b.testBit (t + 8) := by
  rw [shift_north, Nat.testBit_shiftRight, Nat.add_comm]

theorem shift_nw_testBit (b t : Nat) :
    (shift_nw b).testBit t = true → b.testBit (t + 9) = true := by
  intro h
  rw [shift_nw, Nat.testBit_shiftRight, Nat.testBit_and, Nat.add_comm] at h
  simp only [Bool.and_eq_true] at h
  exact h.1

theorem shift_ne_testBit (b t : Nat) :
    (shift_ne b).testBit t = true → b.testBit (t + 7) = true := by
  intro h
  rw [shift_ne, Nat.testBit_shiftRight, Nat.testBit_and, Nat.add_comm] at h
  simp only [Bool.and_eq_true] at h
  exact h.1

theorem shl64_testBit (b k j : Nat) :
    (shl64 b k).testBit j = (decide (k ≤ j) && b.testBit (j - k) && decide (j < 64)) := by
  rw [shl64, Nat.testBit_and, mask64_testBit, Nat.testBit_shiftLeft]

theorem shift_south_testBit (b t : Nat) :
    (shift_south b).testBit t = (decide (8 ≤ t) && b.testBit (t - 8) && decide (t < 64)) := by
  rw [shift_south, shl64_testBit]

theorem shift_sw_testBit (b t : Nat) :
    (shift_sw b).testBit t = true → 7 ≤ t ∧ t < 64 ∧ b.testBit (t - 7) = true := by
  intro h
  rw [shift_sw, shl64_testBit, Nat.testBit_and] at h
  simp only [Bool.and_eq_true, decide_eq_true_eq] at h
  exact ⟨h.1.1, h.2, h.1.2.1⟩

theorem shift_se_testBit (b t : Nat) :
    (shift_se b).testBit t = true → 9 ≤ t ∧ t < 64 ∧ b.testBit (t - 9) = true := by
  intro h
  rw [shift_se, shl64_testBit, Nat.testBit_and] at h
  simp only [Bool.and_eq_true, decide_eq_true_eq] at h
  exact ⟨h.1.1, h.2, h.1.2.1⟩

theorem rank_mask8_range (t : Nat) (h : (RANK_MASK 8).testBit t = true) : t < 8 := by
  have he : RANK_MASK 8 = 0xFF := by norm_num [RANK_MASK]
  rw [he] at h
  exact testBit_lt_pow 0xFF t 8 (by norm_num) h

theorem rank_mask1_range (t : Nat) (h : (RANK_MASK 1).testBit t = true) : 56 ≤ t ∧ t < 64 := by
  have he : RANK_MASK 1 = 0xFF <<< 56 := by norm_num [RANK_MASK]
  rw [he, Nat.testBit_shiftLeft] at h
  simp only [Bool.and_eq_true, decide_eq_true_eq, ge_iff_le] at h
  have h2 := testBit_lt_pow 0xFF (t - 56) 8 (by norm_num) h.2
  omega

theorem rank_mask3_range (t : Nat) (h : (RANK_MASK 3).testBit t = true) : 40 ≤ t ∧ t < 48 := by
  have he : RANK_MASK 3 = 0xFF <<< 40 := by norm_num [RANK_MASK]
  rw [he, Nat.testBit_shiftLeft] at h
  simp only [Bool.and_eq_true, decide_eq_true_eq, ge_iff_le] at h
  have h2 := testBit_lt_pow 0xFF (t - 40) 8 (by norm_num) h.2
  omega

theorem rank_mask6_range (t : Nat) (h : (RANK_MASK 6).testBit t = true) : 16 ≤ t ∧ t < 24 := by
  have he : RANK_MASK 6 = 0xFF <<< 16 := by norm_num [RANK_MASK]
  rw [he, Nat.testBit_shiftLeft] at h
  simp only [Bool.and_eq_true, decide_eq_true_eq, ge_iff_le] at h
  have h2 := testBit_lt_pow 0xFF (t - 16) 8 (by norm_num) h.2
  omega

theorem int_toNat_cast (n : Nat) : ((n : Int)).toNat = n := Int.toNat_natCast n

theorem getD_set_self (l : List Nat) (i v : Nat) (h : i < l.length) :
    (l.set i v).getD i 0 = v := by
  rw [List.getD_eq_getElem _ _ (by simpa using h)]
  exact List.getElem_set_self _

theorem getD_set_ne (l : List Nat) (i j v : Nat) (h : i ≠ j) :
    (l.set i v).getD j 0 = l.getD j 0 := by
  by_cases hj : j < l.length
  · rw [List.getD_eq_getElem _ _ (by simpa using hj), List.getD_eq_getElem _ _ hj]
    exact List.getElem_set_ne h _
  · rw [List.getD_eq_default _ _ (by simpa using Nat.le_of_not_lt hj),
        List.getD_eq_default _ _ (Nat.le_of_not_lt hj)]

theorem list_set_self (l : List Nat) (i : Nat) (h : i < l.length) : l.set i l[i] = l := by
  apply List.ext_getElem (by simp)
  intro n h1 h2
  by_cases hn : i = n
  · subst hn; simp
  · rw [List.getElem_set_ne hn]

theorem list_set_getD (l : List Nat) (i : Nat) (h : i < l.length) : l.set i (l.getD i 0) = l := by
  rw [List.getD_eq_getElem _ _ h]
  exact list_set_self l i h

theorem moveBits_roundtrip (b f t : Nat) (hb : b < 2 ^ 64) (hf64 : f < 64) (ht64 : t < 64)
    (hf : b.testBit f = true) (ht : b.testBit t = false) :
    ((((b &&& compl64 ((1 : Nat) <<< f)) ||| ((1 : Nat) <<< t)) &&&
      compl64 ((1 : Nat) <<< t)) ||| ((1 : Nat) <<< f)) = b := by
  apply Nat.eq_of_testBit_eq
  intro j
  rw [setBit_testBit, popBit_testBit _ _ _ (setBit_lt _ _ (popBit_lt _ _ hb) ht64),
      setBit_testBit, popBit_testBit _ _ _ hb]
  by_cases hfj : f = j
  · subst hfj; simp [hf]
  · by_cases htj : t = j
    · subst htj; simp [ht, hfj]
    · simp [hfj, htj]

theorem popSet_restore (b t : Nat) (hb : b < 2 ^ 64) (ht : b.testBit t = true) :
    (b &&& compl64 ((1 : Nat) <<< t)) ||| ((1 : Nat) <<< t) = b := by
  apply Nat.eq_of_testBit_eq
  intro j
  rw [setBit_testBit, popBit_testBit _ _ _ hb]
  by_cases htj : t = j
  · subst htj; simp [ht]
  · simp [htj]

theorem setPop_restore (b t : Nat) (hb : b < 2 ^ 64) (ht64 : t < 64)
    (ht : b.testBit t = false) :
    (b ||| ((1 : Nat) <<< t)) &&& compl64 ((1 : Nat) <<< t) = b := by
  apply Nat.eq_of_testBit_eq
  intro j
  rw [popBit_testBit _ _ _ (setBit_lt _ _ hb ht64), setBit_testBit]
  by_cases htj : t = j
  · subst htj; simp [ht]
  · simp [htj]

theorem set_idem (b f : Nat) (hf : b.testBit f = true) : b ||| ((1 : Nat) <<< f) = b := by
  apply Nat.eq_of_testBit_eq
  intro j
  rw [setBit_testBit]
  by_cases hfj : f = j
  · subst hfj; simp [hf]
  · simp [hfj]

theorem update_eq_of (q pos : Position) (hbb : q.bb = pos.bb) (hside : q.side = pos.side)
    (hca : q.castling = pos.castling) (hep : q.ep_square = pos.ep_square)
    (hhm : q.halfmove_clock = pos.halfmove_clock) (hfm : q.fullmove_number = pos.fullmove_number)
    (hocc : coherentOcc pos) : update_occupancy q = pos := by
  obtain ⟨h1, h2, h3⟩ := hocc
  have hg : ∀ i, bbGet q i = bbGet pos i := by intro i; simp [bbGet, hbb]
  cases q
  cases pos
  simp only [update_occupancy]
  simp_all [bbGet]

theorem make_undo (pos : Position) (m : Move) :
    (ffp_make_move pos m).2 =
      ⟨pos.castling, pos.ep_square, pos.halfmove_clock, pos.fullmove_number, m.captured⟩ := by
  simp only [ffp_make_move]

theorem make_side (pos : Position) (m : Move) :
    ((ffp_make_move pos m).1).side = flipSide pos.side := by
  cases hs : pos.side <;>
    simp [ffp_make_move, hs, apply_ite Position.side, posSetBit, posPopBit, bbSet,
      update_occupancy]

theorem getq_set_self (l : List Nat) (i v : Nat) (h : i < l.length) :
    (l.set i v)[i]?.getD 0 = v := by
  rw [← List.getD_eq_getElem?_getD]
  exact getD_set_self l i v h

theorem getq_set_ne (l : List Nat) (i j v : Nat) (h : i ≠ j) :
    (l.set i v)[j]?.getD 0 = l[j]?.getD 0 := by
  rw [← List.getD_eq_getElem?_getD, ← List.getD_eq_getElem?_getD]
  exact getD_set_ne l i j v h

theorem make_bb_nocap (pos : Position) (m : Move) (p f t : Nat)
    (hEP : m.flags &&& MF_ENPASSANT = 0) (hPR : m.flags &&& MF_PROMO = 0)
    (hCA : m.flags &&& MF_CASTLE = 0)
    (hp : m.piece = (p : Int)) (hf : m.fromSq = (f : Int)) (ht : m.toSq = (t : Int))
    (hc : m.captured = -1) (hlen : pos.bb.length = 12) (hp12 : p < 12) :
    ((ffp_make_move pos m).1).bb =
      pos.bb.set p ((pos.bb.getD p 0 &&& compl64 ((1 : Nat) <<< f)) ||| ((1 : Nat) <<< t)) := by
  have hgd : (pos.bb.set p (pos.bb[p]?.getD 0 &&& compl64 ((1 : Nat) <<< f)))[p]?.getD 0 =
      pos.bb[p]?.getD 0 &&& compl64 ((1 : Nat) <<< f) :=
    getq_set_self _ _ _ (by omega)
  simp [ffp_make_move, hEP, hPR, hCA, hp, hf, ht, hc, posSetBit, posPopBit, bbSet, bbGet,
    int_toNat_cast, apply_ite Position.bb, update_occupancy, hgd, List.set_set]

theorem make_bb_capture (pos : Position) (m : Move) (p f t c : Nat)
    (hEP : m.flags &&& MF_ENPASSANT = 0) (hPR : m.flags &&& MF_PROMO = 0)
    (hCA : m.flags &&& MF_CASTLE = 0)
    (hp : m.piece = (p : Int)) (hf : m.fromSq = (f : Int)) (ht : m.toSq = (t : Int))
    (hc : m.captured = (c : Int)) (hlen : pos.bb.length = 12) (hp12 : p < 12) (hc12 : c < 12)
    (hpc : c ≠ p) :
    ((ffp_make_move pos m).1).bb =
      (pos.bb.set c (pos.bb.getD c 0 &&& compl64 ((1 : Nat) <<< t))).set p
        ((pos.bb.getD p 0 &&& compl64 ((1 : Nat) <<< f)) ||| ((1 : Nat) <<< t)) := by
  have hcne : m.captured ≠ -1 := by rw [hc]; omega
  have hg1 : (pos.bb.set c (pos.bb[c]?.getD 0 &&& compl64 ((1 : Nat) <<< t)))[p]?.getD 0 =
      pos.bb[p]?.getD 0 := getq_set_ne _ _ _ _ hpc
  have hg2 : ((pos.bb.set c (pos.bb[c]?.getD 0 &&& compl64 ((1 : Nat) <<< t))).set p
      (pos.bb[p]?.getD 0 &&& compl64 ((1 : Nat) <<< f)))[p]?.getD 0 =
      pos.bb[p]?.getD 0 &&& compl64 ((1 : Nat) <<< f) :=
    getq_set_self _ _ _ (by simp [hlen]; omega)
  simp [ffp_make_move, hEP, hPR, hCA, hp, hf, ht, hc, hcne, posSetBit, posPopBit, bbSet, bbGet,
    int_toNat_cast, apply_ite Position.bb, update_occupancy, hg1, hg2, List.set_set]

theorem flipSide_flipSide (s : Side) : flipSide (flipSide s) = s := by cases s <;> rfl

theorem roundtrip_nocap (pos : Position) (m : Move) (p f t : Nat)
    (hEP : m.flags &&& MF_ENPASSANT = 0) (hPR : m.flags &&& MF_PROMO = 0)
    (hCA : m.flags &&& MF_CASTLE = 0)
    (hp : m.piece = (p : Int)) (hf : m.fromSq = (f : Int)) (ht : m.toSq = (t : Int))
    (hc : m.captured = -1) (hlen : pos.bb.length = 12) (hp12 : p < 12)
    (hf64 : f < 64) (ht64 : t < 64)
    (hbp : pos.bb[p]?.getD 0 < 2 ^ 64)
    (hfbit : (pos.bb[p]?.getD 0).testBit f = true)
    (htbit : (pos.bb[p]?.getD 0).testBit t = false)
    (hocc : coherentOcc pos) :
    ffp_unmake_move (ffp_make_move pos m).1 m (ffp_make_move pos m).2 = pos := by
  have hbb := make_bb_nocap pos m p f t hEP hPR hCA hp hf ht hc hlen hp12
  have hsd := make_side pos m
  have hu := make_undo pos m
  have hr1 : (pos.bb.set p ((pos.bb[p]?.getD 0 &&& compl64 ((1 : Nat) <<< f)) |||
      ((1 : Nat) <<< t)))[p]?.getD 0 =
      (pos.bb[p]?.getD 0 &&& compl64 ((1 : Nat) <<< f)) ||| ((1 : Nat) <<< t) :=
    getq_set_self _ _ _ (by omega)
  have hA : ((((pos.bb[p]?.getD 0 &&& compl64 ((1 : Nat) <<< f)) ||| ((1 : Nat) <<< t)) &&&
      compl64 ((1 : Nat) <<< t)) ||| ((1 : Nat) <<< f)) = pos.bb[p]?.getD 0 :=
    moveBits_roundtrip _ f t hbp hf64 ht64 hfbit htbit
  have hss : pos.bb.set p (pos.bb[p]?.getD 0) = pos.bb := by
    rw [← List.getD_eq_getElem?_getD]
    exact list_set_getD pos.bb p (by omega)
  have hr2 : (pos.bb.set p (((pos.bb[p]?.getD 0 &&& compl64 ((1 : Nat) <<< f)) |||
      ((1 : Nat) <<< t)) &&& compl64 ((1 : Nat) <<< t)))[p]?.getD 0 =
      ((pos.bb[p]?.getD 0 &&& compl64 ((1 : Nat) <<< f)) ||| ((1 : Nat) <<< t)) &&&
        compl64 ((1 : Nat) <<< t) :=
    getq_set_self _ _ _ (by omega)
  have hgoal : ffp_unmake_move (ffp_make_move pos m).1 m
      ⟨pos.castling, pos.ep_square, pos.halfmove_clock, pos.fullmove_number, m.captured⟩ = pos := by
    simp [ffp_unmake_move, hEP, hPR, hCA, hp, hf, ht, hc, posSetBit, posPopBit, bbSet, bbGet,
      int_toNat_cast, hbb, hsd, hr1, List.set_set, hA, hss]
    exact update_eq_of _ _ (by simp [hbb, hr1, hr2, List.set_set, hA, hss])
      (by simp [hsd, flipSide_flipSide]) rfl rfl rfl rfl hocc
  rw [hu]
  exact hgoal

theorem roundtrip_capture (pos : Position) (m : Move) (p f t c : Nat)
    (hEP : m.flags &&& MF_ENPASSANT = 0) (hPR : m.flags &&& MF_PROMO = 0)
    (hCA : m.flags &&& MF_CASTLE = 0)
    (hp : m.piece = (p : Int)) (hf : m.fromSq = (f : Int)) (ht : m.toSq = (t : Int))
    (hc : m.captured = (c : Int)) (hlen : pos.bb.length = 12) (hp12 : p < 12) (hc12 : c < 12)
    (hpc : c ≠ p) (hf64 : f < 64) (ht64 : t < 64)
    (hbp : pos.bb[p]?.getD 0 < 2 ^ 64) (hbc : pos.bb[c]?.getD 0 < 2 ^ 64)
    (hfbit : (pos.bb[p]?.getD 0).testBit f = true)
    (htbit : (pos.bb[p]?.getD 0).testBit t = false)
    (hcbit : (pos.bb[c]?.getD 0).testBit t = true)
    (hocc : coherentOcc pos) :
    ffp_unmake_move (ffp_make_move pos m).1 m (ffp_make_move pos m).2 = pos := by
  have hbb := make_bb_capture pos m p f t c hEP hPR hCA hp hf ht hc hlen hp12 hc12 hpc
  have hsd := make_side pos m
  have hu := make_undo pos m
  have hcne : (c : Int) ≠ -1 := by omega
  have hr1 : ((pos.bb.set c (pos.bb[c]?.getD 0 &&& compl64 ((1 : Nat) <<< t))).set p
      ((pos.bb[p]?.getD 0 &&& compl64 ((1 : Nat) <<< f)) ||| ((1 : Nat) <<< t)))[p]?.getD 0 =
      (pos.bb[p]?.getD 0 &&& compl64 ((1 : Nat) <<< f)) ||| ((1 : Nat) <<< t) :=
    getq_set_self _ _ _ (by simp [hlen]; omega)
  have hA : ((((pos.bb[p]?.getD 0 &&& compl64 ((1 : Nat) <<< f)) ||| ((1 : Nat) <<< t)) &&&
      compl64 ((1 : Nat) <<< t)) ||| ((1 : Nat) <<< f)) = pos.bb[p]?.getD 0 :=
    moveBits_roundtrip _ f t hbp hf64 ht64 hfbit htbit
  have hB : ((pos.bb[c]?.getD 0 &&& compl64 ((1 : Nat) <<< t)) ||| ((1 : Nat) <<< t)) =
      pos.bb[c]?.getD 0 := popSet_restore _ t hbc hcbit
  have hss1 : pos.bb.set p (pos.bb[p]?.getD 0) = pos.bb := by
    rw [← List.getD_eq_getElem?_getD]
    exact list_set_getD pos.bb p (by omega)
  have hss2 : pos.bb.set c (pos.bb[c]?.getD 0) = pos.bb := by
    rw [← List.getD_eq_getElem?_getD]
    exact list_set_getD pos.bb c (by omega)
  have hgoal : ffp_unmake_move (ffp_make_move pos m).1 m
      ⟨pos.castling, pos.ep_square, pos.halfmove_clock, pos.fullmove_number, m.captured⟩ = pos := by
    simp [ffp_unmake_move, hEP, hPR, hCA, hp, hf, ht, hc, hcne, posSetBit, posPopBit, bbSet,
      bbGet, int_toNat_cast, hbb, hsd, hr1, List.set_set]
    have hr2 : ((pos.bb.set c (pos.bb[c]?.getD 0 &&& compl64 ((1 : Nat) <<< t))).set p
        (((pos.bb[p]?.getD 0 &&& compl64 ((1 : Nat) <<< f)) ||| ((1 : Nat) <<< t)) &&&
          compl64 ((1 : Nat) <<< t)))[p]?.getD 0 =
        ((pos.bb[p]?.getD 0 &&& compl64 ((1 : Nat) <<< f)) ||| ((1 : Nat) <<< t)) &&&
          compl64 ((1 : Nat) <<< t) :=
      getq_set_self _ _ _ (by simp [hlen]; omega)
    have hr3 : ((pos.bb.set c (pos.bb[c]?.getD 0 &&& compl64 ((1 : Nat) <<< t))).set p
        (pos.bb[p]?.getD 0))[c]?.getD 0 =
        pos.bb[c]?.getD 0 &&& compl64 ((1 : Nat) <<< t) := by
      rw [getq_set_ne _ _ _ _ (fun h => hpc h.symm)]
      exact getq_set_self _ _ _ (by omega)
    exact update_eq_of _ _
      (by
        simp [hr2, hA, hr3, hB]
        rw [List.set_comm _ _ _ hpc.symm, List.set_set, hss2, hss1])
      (by simp [hsd, flipSide_flipSide]) rfl rfl rfl rfl hocc
  rw [hu]
  exact hgoal

theorem make_bb_ep_white (pos : Position) (m : Move) (f t : Nat)
    (hEPf : m.flags &&& MF_ENPASSANT ≠ 0) (hPR : m.flags &&& MF_PROMO = 0)
    (hCA : m.flags &&& MF_CASTLE = 0) (hside : pos.side = Side.WHITE)
    (hp : m.piece = 0) (hf : m.fromSq = (f : Int)) (ht : m.toSq = (t : Int))
    (hlen : pos.bb.length = 12) :
    ((ffp_make_move pos m).1).bb =
      (pos.bb.set 6 (pos.bb.getD 6 0 &&& compl64 ((1 : Nat) <<< (t + 8)))).set 0
        ((pos.bb.getD 0 0 &&& compl64 ((1 : Nat) <<< f)) ||| ((1 : Nat) <<< t)) := by
  have hcap : ((t : Int) + 8).toNat = t + 8 := by omega
  have hg1 : (pos.bb.set 6 (pos.bb[6]?.getD 0 &&& compl64 ((1 : Nat) <<< (t + 8))))[0]?.getD 0 =
      pos.bb[0]?.getD 0 := getq_set_ne _ _ _ _ (by omega)
  have hg2 : ((pos.bb.set 6 (pos.bb[6]?.getD 0 &&& compl64 ((1 : Nat) <<< (t + 8)))).set 0
      (pos.bb[0]?.getD 0 &&& compl64 ((1 : Nat) <<< f)))[0]?.getD 0 =
      pos.bb[0]?.getD 0 &&& compl64 ((1 : Nat) <<< f) :=
    getq_set_self _ _ _ (by simp [hlen])
  simp [ffp_make_move, hEPf, hPR, hCA, hp, hf, ht, hside, hcap, posSetBit, posPopBit, bbSet,
    bbGet, int_toNat_cast, apply_ite Position.bb, update_occupancy, hg1, hg2, List.set_set]

theorem roundtrip_ep_white (pos : Position) (m : Move) (f t : Nat)
    (hEPf : m.flags &&& MF_ENPASSANT ≠ 0) (hPR : m.flags &&& MF_PROMO = 0)
    (hCA : m.flags &&& MF_CASTLE = 0) (hside : pos.side = Side.WHITE)
    (hp : m.piece = 0) (hf : m.fromSq = (f : Int)) (ht : m.toSq = (t : Int))
    (hlen : pos.bb.length = 12) (hf64 : f < 64) (ht64 : t + 8 < 64)
    (hb0 : pos.bb[0]?.getD 0 < 2 ^ 64) (hb6 : pos.bb[6]?.getD 0 < 2 ^ 64)
    (hfbit : (pos.bb[0]?.getD 0).testBit f = true)
    (htbit : (pos.bb[0]?.getD 0).testBit t = false)
    (hcbit : (pos.bb[6]?.getD 0).testBit (t + 8) = true)
    (hocc : coherentOcc pos) :
    ffp_unmake_move (ffp_make_move pos m).1 m (ffp_make_move pos m).2 = pos := by
  have hbb := make_bb_ep_white pos m f t hEPf hPR hCA hside hp hf ht hlen
  have hsd := make_side pos m
  have hu := make_undo pos m
  have hcap : ((t : Int) + 8).toNat = t + 8 := by omega
  have hr1 : ((pos.bb.set 6 (pos.bb[6]?.getD 0 &&& compl64 ((1 : Nat) <<< (t + 8)))).set 0
      ((pos.bb[0]?.getD 0 &&& compl64 ((1 : Nat) <<< f)) ||| ((1 : Nat) <<< t)))[0]?.getD 0 =
      (pos.bb[0]?.getD 0 &&& compl64 ((1 : Nat) <<< f)) ||| ((1 : Nat) <<< t) :=
    getq_set_self _ _ _ (by simp [hlen])
  have hA : ((((pos.bb[0]?.getD 0 &&& compl64 ((1 : Nat) <<< f)) ||| ((1 : Nat) <<< t)) &&&
      compl64 ((1 : Nat) <<< t)) ||| ((1 : Nat) <<< f)) = pos.bb[0]?.getD 0 :=
    moveBits_roundtrip _ f t hb0 hf64 (by omega) hfbit htbit
  have hB : ((pos.bb[6]?.getD 0 &&& compl64 ((1 : Nat) <<< (t + 8))) ||| ((1 : Nat) <<< (t + 8))) =
      pos.bb[6]?.getD 0 := popSet_restore _ _ hb6 hcbit
  have hss1 : pos.bb.set 0 (pos.bb[0]?.getD 0) = pos.bb := by
    rw [← List.getD_eq_getElem?_getD]
    exact list_set_getD pos.bb 0 (by omega)
  have hss2 : pos.bb.set 6 (pos.bb[6]?.getD 0) = pos.bb := by
    rw [← List.getD_eq_getElem?_getD]
    exact list_set_getD pos.bb 6 (by omega)
  have hgoal : ffp_unmake_move (ffp_make_move pos m).1 m
      ⟨pos.castling, pos.ep_square, pos.halfmove_clock, pos.fullmove_number, m.captured⟩ = pos := by
    simp [ffp_unmake_move, hEPf, hPR, hCA, hp, hf, ht, hsd, hside, hcap, posSetBit, posPopBit,
      bbSet, bbGet, int_toNat_cast, hbb, hr1, List.set_set, flipSide_flipSide]
    have hr2 : ((pos.bb.set 6 (pos.bb[6]?.getD 0 &&& compl64 ((1 : Nat) <<< (t + 8)))).set 0
        (((pos.bb[0]?.getD 0 &&& compl64 ((1 : Nat) <<< f)) ||| ((1 : Nat) <<< t)) &&&
          compl64 ((1 : Nat) <<< t)))[0]?.getD 0 =
        ((pos.bb[0]?.getD 0 &&& compl64 ((1 : Nat) <<< f)) ||| ((1 : Nat) <<< t)) &&&
          compl64 ((1 : Nat) <<< t) :=
      getq_set_self _ _ _ (by simp [hlen])
    have hr3 : ((pos.bb.set 6 (pos.bb[6]?.getD 0 &&& compl64 ((1 : Nat) <<< (t + 8)))).set 0
        (pos.bb[0]?.getD 0))[6]?.getD 0 =
        pos.bb[6]?.getD 0 &&& compl64 ((1 : Nat) <<< (t + 8)) := by
      rw [getq_set_ne _ _ _ _ (by omega)]
      exact getq_set_self _ _ _ (by omega)
    have hr4 : (pos.bb.set 6 (pos.bb[6]?.getD 0 &&& compl64 ((1 : Nat) <<< (t + 8))))[6]?.getD 0 =
        pos.bb[6]?.getD 0 &&& compl64 ((1 : Nat) <<< (t + 8)) :=
      getq_set_self _ _ _ (by omega)
    exact update_eq_of _ _
      (by
        simp [hr2, hA, hr3, hB, hr4, hss1, hss2]
        first
        | rfl
        | rw [List.set_comm _ _ _ (show (0 : Nat) ≠ 6 by omega), List.set_set, hss2, hss1]
        | rw [List.set_comm _ _ _ (show (6 : Nat) ≠ 0 by omega), List.set_set, hss1, hss2])
      (by simp [hsd, flipSide_flipSide, hside]) rfl rfl rfl rfl hocc
  rw [hu]
  exact hgoal

theorem make_bb_ep_black (pos : Position) (m : Move) (f t : Nat)
    (hEPf : m.flags &&& MF_ENPASSANT ≠ 0) (hPR : m.flags &&& MF_PROMO = 0)
    (hCA : m.flags &&& MF_CASTLE = 0) (hside : pos.side = Side.BLACK)
    (hp : m.piece = 6) (hf : m.fromSq = (f : Int)) (ht : m.toSq = (t : Int))
    (ht8 : 8 ≤ t) (hlen : pos.bb.length = 12) :
    ((ffp_make_move pos m).1).bb =
      (pos.bb.set 0 (pos.bb.getD 0 0 &&& compl64 ((1 : Nat) <<< (t - 8)))).set 6
        ((pos.bb.getD 6 0 &&& compl64 ((1 : Nat) <<< f)) ||| ((1 : Nat) <<< t)) := by
  have hcap : ((t : Int) - 8).toNat = t - 8 := by omega
  have hg1 : (pos.bb.set 0 (pos.bb[0]?.getD 0 &&& compl64 ((1 : Nat) <<< (t - 8))))[6]?.getD 0 =
      pos.bb[6]?.getD 0 := getq_set_ne _ _ _ _ (by omega)
  have hg2 : ((pos.bb.set 0 (pos.bb[0]?.getD 0 &&& compl64 ((1 : Nat) <<< (t - 8)))).set 6
      (pos.bb[6]?.getD 0 &&& compl64 ((1 : Nat) <<< f)))[6]?.getD 0 =
      pos.bb[6]?.getD 0 &&& compl64 ((1 : Nat) <<< f) :=
    getq_set_self _ _ _ (by simp [hlen])
  simp [ffp_make_move, hEPf, hPR, hCA, hp, hf, ht, hside, hcap, posSetBit, posPopBit, bbSet,
    bbGet, int_toNat_cast, apply_ite Position.bb, update_occupancy, hg1, hg2, List.set_set]

theorem roundtrip_ep_black (pos : Position) (m : Move) (f t : Nat)
    (hEPf : m.flags &&& MF_ENPASSANT ≠ 0) (hPR : m.flags &&& MF_PROMO = 0)
    (hCA : m.flags &&& MF_CASTLE = 0) (hside : pos.side = Side.BLACK)
    (hp : m.piece = 6) (hf : m.fromSq = (f : Int)) (ht : m.toSq = (t : Int))
    (ht8 : 8 ≤ t) (hlen : pos.bb.length = 12) (hf64 : f < 64) (ht64 : t < 64)
    (hb0 : pos.bb[0]?.getD 0 < 2 ^ 64) (hb6 : pos.bb[6]?.getD 0 < 2 ^ 64)
    (hfbit : (pos.bb[6]?.getD 0).testBit f = true)
    (htbit : (pos.bb[6]?.getD 0).testBit t = false)
    (hcbit : (pos.bb[0]?.getD 0).testBit (t - 8) = true)
    (hocc : coherentOcc pos) :
    ffp_unmake_move (ffp_make_move pos m).1 m (ffp_make_move pos m).2 = pos := by
  have hbb := make_bb_ep_black pos m f t hEPf hPR hCA hside hp hf ht ht8 hlen
  have hsd := make_side pos m
  have hu := make_undo pos m
  have hcap : ((t : Int) - 8).toNat = t - 8 := by omega
  have hr1 : ((pos.bb.set 0 (pos.bb[0]?.getD 0 &&& compl64 ((1 : Nat) <<< (t - 8)))).set 6
      ((pos.bb[6]?.getD 0 &&& compl64 ((1 : Nat) <<< f)) ||| ((1 : Nat) <<< t)))[6]?.getD 0 =
      (pos.bb[6]?.getD 0 &&& compl64 ((1 : Nat) <<< f)) ||| ((1 : Nat) <<< t) :=
    getq_set_self _ _ _ (by simp [hlen])
  have hA : ((((pos.bb[6]?.getD 0 &&& compl64 ((1 : Nat) <<< f)) ||| ((1 : Nat) <<< t)) &&&
      compl64 ((1 : Nat) <<< t)) ||| ((1 : Nat) <<< f)) = pos.bb[6]?.getD 0 :=
    moveBits_roundtrip _ f t hb6 hf64 ht64 hfbit htbit
  have hB : ((pos.bb[0]?.getD 0 &&& compl64 ((1 : Nat) <<< (t - 8))) ||| ((1 : Nat) <<< (t - 8))) =
      pos.bb[0]?.getD 0 := popSet_restore _ _ hb0 hcbit
  have hss1 : pos.bb.set 6 (pos.bb[6]?.getD 0) = pos.bb := by
    rw [← List.getD_eq_getElem?_getD]
    exact list_set_getD pos.bb 6 (by omega)
  have hss2 : pos.bb.set 0 (pos.bb[0]?.getD 0) = pos.bb := by
    rw [← List.getD_eq_getElem?_getD]
    exact list_set_getD pos.bb 0 (by omega)
  have hgoal : ffp_unmake_move (ffp_make_move pos m).1 m
      ⟨pos.castling, pos.ep_square, pos.halfmove_clock, pos.fullmove_number, m.captured⟩ = pos := by
    simp [ffp_unmake_move, hEPf, hPR, hCA, hp, hf, ht, hsd, hside, hcap, posSetBit, posPopBit,
      bbSet, bbGet, int_toNat_cast, hbb, hr1, List.set_set, flipSide_flipSide]
    have hr2 : ((pos.bb.set 0 (pos.bb[0]?.getD 0 &&& compl64 ((1 : Nat) <<< (t - 8)))).set 6
        (((pos.bb[6]?.getD 0 &&& compl64 ((1 : Nat) <<< f)) ||| ((1 : Nat) <<< t)) &&&
          compl64 ((1 : Nat) <<< t)))[6]?.getD 0 =
        ((pos.bb[6]?.getD 0 &&& compl64 ((1 : Nat) <<< f)) ||| ((1 : Nat) <<< t)) &&&
          compl64 ((1 : Nat) <<< t) :=
      getq_set_self _ _ _ (by simp [hlen])
    have hr3 : ((pos.bb.set 0 (pos.bb[0]?.getD 0 &&& compl64 ((1 : Nat) <<< (t - 8)))).set 6
        (pos.bb[6]?.getD 0))[0]?.getD 0 =
        pos.bb[0]?.getD 0 &&& compl64 ((1 : Nat) <<< (t - 8)) := by
      rw [getq_set_ne _ _ _ _ (by omega)]
      exact getq_set_self _ _ _ (by omega)
    have hr4 : (pos.bb.set 0 (pos.bb[0]?.getD 0 &&& compl64 ((1 : Nat) <<< (t - 8))))[0]?.getD 0 =
        pos.bb[0]?.getD 0 &&& compl64 ((1 : Nat) <<< (t - 8)) :=
      getq_set_self _ _ _ (by omega)
    exact update_eq_of _ _
      (by
        simp [hr2, hA, hr3, hB, hr4, hss1, hss2]
        first
        | rfl
        | rw [List.set_comm _ _ _ (show (6 : Nat) ≠ 0 by omega), List.set_set, hss2, hss1]
        | rw [List.set_comm _ _ _ (show (0 : Nat) ≠ 6 by omega), List.set_set, hss1, hss2])
      (by simp [hsd, flipSide_flipSide, hside]) rfl rfl rfl rfl hocc
  rw [hu]
  exact hgoal

theorem or_or_self_nat (x y : Nat) : (x ||| y) ||| y = x ||| y := by
  rw [Nat.or_assoc, Nat.or_self]

theorem and_pop_of_clear (b t : Nat) (hb : b < 2 ^ 64) (ht : b.testBit t = false) :
    b &&& compl64 ((1 : Nat) <<< t) = b := by
  apply Nat.eq_of_testBit_eq
  intro j
  rw [popBit_testBit _ _ _ hb]
  by_cases htj : t = j
  · subst htj; simp [ht]
  · simp [htj]

theorem make_bb_promo_white_cap (pos : Position) (m : Move) (f t c q : Nat)
    (hEP : m.flags &&& MF_ENPASSANT = 0) (hPRf : m.flags &&& MF_PROMO ≠ 0)
    (hCA : m.flags &&& MF_CASTLE = 0) (hside : pos.side = Side.WHITE)
    (hp : m.piece = 0) (hf : m.fromSq = (f : Int)) (ht : m.toSq = (t : Int))
    (hc : m.captured = (c : Int)) (hq : m.promo = (q : Int))
    (hlen : pos.bb.length = 12) (hc12 : c < 12) (hq12 : q < 12)
    (hc0 : c ≠ 0) (hq0 : q ≠ 0) (hqc : q ≠ c) :
    ((ffp_make_move pos m).1).bb =
      ((pos.bb.set c (pos.bb.getD c 0 &&& compl64 ((1 : Nat) <<< t))).set 0
        (((pos.bb.getD 0 0 &&& compl64 ((1 : Nat) <<< f)) ||| ((1 : Nat) <<< t)) &&&
          compl64 ((1 : Nat) <<< t))).set q
        (pos.bb.getD q 0 ||| ((1 : Nat) <<< t)) := by
  have hcne : m.captured ≠ -1 := by rw [hc]; omega
  have hg1 : (pos.bb.set c (pos.bb[c]?.getD 0 &&& compl64 ((1 : Nat) <<< t)))[0]?.getD 0 =
      pos.bb[0]?.getD 0 := getq_set_ne _ _ _ _ (fun h => hc0 h)
  have hg2 : ((pos.bb.set c (pos.bb[c]?.getD 0 &&& compl64 ((1 : Nat) <<< t))).set 0
      (pos.bb[0]?.getD 0 &&& compl64 ((1 : Nat) <<< f)))[0]?.getD 0 =
      pos.bb[0]?.getD 0 &&& compl64 ((1 : Nat) <<< f) :=
    getq_set_self _ _ _ (by simp [hlen] <;> omega)
  have hg3 : ((pos.bb.set c (pos.bb[c]?.getD 0 &&& compl64 ((1 : Nat) <<< t))).set 0
      ((pos.bb[0]?.getD 0 &&& compl64 ((1 : Nat) <<< f)) ||| ((1 : Nat) <<< t)))[0]?.getD 0 =
      (pos.bb[0]?.getD 0 &&& compl64 ((1 : Nat) <<< f)) ||| ((1 : Nat) <<< t) :=
    getq_set_self _ _ _ (by simp [hlen] <;> omega)
  have hg4 : (((pos.bb.set c (pos.bb[c]?.getD 0 &&& compl64 ((1 : Nat) <<< t))).set 0
      (((pos.bb[0]?.getD 0 &&& compl64 ((1 : Nat) <<< f)) ||| ((1 : Nat) <<< t)) &&&
        compl64 ((1 : Nat) <<< t))))[q]?.getD 0 = pos.bb[q]?.getD 0 := by
    rw [getq_set_ne _ _ _ _ (fun h => hq0 h.symm), getq_set_ne _ _ _ _ (fun h => hqc h.symm)]
  simp [ffp_make_move, hEP, hPRf, hCA, hp, hf, ht, hc, hq, hcne, hside, posSetBit, posPopBit,
    bbSet, bbGet, int_toNat_cast, apply_ite Position.bb, update_occupancy, hg1, hg2, hg3, hg4,
    List.set_set]

theorem getq_eq_getElem (l : List Nat) (n : Nat) (h : n < l.length) : l[n]?.getD 0 = l[n] := by
  rw [← List.getD_eq_getElem?_getD]
  exact List.getD_eq_getElem l 0 h

theorem roundtrip_promo_white_cap (pos : Position) (m : Move) (f t c q : Nat)
    (hEP : m.flags &&& MF_ENPASSANT = 0) (hPRf : m.flags &&& MF_PROMO ≠ 0)
    (hCA : m.flags &&& MF_CASTLE = 0) (hside : pos.side = Side.WHITE)
    (hp : m.piece = 0) (hf : m.fromSq = (f : Int)) (ht : m.toSq = (t : Int))
    (hc : m.captured = (c : Int)) (hq : m.promo = (q : Int))
    (hlen : pos.bb.length = 12) (hc12 : c < 12) (hq12 : q < 12)
    (hc0 : c ≠ 0) (hq0 : q ≠ 0) (hqc : q ≠ c)
    (hf64 : f < 64) (ht64 : t < 64)
    (hb0 : pos.bb[0]?.getD 0 < 2 ^ 64) (hbc : pos.bb[c]?.getD 0 < 2 ^ 64)
    (hbq : pos.bb[q]?.getD 0 < 2 ^ 64)
    (hfbit : (pos.bb[0]?.getD 0).testBit f = true)
    (htbit : (pos.bb[0]?.getD 0).testBit t = false)
    (hcbit : (pos.bb[c]?.getD 0).testBit t = true)
    (hqbit : (pos.bb[q]?.getD 0).testBit t = false)
    (hocc : coherentOcc pos) :
    ffp_unmake_move (ffp_make_move pos m).1 m (ffp_make_move pos m).2 = pos := by
  have hbb := make_bb_promo_white_cap pos m f t c q hEP hPRf hCA hside hp hf ht hc hq hlen
    hc12 hq12 hc0 hq0 hqc
  have hsd := make_side pos m
  have hu := make_undo pos m
  have hcne : (c : Int) ≠ -1 := by omega
  have hW : (((pos.bb[0]?.getD 0 &&& compl64 ((1 : Nat) <<< f)) ||| ((1 : Nat) <<< t)) &&&
      compl64 ((1 : Nat) <<< t)) = pos.bb[0]?.getD 0 &&& compl64 ((1 : Nat) <<< f) := by
    apply setPop_restore _ _ (popBit_lt _ _ hb0) ht64
    rw [Nat.testBit_and, htbit]
    simp
  have hA : ((pos.bb[0]?.getD 0 &&& compl64 ((1 : Nat) <<< f)) &&& compl64 ((1 : Nat) <<< t)) |||
      ((1 : Nat) <<< f) = pos.bb[0]?.getD 0 := by
    rw [and_pop_of_clear _ _ (popBit_lt _ _ hb0) (by rw [Nat.testBit_and, htbit]; simp)]
    exact popSet_restore _ _ hb0 hfbit
  have hQ : (pos.bb[q]?.getD 0 ||| ((1 : Nat) <<< t)) &&& compl64 ((1 : Nat) <<< t) =
      pos.bb[q]?.getD 0 := setPop_restore _ _ hbq ht64 hqbit
  have hB : (pos.bb[c]?.getD 0 &&& compl64 ((1 : Nat) <<< t)) ||| ((1 : Nat) <<< t) =
      pos.bb[c]?.getD 0 := popSet_restore _ _ hbc hcbit
  have hidem : pos.bb[0]?.getD 0 ||| ((1 : Nat) <<< f) = pos.bb[0]?.getD 0 :=
    set_idem _ _ hfbit
  have hss0 : pos.bb.set 0 (pos.bb[0]?.getD 0) = pos.bb := by
    rw [← List.getD_eq_getElem?_getD]
    exact list_set_getD pos.bb 0 (by omega)
  have hssc : pos.bb.set c (pos.bb[c]?.getD 0) = pos.bb := by
    rw [← List.getD_eq_getElem?_getD]
    exact list_set_getD pos.bb c (by omega)
  have hssq : pos.bb.set q (pos.bb[q]?.getD 0) = pos.bb := by
    rw [← List.getD_eq_getElem?_getD]
    exact list_set_getD pos.bb q (by omega)
  have hWT : pos.bb[0]?.getD 0 &&& compl64 ((1 : Nat) <<< f) &&& compl64 ((1 : Nat) <<< t) =
      pos.bb[0]?.getD 0 &&& compl64 ((1 : Nat) <<< f) :=
    and_pop_of_clear _ _ (popBit_lt _ _ hb0) (by rw [Nat.testBit_and, htbit]; simp)
  have hA2 : (pos.bb[0]?.getD 0 &&& compl64 ((1 : Nat) <<< f)) ||| ((1 : Nat) <<< f) =
      pos.bb[0]?.getD 0 := popSet_restore _ _ hb0 hfbit
  have hXc : pos.bb[c]?.getD 0 &&& compl64 ((1 : Nat) <<< t) < 2 ^ 64 := popBit_lt _ _ hbc
  have hR1 : (((pos.bb.set c (pos.bb[c]?.getD 0 &&& compl64 ((1 : Nat) <<< t))).set 0
      (pos.bb[0]?.getD 0 &&& compl64 ((1 : Nat) <<< f))).set q
      (pos.bb[q]?.getD 0 ||| ((1 : Nat) <<< t)))[0]?.getD 0 =
      pos.bb[0]?.getD 0 &&& compl64 ((1 : Nat) <<< f) := by
    rw [getq_set_ne _ _ _ _ hq0]
    exact getq_set_self _ _ _ (by simp [hlen] <;> omega)
  have hR1b : ((((pos.bb.set c (pos.bb[c]?.getD 0 &&& compl64 ((1 : Nat) <<< t))).set 0 (pos.bb[0]?.getD 0 &&& compl64 ((1 : Nat) <<< f))).set q (pos.bb[q]?.getD 0 ||| ((1 : Nat) <<< t))).set 0 (pos.bb[0]?.getD 0 &&& compl64 ((1 : Nat) <<< f)))[0]?.getD 0 = (pos.bb[0]?.getD 0 &&& compl64 ((1 : Nat) <<< f)) :=
    getq_set_self _ _ _ (by simp [hlen] <;> omega)
  have hR2 : ((((pos.bb.set c (pos.bb[c]?.getD 0 &&& compl64 ((1 : Nat) <<< t))).set 0 (pos.bb[0]?.getD 0 &&& compl64 ((1 : Nat) <<< f))).set q (pos.bb[q]?.getD 0 ||| ((1 : Nat) <<< t))).set 0 (pos.bb[0]?.getD 0))[q]?.getD 0 = (pos.bb[q]?.getD 0 ||| ((1 : Nat) <<< t)) := by
    rw [getq_set_ne _ _ _ _ (fun h => hq0 h.symm)]
    exact getq_set_self _ _ _ (by simp [hlen] <;> omega)
  have hR3 : (((((pos.bb.set c (pos.bb[c]?.getD 0 &&& compl64 ((1 : Nat) <<< t))).set 0 (pos.bb[0]?.getD 0 &&& compl64 ((1 : Nat) <<< f))).set q (pos.bb[q]?.getD 0 ||| ((1 : Nat) <<< t))).set 0 (pos.bb[0]?.getD 0)).set q (pos.bb[q]?.getD 0))[0]?.getD 0 = (pos.bb[0]?.getD 0) := by
    rw [getq_set_ne _ _ _ _ hq0]
    exact getq_set_self _ _ _ (by simp [hlen] <;> omega)
  have hR4 : ((((((pos.bb.set c (pos.bb[c]?.getD 0 &&& compl64 ((1 : Nat) <<< t))).set 0 (pos.bb[0]?.getD 0 &&& compl64 ((1 : Nat) <<< f))).set q (pos.bb[q]?.getD 0 ||| ((1 : Nat) <<< t))).set 0 (pos.bb[0]?.getD 0)).set q (pos.bb[q]?.getD 0)).set 0 (pos.bb[0]?.getD 0))[c]?.getD 0 = (pos.bb[c]?.getD 0 &&& compl64 ((1 : Nat) <<< t)) := by
    rw [getq_set_ne _ _ _ _ (fun h => hc0 h.symm), getq_set_ne _ _ _ _ hqc,
      getq_set_ne _ _ _ _ (fun h => hc0 h.symm), getq_set_ne _ _ _ _ hqc,
      getq_set_ne _ _ _ _ (fun h => hc0 h.symm)]
    exact getq_set_self _ _ _ (by omega)
  have hgoal : ffp_unmake_move (ffp_make_move pos m).1 m
      ⟨pos.castling, pos.ep_square, pos.halfmove_clock, pos.fullmove_number, m.captured⟩ = pos := by
    simp [ffp_unmake_move, hEP, hPRf, hCA, hp, hf, ht, hc, hq, hcne, hsd, hside, posSetBit,
      posPopBit, bbSet, bbGet, int_toNat_cast, hbb, hW, hWT, hA2, hR1, hR1b, hR2, hR3, hR4,
      hQ, hB, hidem, List.set_set, flipSide_flipSide]
    exact update_eq_of _ _
      (by
        simp [hW, hWT, hA2, hR1, hR1b, hR2, hR3, hR4, hA, hQ, hB, hidem, hss0, hssc, hssq,
          List.set_set]
        apply List.ext_getElem (by simp [hlen])
        intro n h1 h2
        by_cases hn0 : n = 0
        · subst hn0
          rw [List.getElem_set_ne hc0, List.getElem_set_self, getq_eq_getElem _ _ (by omega)]
        · by_cases hnq : n = q
          · subst hnq
            rw [List.getElem_set_ne (fun h => hqc h.symm),
              List.getElem_set_ne (fun h => hq0 h.symm), List.getElem_set_self,
              getq_eq_getElem _ _ (by omega)]
          · by_cases hnc : n = c
            · subst hnc
              rw [List.getElem_set_self, getq_eq_getElem _ _ (by omega)]
            · rw [List.getElem_set_ne (fun h => hnc h.symm),
                List.getElem_set_ne (fun h => hn0 h.symm),
                List.getElem_set_ne (fun h => hnq h.symm),
                List.getElem_set_ne (fun h => hn0 h.symm),
                List.getElem_set_ne (fun h => hnq h.symm),
                List.getElem_set_ne (fun h => hn0 h.symm),
                List.getElem_set_ne (fun h => hnc h.symm)])
      (by simp [hsd, flipSide_flipSide, hside]) rfl rfl rfl rfl hocc
  rw [hu]
  exact hgoal

theorem make_bb_promo_white_nocap (pos : Position) (m : Move) (f t q : Nat)
    (hEP : m.flags &&& MF_ENPASSANT = 0) (hPRf : m.flags &&& MF_PROMO ≠ 0)
    (hCA : m.flags &&& MF_CASTLE = 0) (hside : pos.side = Side.WHITE)
    (hp : m.piece = 0) (hf : m.fromSq = (f : Int)) (ht : m.toSq = (t : Int))
    (hc : m.captured = -1) (hq : m.promo = (q : Int))
    (hlen : pos.bb.length = 12) (hq12 : q < 12) (hq0 : q ≠ 0) :
    ((ffp_make_move pos m).1).bb =
      (pos.bb.set 0
        (((pos.bb.getD 0 0 &&& compl64 ((1 : Nat) <<< f)) ||| ((1 : Nat) <<< t)) &&&
          compl64 ((1 : Nat) <<< t))).set q
        (pos.bb.getD q 0 ||| ((1 : Nat) <<< t)) := by
  have hg2 : (pos.bb.set 0 (pos.bb[0]?.getD 0 &&& compl64 ((1 : Nat) <<< f)))[0]?.getD 0 =
      pos.bb[0]?.getD 0 &&& compl64 ((1 : Nat) <<< f) :=
    getq_set_self _ _ _ (by simp [hlen] <;> omega)
  have hg3 : (pos.bb.set 0
      ((pos.bb[0]?.getD 0 &&& compl64 ((1 : Nat) <<< f)) ||| ((1 : Nat) <<< t)))[0]?.getD 0 =
      (pos.bb[0]?.getD 0 &&& compl64 ((1 : Nat) <<< f)) ||| ((1 : Nat) <<< t) :=
    getq_set_self _ _ _ (by simp [hlen] <;> omega)
  have hg4 : ((pos.bb.set 0
      (((pos.bb[0]?.getD 0 &&& compl64 ((1 : Nat) <<< f)) ||| ((1 : Nat) <<< t)) &&&
        compl64 ((1 : Nat) <<< t))))[q]?.getD 0 = pos.bb[q]?.getD 0 :=
    getq_set_ne _ _ _ _ (fun h => hq0 h.symm)
  simp [ffp_make_move, hEP, hPRf, hCA, hp, hf, ht, hc, hq, hside, posSetBit, posPopBit,
    bbSet, bbGet, int_toNat_cast, apply_ite Position.bb, update_occupancy, hg2, hg3, hg4,
    List.set_set]

theorem roundtrip_promo_white_nocap (pos : Position) (m : Move) (f t q : Nat)
    (hEP : m.flags &&& MF_ENPASSANT = 0) (hPRf : m.flags &&& MF_PROMO ≠ 0)
    (hCA : m.flags &&& MF_CASTLE = 0) (hside : pos.side = Side.WHITE)
    (hp : m.piece = 0) (hf : m.fromSq = (f : Int)) (ht : m.toSq = (t : Int))
    (hc : m.captured = -1) (hq : m.promo = (q : Int))
    (hlen : pos.bb.length = 12) (hq12 : q < 12) (hq0 : q ≠ 0)
    (hf64 : f < 64) (ht64 : t < 64)
    (hb0 : pos.bb[0]?.getD 0 < 2 ^ 64) (hbq : pos.bb[q]?.getD 0 < 2 ^ 64)
    (hfbit : (pos.bb[0]?.getD 0).testBit f = true)
    (htbit : (pos.bb[0]?.getD 0).testBit t = false)
    (hqbit : (pos.bb[q]?.getD 0).testBit t = false)
    (hocc : coherentOcc pos) :
    ffp_unmake_move (ffp_make_move pos m).1 m (ffp_make_move pos m).2 = pos := by
  have hbb := make_bb_promo_white_nocap pos m f t q hEP hPRf hCA hside hp hf ht hc hq hlen
    hq12 hq0
  have hsd := make_side pos m
  have hu := make_undo pos m
  have hW : (((pos.bb[0]?.getD 0 &&& compl64 ((1 : Nat) <<< f)) ||| ((1 : Nat) <<< t)) &&&
      compl64 ((1 : Nat) <<< t)) = pos.bb[0]?.getD 0 &&& compl64 ((1 : Nat) <<< f) := by
    apply setPop_restore _ _ (popBit_lt _ _ hb0) ht64
    rw [Nat.testBit_and, htbit]
    simp
  have hWT : pos.bb[0]?.getD 0 &&& compl64 ((1 : Nat) <<< f) &&& compl64 ((1 : Nat) <<< t) =
      pos.bb[0]?.getD 0 &&& compl64 ((1 : Nat) <<< f) :=
    and_pop_of_clear _ _ (popBit_lt _ _ hb0) (by rw [Nat.testBit_and, htbit]; simp)
  have hA2 : (pos.bb[0]?.getD 0 &&& compl64 ((1 : Nat) <<< f)) ||| ((1 : Nat) <<< f) =
      pos.bb[0]?.getD 0 := popSet_restore _ _ hb0 hfbit
  have hQ : (pos.bb[q]?.getD 0 ||| ((1 : Nat) <<< t)) &&& compl64 ((1 : Nat) <<< t) =
      pos.bb[q]?.getD 0 := setPop_restore _ _ hbq ht64 hqbit
  have hidem : pos.bb[0]?.getD 0 ||| ((1 : Nat) <<< f) = pos.bb[0]?.getD 0 :=
    set_idem _ _ hfbit
  have hR1 : ((pos.bb.set 0 (pos.bb[0]?.getD 0 &&& compl64 ((1 : Nat) <<< f))).set q
      (pos.bb[q]?.getD 0 ||| ((1 : Nat) <<< t)))[0]?.getD 0 =
      pos.bb[0]?.getD 0 &&& compl64 ((1 : Nat) <<< f) := by
    rw [getq_set_ne _ _ _ _ hq0]
    exact getq_set_self _ _ _ (by simp [hlen] <;> omega)
  have hR1b : (((pos.bb.set 0 (pos.bb[0]?.getD 0 &&& compl64 ((1 : Nat) <<< f))).set q
      (pos.bb[q]?.getD 0 ||| ((1 : Nat) <<< t))).set 0
      (pos.bb[0]?.getD 0 &&& compl64 ((1 : Nat) <<< f)))[0]?.getD 0 =
      pos.bb[0]?.getD 0 &&& compl64 ((1 : Nat) <<< f) :=
    getq_set_self _ _ _ (by simp [hlen] <;> omega)
  have hR2 : (((pos.bb.set 0 (pos.bb[0]?.getD 0 &&& compl64 ((1 : Nat) <<< f))).set q
      (pos.bb[q]?.getD 0 ||| ((1 : Nat) <<< t))).set 0 (pos.bb[0]?.getD 0))[q]?.getD 0 =
      pos.bb[q]?.getD 0 ||| ((1 : Nat) <<< t) := by
    rw [getq_set_ne _ _ _ _ (fun h => hq0 h.symm)]
    exact getq_set_self _ _ _ (by simp [hlen] <;> omega)
  have hR3 : ((((pos.bb.set 0 (pos.bb[0]?.getD 0 &&& compl64 ((1 : Nat) <<< f))).set q
      (pos.bb[q]?.getD 0 ||| ((1 : Nat) <<< t))).set 0 (pos.bb[0]?.getD 0)).set q
      (pos.bb[q]?.getD 0))[0]?.getD 0 = pos.bb[0]?.getD 0 := by
    rw [getq_set_ne _ _ _ _ hq0]
    exact getq_set_self _ _ _ (by simp [hlen] <;> omega)
  have hgoal : ffp_unmake_move (ffp_make_move pos m).1 m
      ⟨pos.castling, pos.ep_square, pos.halfmove_clock, pos.fullmove_number, m.captured⟩ = pos := by
    simp [ffp_unmake_move, hEP, hPRf, hCA, hp, hf, ht, hc, hq, hsd, hside, posSetBit,
      posPopBit, bbSet, bbGet, int_toNat_cast, hbb, hW, hWT, hA2, hR1, hR1b, hR2, hR3,
      hQ, hidem, List.set_set, flipSide_flipSide]
    exact update_eq_of _ _
      (by
        simp [hW, hWT, hA2, hR1, hR1b, hR2, hR3, hQ, hidem, List.set_set]
        apply List.ext_getElem (by simp [hlen])
        intro n h1 h2
        by_cases hn0 : n = 0
        · subst hn0
          rw [List.getElem_set_self, getq_eq_getElem _ _ (by omega)]
        · by_cases hnq : n = q
          · subst hnq
            rw [List.getElem_set_ne (fun h => hq0 h.symm), List.getElem_set_self,
              getq_eq_getElem _ _ (by omega)]
          · rw [List.getElem_set_ne (fun h => hn0 h.symm),
              List.getElem_set_ne (fun h => hnq h.symm),
              List.getElem_set_ne (fun h => hn0 h.symm),
              List.getElem_set_ne (fun h => hnq h.symm),
              List.getElem_set_ne (fun h => hn0 h.symm)])
      (by simp [hsd, flipSide_flipSide, hside]) rfl rfl rfl rfl hocc
  rw [hu]
  exact hgoal

theorem make_bb_promo_black_cap (pos : Position) (m : Move) (f t c q : Nat)
    (hEP : m.flags &&& MF_ENPASSANT = 0) (hPRf : m.flags &&& MF_PROMO ≠ 0)
    (hCA : m.flags &&& MF_CASTLE = 0) (hside : pos.side = Side.BLACK)
    (hp : m.piece = 6) (hf : m.fromSq = (f : Int)) (ht : m.toSq = (t : Int))
    (hc : m.captured = (c : Int)) (hq : m.promo = (q : Int))
    (hlen : pos.bb.length = 12) (hc12 : c < 12) (hq12 : q < 12)
    (hc6 : c ≠ 6) (hq6 : q ≠ 6) (hqc : q ≠ c) :
    ((ffp_make_move pos m).1).bb =
      ((pos.bb.set c (pos.bb.getD c 0 &&& compl64 ((1 : Nat) <<< t))).set 6
        (((pos.bb.getD 6 0 &&& compl64 ((1 : Nat) <<< f)) ||| ((1 : Nat) <<< t)) &&&
          compl64 ((1 : Nat) <<< t))).set q
        (pos.bb.getD q 0 ||| ((1 : Nat) <<< t)) := by
  have hcne : m.captured ≠ -1 := by rw [hc]; omega
  have hg1 : (pos.bb.set c (pos.bb[c]?.getD 0 &&& compl64 ((1 : Nat) <<< t)))[6]?.getD 0 =
      pos.bb[6]?.getD 0 := getq_set_ne _ _ _ _ (fun h => hc6 h)
  have hg2 : ((pos.bb.set c (pos.bb[c]?.getD 0 &&& compl64 ((1 : Nat) <<< t))).set 6
      (pos.bb[6]?.getD 0 &&& compl64 ((1 : Nat) <<< f)))[6]?.getD 0 =
      pos.bb[6]?.getD 0 &&& compl64 ((1 : Nat) <<< f) :=
    getq_set_self _ _ _ (by simp [hlen] <;> omega)
  have hg3 : ((pos.bb.set c (pos.bb[c]?.getD 0 &&& compl64 ((1 : Nat) <<< t))).set 6
      ((pos.bb[6]?.getD 0 &&& compl64 ((1 : Nat) <<< f)) ||| ((1 : Nat) <<< t)))[6]?.getD 0 =
      (pos.bb[6]?.getD 0 &&& compl64 ((1 : Nat) <<< f)) ||| ((1 : Nat) <<< t) :=
    getq_set_self _ _ _ (by simp [hlen] <;> omega)
  have hg4 : (((pos.bb.set c (pos.bb[c]?.getD 0 &&& compl64 ((1 : Nat) <<< t))).set 6
      (((pos.bb[6]?.getD 0 &&& compl64 ((1 : Nat) <<< f)) ||| ((1 : Nat) <<< t)) &&&
        compl64 ((1 : Nat) <<< t))))[q]?.getD 0 = pos.bb[q]?.getD 0 := by
    rw [getq_set_ne _ _ _ _ (fun h => hq6 h.symm), getq_set_ne _ _ _ _ (fun h => hqc h.symm)]
  simp [ffp_make_move, hEP, hPRf, hCA, hp, hf, ht, hc, hq, hcne, hside, posSetBit, posPopBit,
    bbSet, bbGet, int_toNat_cast, apply_ite Position.bb, update_occupancy, hg1, hg2, hg3, hg4,
    List.set_set]


theorem roundtrip_promo_black_cap (pos : Position) (m : Move) (f t c q : Nat)
    (hEP : m.flags &&& MF_ENPASSANT = 0) (hPRf : m.flags &&& MF_PROMO ≠ 0)
    (hCA : m.flags &&& MF_CASTLE = 0) (hside : pos.side = Side.BLACK)
    (hp : m.piece = 6) (hf : m.fromSq = (f : Int)) (ht : m.toSq = (t : Int))
    (hc : m.captured = (c : Int)) (hq : m.promo = (q : Int))
    (hlen : pos.bb.length = 12) (hc12 : c < 12) (hq12 : q < 12)
    (hc6 : c ≠ 6) (hq6 : q ≠ 6) (hqc : q ≠ c)
    (hf64 : f < 64) (ht64 : t < 64)
    (hbP : pos.bb[6]?.getD 0 < 2 ^ 64) (hbc : pos.bb[c]?.getD 0 < 2 ^ 64)
    (hbq : pos.bb[q]?.getD 0 < 2 ^ 64)
    (hfbit : (pos.bb[6]?.getD 0).testBit f = true)
    (htbit : (pos.bb[6]?.getD 0).testBit t = false)
    (hcbit : (pos.bb[c]?.getD 0).testBit t = true)
    (hqbit : (pos.bb[q]?.getD 0).testBit t = false)
    (hocc : coherentOcc pos) :
    ffp_unmake_move (ffp_make_move pos m).1 m (ffp_make_move pos m).2 = pos := by
  have hbb := make_bb_promo_black_cap pos m f t c q hEP hPRf hCA hside hp hf ht hc hq hlen
    hc12 hq12 hc6 hq6 hqc
  have hsd := make_side pos m
  have hu := make_undo pos m
  have hcne : (c : Int) ≠ -1 := by omega
  have hW : (((pos.bb[6]?.getD 0 &&& compl64 ((1 : Nat) <<< f)) ||| ((1 : Nat) <<< t)) &&&
      compl64 ((1 : Nat) <<< t)) = pos.bb[6]?.getD 0 &&& compl64 ((1 : Nat) <<< f) := by
    apply setPop_restore _ _ (popBit_lt _ _ hbP) ht64
    rw [Nat.testBit_and, htbit]
    simp
  have hA : ((pos.bb[6]?.getD 0 &&& compl64 ((1 : Nat) <<< f)) &&& compl64 ((1 : Nat) <<< t)) |||
      ((1 : Nat) <<< f) = pos.bb[6]?.getD 0 := by
    rw [and_pop_of_clear _ _ (popBit_lt _ _ hbP) (by rw [Nat.testBit_and, htbit]; simp)]
    exact popSet_restore _ _ hbP hfbit
  have hQ : (pos.bb[q]?.getD 0 ||| ((1 : Nat) <<< t)) &&& compl64 ((1 : Nat) <<< t) =
      pos.bb[q]?.getD 0 := setPop_restore _ _ hbq ht64 hqbit
  have hB : (pos.bb[c]?.getD 0 &&& compl64 ((1 : Nat) <<< t)) ||| ((1 : Nat) <<< t) =
      pos.bb[c]?.getD 0 := popSet_restore _ _ hbc hcbit
  have hidem : pos.bb[6]?.getD 0 ||| ((1 : Nat) <<< f) = pos.bb[6]?.getD 0 :=
    set_idem _ _ hfbit
  have hss0 : pos.bb.set 6 (pos.bb[6]?.getD 0) = pos.bb := by
    rw [← List.getD_eq_getElem?_getD]
    exact list_set_getD pos.bb 6 (by omega)
  have hssc : pos.bb.set c (pos.bb[c]?.getD 0) = pos.bb := by
    rw [← List.getD_eq_getElem?_getD]
    exact list_set_getD pos.bb c (by omega)
  have hssq : pos.bb.set q (pos.bb[q]?.getD 0) = pos.bb := by
    rw [← List.getD_eq_getElem?_getD]
    exact list_set_getD pos.bb q (by omega)
  have hWT : pos.bb[6]?.getD 0 &&& compl64 ((1 : Nat) <<< f) &&& compl64 ((1 : Nat) <<< t) =
      pos.bb[6]?.getD 0 &&& compl64 ((1 : Nat) <<< f) :=
    and_pop_of_clear _ _ (popBit_lt _ _ hbP) (by rw [Nat.testBit_and, htbit]; simp)
  have hA2 : (pos.bb[6]?.getD 0 &&& compl64 ((1 : Nat) <<< f)) ||| ((1 : Nat) <<< f) =
      pos.bb[6]?.getD 0 := popSet_restore _ _ hbP hfbit
  have hXc : pos.bb[c]?.getD 0 &&& compl64 ((1 : Nat) <<< t) < 2 ^ 64 := popBit_lt _ _ hbc
  have hR1 : (((pos.bb.set c (pos.bb[c]?.getD 0 &&& compl64 ((1 : Nat) <<< t))).set 6
      (pos.bb[6]?.getD 0 &&& compl64 ((1 : Nat) <<< f))).set q
      (pos.bb[q]?.getD 0 ||| ((1 : Nat) <<< t)))[6]?.getD 0 =
      pos.bb[6]?.getD 0 &&& compl64 ((1 : Nat) <<< f) := by
    rw [getq_set_ne _ _ _ _ hq6]
    exact getq_set_self _ _ _ (by simp [hlen] <;> omega)
  have hR1b : ((((pos.bb.set c (pos.bb[c]?.getD 0 &&& compl64 ((1 : Nat) <<< t))).set 6 (pos.bb[6]?.getD 0 &&& compl64 ((1 : Nat) <<< f))).set q (pos.bb[q]?.getD 0 ||| ((1 : Nat) <<< t))).set 6 (pos.bb[6]?.getD 0 &&& compl64 ((1 : Nat) <<< f)))[6]?.getD 0 = (pos.bb[6]?.getD 0 &&& compl64 ((1 : Nat) <<< f)) :=
    getq_set_self _ _ _ (by simp [hlen] <;> omega)
  have hR2 : ((((pos.bb.set c (pos.bb[c]?.getD 0 &&& compl64 ((1 : Nat) <<< t))).set 6 (pos.bb[6]?.getD 0 &&& compl64 ((1 : Nat) <<< f))).set q (pos.bb[q]?.getD 0 ||| ((1 : Nat) <<< t))).set 6 (pos.bb[6]?.getD 0))[q]?.getD 0 = (pos.bb[q]?.getD 0 ||| ((1 : Nat) <<< t)) := by
    rw [getq_set_ne _ _ _ _ (fun h => hq6 h.symm)]
    exact getq_set_self _ _ _ (by simp [hlen] <;> omega)
  have hR3 : (((((pos.bb.set c (pos.bb[c]?.getD 0 &&& compl64 ((1 : Nat) <<< t))).set 6 (pos.bb[6]?.getD 0 &&& compl64 ((1 : Nat) <<< f))).set q (pos.bb[q]?.getD 0 ||| ((1 : Nat) <<< t))).set 6 (pos.bb[6]?.getD 0)).set q (pos.bb[q]?.getD 0))[6]?.getD 0 = (pos.bb[6]?.getD 0) := by
    rw [getq_set_ne _ _ _ _ hq6]
    exact getq_set_self _ _ _ (by simp [hlen] <;> omega)
  have hR4 : ((((((pos.bb.set c (pos.bb[c]?.getD 0 &&& compl64 ((1 : Nat) <<< t))).set 6 (pos.bb[6]?.getD 0 &&& compl64 ((1 : Nat) <<< f))).set q (pos.bb[q]?.getD 0 ||| ((1 : Nat) <<< t))).set 6 (pos.bb[6]?.getD 0)).set q (pos.bb[q]?.getD 0)).set 6 (pos.bb[6]?.getD 0))[c]?.getD 0 = (pos.bb[c]?.getD 0 &&& compl64 ((1 : Nat) <<< t)) := by
    rw [getq_set_ne _ _ _ _ (fun h => hc6 h.symm), getq_set_ne _ _ _ _ hqc,
      getq_set_ne _ _ _ _ (fun h => hc6 h.symm), getq_set_ne _ _ _ _ hqc,
      getq_set_ne _ _ _ _ (fun h => hc6 h.symm)]
    exact getq_set_self _ _ _ (by omega)
  have hgoal : ffp_unmake_move (ffp_make_move pos m).1 m
      ⟨pos.castling, pos.ep_square, pos.halfmove_clock, pos.fullmove_number, m.captured⟩ = pos := by
    simp [ffp_unmake_move, hEP, hPRf, hCA, hp, hf, ht, hc, hq, hcne, hsd, hside, posSetBit,
      posPopBit, bbSet, bbGet, int_toNat_cast, hbb, hW, hWT, hA2, hR1, hR1b, hR2, hR3, hR4,
      hQ, hB, hidem, List.set_set, flipSide_flipSide]
    exact update_eq_of _ _
      (by
        simp [hW, hWT, hA2, hR1, hR1b, hR2, hR3, hR4, hA, hQ, hB, hidem, hss0, hssc, hssq,
          List.set_set]
        apply List.ext_getElem (by simp [hlen])
        intro n h1 h2
        by_cases hn6 : n = 6
        · subst hn6
          rw [List.getElem_set_ne hc6, List.getElem_set_self, getq_eq_getElem _ _ (by omega)]
        · by_cases hnq : n = q
          · subst hnq
            rw [List.getElem_set_ne (fun h => hqc h.symm),
              List.getElem_set_ne (fun h => hq6 h.symm), List.getElem_set_self,
              getq_eq_getElem _ _ (by omega)]
          · by_cases hnc : n = c
            · subst hnc
              rw [List.getElem_set_self, getq_eq_getElem _ _ (by omega)]
            · rw [List.getElem_set_ne (fun h => hnc h.symm),
                List.getElem_set_ne (fun h => hn6 h.symm),
                List.getElem_set_ne (fun h => hnq h.symm),
                List.getElem_set_ne (fun h => hn6 h.symm),
                List.getElem_set_ne (fun h => hnq h.symm),
                List.getElem_set_ne (fun h => hn6 h.symm),
                List.getElem_set_ne (fun h => hnc h.symm)])
      (by simp [hsd, flipSide_flipSide, hside]) rfl rfl rfl rfl hocc
  rw [hu]
  exact hgoal


theorem make_bb_promo_black_nocap (pos : Position) (m : Move) (f t q : Nat)
    (hEP : m.flags &&& MF_ENPASSANT = 0) (hPRf : m.flags &&& MF_PROMO ≠ 0)
    (hCA : m.flags &&& MF_CASTLE = 0) (hside : pos.side = Side.BLACK)
    (hp : m.piece = 6) (hf : m.fromSq = (f : Int)) (ht : m.toSq = (t : Int))
    (hc : m.captured = -1) (hq : m.promo = (q : Int))
    (hlen : pos.bb.length = 12) (hq12 : q < 12) (hq6 : q ≠ 6) :
    ((ffp_make_move pos m).1).bb =
      (pos.bb.set 6
        (((pos.bb.getD 6 0 &&& compl64 ((1 : Nat) <<< f)) ||| ((1 : Nat) <<< t)) &&&
          compl64 ((1 : Nat) <<< t))).set q
        (pos.bb.getD q 0 ||| ((1 : Nat) <<< t)) := by
  have hg2 : (pos.bb.set 6 (pos.bb[6]?.getD 0 &&& compl64 ((1 : Nat) <<< f)))[6]?.getD 0 =
      pos.bb[6]?.getD 0 &&& compl64 ((1 : Nat) <<< f) :=
    getq_set_self _ _ _ (by simp [hlen] <;> omega)
  have hg3 : (pos.bb.set 6
      ((pos.bb[6]?.getD 0 &&& compl64 ((1 : Nat) <<< f)) ||| ((1 : Nat) <<< t)))[6]?.getD 0 =
      (pos.bb[6]?.getD 0 &&& compl64 ((1 : Nat) <<< f)) ||| ((1 : Nat) <<< t) :=
    getq_set_self _ _ _ (by simp [hlen] <;> omega)
  have hg4 : ((pos.bb.set 6
      (((pos.bb[6]?.getD 0 &&& compl64 ((1 : Nat) <<< f)) ||| ((1 : Nat) <<< t)) &&&
        compl64 ((1 : Nat) <<< t))))[q]?.getD 0 = pos.bb[q]?.getD 0 :=
    getq_set_ne _ _ _ _ (fun h => hq6 h.symm)
  simp [ffp_make_move, hEP, hPRf, hCA, hp, hf, ht, hc, hq, hside, posSetBit, posPopBit,
    bbSet, bbGet, int_toNat_cast, apply_ite Position.bb, update_occupancy, hg2, hg3, hg4,
    List.set_set]


theorem roundtrip_promo_black_nocap (pos : Position) (m : Move) (f t q : Nat)
    (hEP : m.flags &&& MF_ENPASSANT = 0) (hPRf : m.flags &&& MF_PROMO ≠ 0)
    (hCA : m.flags &&& MF_CASTLE = 0) (hside : pos.side = Side.BLACK)
    (hp : m.piece = 6) (hf : m.fromSq = (f : Int)) (ht : m.toSq = (t : Int))
    (hc : m.captured = -1) (hq : m.promo = (q : Int))
    (hlen : pos.bb.length = 12) (hq12 : q < 12) (hq6 : q ≠ 6)
    (hf64 : f < 64) (ht64 : t < 64)
    (hbP : pos.bb[6]?.getD 0 < 2 ^ 64) (hbq : pos.bb[q]?.getD 0 < 2 ^ 64)
    (hfbit : (pos.bb[6]?.getD 0).testBit f = true)
    (htbit : (pos.bb[6]?.getD 0).testBit t = false)
    (hqbit : (pos.bb[q]?.getD 0).testBit t = false)
    (hocc : coherentOcc pos) :
    ffp_unmake_move (ffp_make_move pos m).1 m (ffp_make_move pos m).2 = pos := by
  have hbb := make_bb_promo_black_nocap pos m f t q hEP hPRf hCA hside hp hf ht hc hq hlen
    hq12 hq6
  have hsd := make_side pos m
  have hu := make_undo pos m
  have hW : (((pos.bb[6]?.getD 0 &&& compl64 ((1 : Nat) <<< f)) ||| ((1 : Nat) <<< t)) &&&
      compl64 ((1 : Nat) <<< t)) = pos.bb[6]?.getD 0 &&& compl64 ((1 : Nat) <<< f) := by
    apply setPop_restore _ _ (popBit_lt _ _ hbP) ht64
    rw [Nat.testBit_and, htbit]
    simp
  have hWT : pos.bb[6]?.getD 0 &&& compl64 ((1 : Nat) <<< f) &&& compl64 ((1 : Nat) <<< t) =
      pos.bb[6]?.getD 0 &&& compl64 ((1 : Nat) <<< f) :=
    and_pop_of_clear _ _ (popBit_lt _ _ hbP) (by rw [Nat.testBit_and, htbit]; simp)
  have hA2 : (pos.bb[6]?.getD 0 &&& compl64 ((1 : Nat) <<< f)) ||| ((1 : Nat) <<< f) =
      pos.bb[6]?.getD 0 := popSet_restore _ _ hbP hfbit
  have hQ : (pos.bb[q]?.getD 0 ||| ((1 : Nat) <<< t)) &&& compl64 ((1 : Nat) <<< t) =
      pos.bb[q]?.getD 0 := setPop_restore _ _ hbq ht64 hqbit
  have hidem : pos.bb[6]?.getD 0 ||| ((1 : Nat) <<< f) = pos.bb[6]?.getD 0 :=
    set_idem _ _ hfbit
  have hR1 : ((pos.bb.set 6 (pos.bb[6]?.getD 0 &&& compl64 ((1 : Nat) <<< f))).set q
      (pos.bb[q]?.getD 0 ||| ((1 : Nat) <<< t)))[6]?.getD 0 =
      pos.bb[6]?.getD 0 &&& compl64 ((1 : Nat) <<< f) := by
    rw [getq_set_ne _ _ _ _ hq6]
    exact getq_set_self _ _ _ (by simp [hlen] <;> omega)
  have hR1b : (((pos.bb.set 6 (pos.bb[6]?.getD 0 &&& compl64 ((1 : Nat) <<< f))).set q
      (pos.bb[q]?.getD 0 ||| ((1 : Nat) <<< t))).set 6
      (pos.bb[6]?.getD 0 &&& compl64 ((1 : Nat) <<< f)))[6]?.getD 0 =
      pos.bb[6]?.getD 0 &&& compl64 ((1 : Nat) <<< f) :=
    getq_set_self _ _ _ (by simp [hlen] <;> omega)
  have hR2 : (((pos.bb.set 6 (pos.bb[6]?.getD 0 &&& compl64 ((1 : Nat) <<< f))).set q
      (pos.bb[q]?.getD 0 ||| ((1 : Nat) <<< t))).set 6 (pos.bb[6]?.getD 0))[q]?.getD 0 =
      pos.bb[q]?.getD 0 ||| ((1 : Nat) <<< t) := by
    rw [getq_set_ne _ _ _ _ (fun h => hq6 h.symm)]
    exact getq_set_self _ _ _ (by simp [hlen] <;> omega)
  have hR3 : ((((pos.bb.set 6 (pos.bb[6]?.getD 0 &&& compl64 ((1 : Nat) <<< f))).set q
      (pos.bb[q]?.getD 0 ||| ((1 : Nat) <<< t))).set 6 (pos.bb[6]?.getD 0)).set q
      (pos.bb[q]?.getD 0))[6]?.getD 0 = pos.bb[6]?.getD 0 := by
    rw [getq_set_ne _ _ _ _ hq6]
    exact getq_set_self _ _ _ (by simp [hlen] <;> omega)
  have hgoal : ffp_unmake_move (ffp_make_move pos m).1 m
      ⟨pos.castling, pos.ep_square, pos.halfmove_clock, pos.fullmove_number, m.captured⟩ = pos := by
    simp [ffp_unmake_move, hEP, hPRf, hCA, hp, hf, ht, hc, hq, hsd, hside, posSetBit,
      posPopBit, bbSet, bbGet, int_toNat_cast, hbb, hW, hWT, hA2, hR1, hR1b, hR2, hR3,
      hQ, hidem, List.set_set, flipSide_flipSide]
    exact update_eq_of _ _
      (by
        simp [hW, hWT, hA2, hR1, hR1b, hR2, hR3, hQ, hidem, List.set_set]
        apply List.ext_getElem (by simp [hlen])
        intro n h1 h2
        by_cases hn6 : n = 6
        · subst hn6
          rw [List.getElem_set_self, getq_eq_getElem _ _ (by omega)]
        · by_cases hnq : n = q
          · subst hnq
            rw [List.getElem_set_ne (fun h => hq6 h.symm), List.getElem_set_self,
              getq_eq_getElem _ _ (by omega)]
          · rw [List.getElem_set_ne (fun h => hn6 h.symm),
              List.getElem_set_ne (fun h => hnq h.symm),
              List.getElem_set_ne (fun h => hn6 h.symm),
              List.getElem_set_ne (fun h => hnq h.symm),
              List.getElem_set_ne (fun h => hn6 h.symm)])
      (by simp [hsd, flipSide_flipSide, hside]) rfl rfl rfl rfl hocc
  rw [hu]
  exact hgoal


theorem make_bb_castle_wk (pos : Position) (m : Move)
    (hEP : m.flags &&& MF_ENPASSANT = 0) (hPR : m.flags &&& MF_PROMO = 0)
    (hCAf : m.flags &&& MF_CASTLE ≠ 0)
    (hp : m.piece = 5) (hf : m.fromSq = 60) (ht : m.toSq = 62)
    (hc : m.captured = -1) (hlen : pos.bb.length = 12) :
    ((ffp_make_move pos m).1).bb =
      (pos.bb.set 5 ((pos.bb.getD 5 0 &&& compl64 1152921504606846976) ||| 4611686018427387904)).set 1
        ((pos.bb.getD 1 0 &&& compl64 9223372036854775808) ||| 2305843009213693952) := by
  have hg1 : (pos.bb.set 5 (pos.bb[5]?.getD 0 &&& compl64 1152921504606846976))[5]?.getD 0 =
      pos.bb[5]?.getD 0 &&& compl64 1152921504606846976 :=
    getq_set_self _ _ _ (by simp [hlen] <;> omega)
  have hg2 : ((pos.bb.set 5 ((pos.bb[5]?.getD 0 &&& compl64 1152921504606846976) ||| 4611686018427387904)))[1]?.getD 0 =
      pos.bb[1]?.getD 0 :=
    getq_set_ne _ _ _ _ (by omega)
  have hg3 : (((pos.bb.set 5 ((pos.bb[5]?.getD 0 &&& compl64 1152921504606846976) |||
      4611686018427387904)).set 1 (pos.bb[1]?.getD 0 &&& compl64 9223372036854775808)))[1]?.getD 0 =
      pos.bb[1]?.getD 0 &&& compl64 9223372036854775808 :=
    getq_set_self _ _ _ (by simp [hlen] <;> omega)
  simp [ffp_make_move, hEP, hPR, hCAf, hp, hf, ht, hc, posSetBit, posPopBit,
    bbSet, bbGet, int_toNat_cast, apply_ite Position.bb, update_occupancy, hg1, hg2, hg3,
    List.set_set]

theorem roundtrip_castle_wk (pos : Position) (m : Move)
    (hEP : m.flags &&& MF_ENPASSANT = 0) (hPR : m.flags &&& MF_PROMO = 0)
    (hCAf : m.flags &&& MF_CASTLE ≠ 0)
    (hp : m.piece = 5) (hf : m.fromSq = 60) (ht : m.toSq = 62)
    (hc : m.captured = -1) (hlen : pos.bb.length = 12)
    (hbP : pos.bb[5]?.getD 0 < 2 ^ 64) (hbR : pos.bb[1]?.getD 0 < 2 ^ 64)
    (hkf : (pos.bb[5]?.getD 0).testBit 60 = true)
    (hkt : (pos.bb[5]?.getD 0).testBit 62 = false)
    (hrf : (pos.bb[1]?.getD 0).testBit 63 = true)
    (hrt : (pos.bb[1]?.getD 0).testBit 61 = false)
    (hocc : coherentOcc pos) :
    ffp_unmake_move (ffp_make_move pos m).1 m (ffp_make_move pos m).2 = pos := by
  have hbb := make_bb_castle_wk pos m hEP hPR hCAf hp hf ht hc hlen
  have hsd := make_side pos m
  have hu := make_undo pos m
  have hAK : (((pos.bb[5]?.getD 0 &&& compl64 1152921504606846976) ||| 4611686018427387904) &&&
      compl64 4611686018427387904) ||| 1152921504606846976 = pos.bb[5]?.getD 0 := by
    have h2 := moveBits_roundtrip (pos.bb[5]?.getD 0) 60 62 hbP (by omega) (by omega) hkf hkt
    simpa using h2
  have hAR : (((pos.bb[1]?.getD 0 &&& compl64 9223372036854775808) ||| 2305843009213693952) &&&
      compl64 2305843009213693952) ||| 9223372036854775808 = pos.bb[1]?.getD 0 := by
    have h2 := moveBits_roundtrip (pos.bb[1]?.getD 0) 63 61 hbR (by omega) (by omega) hrf hrt
    simpa using h2
  have hR1 : ((pos.bb.set 5 ((pos.bb[5]?.getD 0 &&& compl64 1152921504606846976) |||
      4611686018427387904)).set 1 ((pos.bb[1]?.getD 0 &&& compl64 9223372036854775808) |||
      2305843009213693952))[5]?.getD 0 =
      (pos.bb[5]?.getD 0 &&& compl64 1152921504606846976) ||| 4611686018427387904 := by
    rw [getq_set_ne _ _ _ _ (by omega)]
    exact getq_set_self _ _ _ (by simp [hlen] <;> omega)
  have hR1b : (((pos.bb.set 5 ((pos.bb[5]?.getD 0 &&& compl64 1152921504606846976) |||
      4611686018427387904)).set 1 ((pos.bb[1]?.getD 0 &&& compl64 9223372036854775808) |||
      2305843009213693952)).set 5 (((pos.bb[5]?.getD 0 &&& compl64 1152921504606846976) |||
      4611686018427387904) &&& compl64 4611686018427387904))[5]?.getD 0 =
      ((pos.bb[5]?.getD 0 &&& compl64 1152921504606846976) ||| 4611686018427387904) &&&
        compl64 4611686018427387904 :=
    getq_set_self _ _ _ (by simp [hlen] <;> omega)
  have hR2 : (((pos.bb.set 5 ((pos.bb[5]?.getD 0 &&& compl64 1152921504606846976) |||
      4611686018427387904)).set 1 ((pos.bb[1]?.getD 0 &&& compl64 9223372036854775808) |||
      2305843009213693952)).set 5 (pos.bb[5]?.getD 0))[1]?.getD 0 =
      (pos.bb[1]?.getD 0 &&& compl64 9223372036854775808) ||| 2305843009213693952 := by
    rw [getq_set_ne _ _ _ _ (by omega)]
    exact getq_set_self _ _ _ (by simp [hlen] <;> omega)
  have hR2b : ((((pos.bb.set 5 ((pos.bb[5]?.getD 0 &&& compl64 1152921504606846976) |||
      4611686018427387904)).set 1 ((pos.bb[1]?.getD 0 &&& compl64 9223372036854775808) |||
      2305843009213693952)).set 5 (pos.bb[5]?.getD 0)).set 1
      (((pos.bb[1]?.getD 0 &&& compl64 9223372036854775808) ||| 2305843009213693952) &&&
        compl64 2305843009213693952))[1]?.getD 0 =
      ((pos.bb[1]?.getD 0 &&& compl64 9223372036854775808) ||| 2305843009213693952) &&&
        compl64 2305843009213693952 :=
    getq_set_self _ _ _ (by simp [hlen] <;> omega)
  have hgoal : ffp_unmake_move (ffp_make_move pos m).1 m
      ⟨pos.castling, pos.ep_square, pos.halfmove_clock, pos.fullmove_number, m.captured⟩ = pos := by
    simp [ffp_unmake_move, hEP, hPR, hCAf, hp, hf, ht, hc, hsd, posSetBit,
      posPopBit, bbSet, bbGet, int_toNat_cast, hbb, hAK, hAR, hR1, hR1b, hR2, hR2b,
      getq_set_self, hlen, List.set_set, flipSide_flipSide]
    exact update_eq_of _ _
      (by
        simp [hAK, hAR, hR1, hR1b, hR2, hR2b, getq_set_self, hlen, List.set_set]
        apply List.ext_getElem (by simp [hlen])
        intro n h1 h2
        by_cases hnP : n = 5
        · subst hnP
          rw [List.getElem_set_ne (by omega), List.getElem_set_self,
            ← getq_eq_getElem pos.bb 5 (by omega)]
          exact hAK
        · by_cases hnR : n = 1
          · subst hnR
            rw [List.getElem_set_self, ← getq_eq_getElem pos.bb 1 (by omega)]
            exact hAR
          · rw [List.getElem_set_ne (by omega), List.getElem_set_ne (by omega),
              List.getElem_set_ne (by omega), List.getElem_set_ne (by omega)])
      (by simp [hsd, flipSide_flipSide]) rfl rfl rfl rfl hocc
  rw [hu]
  exact hgoal


theorem make_bb_castle_wq (pos : Position) (m : Move)
    (hEP : m.flags &&& MF_ENPASSANT = 0) (hPR : m.flags &&& MF_PROMO = 0)
    (hCAf : m.flags &&& MF_CASTLE ≠ 0)
    (hp : m.piece = 5) (hf : m.fromSq = 60) (ht : m.toSq = 58)
    (hc : m.captured = -1) (hlen : pos.bb.length = 12) :
    ((ffp_make_move pos m).1).bb =
      (pos.bb.set 5 ((pos.bb.getD 5 0 &&& compl64 1152921504606846976) ||| 288230376151711744)).set 1
        ((pos.bb.getD 1 0 &&& compl64 72057594037927936) ||| 576460752303423488) := by
  have hg1 : (pos.bb.set 5 (pos.bb[5]?.getD 0 &&& compl64 1152921504606846976))[5]?.getD 0 =
      pos.bb[5]?.getD 0 &&& compl64 1152921504606846976 :=
    getq_set_self _ _ _ (by simp [hlen] <;> omega)
  have hg2 : ((pos.bb.set 5 ((pos.bb[5]?.getD 0 &&& compl64 1152921504606846976) ||| 288230376151711744)))[1]?.getD 0 =
      pos.bb[1]?.getD 0 :=
    getq_set_ne _ _ _ _ (by omega)
  have hg3 : (((pos.bb.set 5 ((pos.bb[5]?.getD 0 &&& compl64 1152921504606846976) |||
      288230376151711744)).set 1 (pos.bb[1]?.getD 0 &&& compl64 72057594037927936)))[1]?.getD 0 =
      pos.bb[1]?.getD 0 &&& compl64 72057594037927936 :=
    getq_set_self _ _ _ (by simp [hlen] <;> omega)
  simp [ffp_make_move, hEP, hPR, hCAf, hp, hf, ht, hc, posSetBit, posPopBit,
    bbSet, bbGet, int_toNat_cast, apply_ite Position.bb, update_occupancy, hg1, hg2, hg3,
    List.set_set]

theorem roundtrip_castle_wq (pos : Position) (m : Move)
    (hEP : m.flags &&& MF_ENPASSANT = 0) (hPR : m.flags &&& MF_PROMO = 0)
    (hCAf : m.flags &&& MF_CASTLE ≠ 0)
    (hp : m.piece = 5) (hf : m.fromSq = 60) (ht : m.toSq = 58)
    (hc : m.captured = -1) (hlen : pos.bb.length = 12)
    (hbP : pos.bb[5]?.getD 0 < 2 ^ 64) (hbR : pos.bb[1]?.getD 0 < 2 ^ 64)
    (hkf : (pos.bb[5]?.getD 0).testBit 60 = true)
    (hkt : (pos.bb[5]?.getD 0).testBit 58 = false)
    (hrf : (pos.bb[1]?.getD 0).testBit 56 = true)
    (hrt : (pos.bb[1]?.getD 0).testBit 59 = false)
    (hocc : coherentOcc pos) :
    ffp_unmake_move (ffp_make_move pos m).1 m (ffp_make_move pos m).2 = pos := by
  have hbb := make_bb_castle_wq pos m hEP hPR hCAf hp hf ht hc hlen
  have hsd := make_side pos m
  have hu := make_undo pos m
  have hAK : (((pos.bb[5]?.getD 0 &&& compl64 1152921504606846976) ||| 288230376151711744) &&&
      compl64 288230376151711744) ||| 1152921504606846976 = pos.bb[5]?.getD 0 := by
    have h2 := moveBits_roundtrip (pos.bb[5]?.getD 0) 60 58 hbP (by omega) (by omega) hkf hkt
    simpa using h2
  have hAR : (((pos.bb[1]?.getD 0 &&& compl64 72057594037927936) ||| 576460752303423488) &&&
      compl64 576460752303423488) ||| 72057594037927936 = pos.bb[1]?.getD 0 := by
    have h2 := moveBits_roundtrip (pos.bb[1]?.getD 0) 56 59 hbR (by omega) (by omega) hrf hrt
    simpa using h2
  have hR1 : ((pos.bb.set 5 ((pos.bb[5]?.getD 0 &&& compl64 1152921504606846976) |||
      288230376151711744)).set 1 ((pos.bb[1]?.getD 0 &&& compl64 72057594037927936) |||
      576460752303423488))[5]?.getD 0 =
      (pos.bb[5]?.getD 0 &&& compl64 1152921504606846976) ||| 288230376151711744 := by
    rw [getq_set_ne _ _ _ _ (by omega)]
    exact getq_set_self _ _ _ (by simp [hlen] <;> omega)
  have hR1b : (((pos.bb.set 5 ((pos.bb[5]?.getD 0 &&& compl64 1152921504606846976) |||
      288230376151711744)).set 1 ((pos.bb[1]?.getD 0 &&& compl64 72057594037927936) |||
      576460752303423488)).set 5 (((pos.bb[5]?.getD 0 &&& compl64 1152921504606846976) |||
      288230376151711744) &&& compl64 288230376151711744))[5]?.getD 0 =
      ((pos.bb[5]?.getD 0 &&& compl64 1152921504606846976) ||| 288230376151711744) &&&
        compl64 288230376151711744 :=
    getq_set_self _ _ _ (by simp [hlen] <;> omega)
  have hR2 : (((pos.bb.set 5 ((pos.bb[5]?.getD 0 &&& compl64 1152921504606846976) |||
      288230376151711744)).set 1 ((pos.bb[1]?.getD 0 &&& compl64 72057594037927936) |||
      576460752303423488)).set 5 (pos.bb[5]?.getD 0))[1]?.getD 0 =
      (pos.bb[1]?.getD 0 &&& compl64 72057594037927936) ||| 576460752303423488 := by
    rw [getq_set_ne _ _ _ _ (by omega)]
    exact getq_set_self _ _ _ (by simp [hlen] <;> omega)
  have hR2b : ((((pos.bb.set 5 ((pos.bb[5]?.getD 0 &&& compl64 1152921504606846976) |||
      288230376151711744)).set 1 ((pos.bb[1]?.getD 0 &&& compl64 72057594037927936) |||
      576460752303423488)).set 5 (pos.bb[5]?.getD 0)).set 1
      (((pos.bb[1]?.getD 0 &&& compl64 72057594037927936) ||| 576460752303423488) &&&
        compl64 576460752303423488))[1]?.getD 0 =
      ((pos.bb[1]?.getD 0 &&& compl64 72057594037927936) ||| 576460752303423488) &&&
        compl64 576460752303423488 :=
    getq_set_self _ _ _ (by simp [hlen] <;> omega)
  have hgoal : ffp_unmake_move (ffp_make_move pos m).1 m
      ⟨pos.castling, pos.ep_square, pos.halfmove_clock, pos.fullmove_number, m.captured⟩ = pos := by
    simp [ffp_unmake_move, hEP, hPR, hCAf, hp, hf, ht, hc, hsd, posSetBit,
      posPopBit, bbSet, bbGet, int_toNat_cast, hbb, hAK, hAR, hR1, hR1b, hR2, hR2b,
      getq_set_self, hlen, List.set_set, flipSide_flipSide]
    exact update_eq_of _ _
      (by
        simp [hAK, hAR, hR1, hR1b, hR2, hR2b, getq_set_self, hlen, List.set_set]
        apply List.ext_getElem (by simp [hlen])
        intro n h1 h2
        by_cases hnP : n = 5
        · subst hnP
          rw [List.getElem_set_ne (by omega), List.getElem_set_self,
            ← getq_eq_getElem pos.bb 5 (by omega)]
          exact hAK
        · by_cases hnR : n = 1
          · subst hnR
            rw [List.getElem_set_self, ← getq_eq_getElem pos.bb 1 (by omega)]
            exact hAR
          · rw [List.getElem_set_ne (by omega), List.getElem_set_ne (by omega),
              List.getElem_set_ne (by omega), List.getElem_set_ne (by omega)])
      (by simp [hsd, flipSide_flipSide]) rfl rfl rfl rfl hocc
  rw [hu]
  exact hgoal


theorem make_bb_castle_bk (pos : Position) (m : Move)
    (hEP : m.flags &&& MF_ENPASSANT = 0) (hPR : m.flags &&& MF_PROMO = 0)
    (hCAf : m.flags &&& MF_CASTLE ≠ 0)
    (hp : m.piece = 11) (hf : m.fromSq = 4) (ht : m.toSq = 6)
    (hc : m.captured = -1) (hlen : pos.bb.length = 12) :
    ((ffp_make_move pos m).1).bb =
      (pos.bb.set 11 ((pos.bb.getD 11 0 &&& compl64 16) ||| 64)).set 7
        ((pos.bb.getD 7 0 &&& compl64 128) ||| 32) := by
  have hg1 : (pos.bb.set 11 (pos.bb[11]?.getD 0 &&& compl64 16))[11]?.getD 0 =
      pos.bb[11]?.getD 0 &&& compl64 16 :=
    getq_set_self _ _ _ (by simp [hlen] <;> omega)
  have hg2 : ((pos.bb.set 11 ((pos.bb[11]?.getD 0 &&& compl64 16) ||| 64)))[7]?.getD 0 =
      pos.bb[7]?.getD 0 :=
    getq_set_ne _ _ _ _ (by omega)
  have hg3 : (((pos.bb.set 11 ((pos.bb[11]?.getD 0 &&& compl64 16) |||
      64)).set 7 (pos.bb[7]?.getD 0 &&& compl64 128)))[7]?.getD 0 =
      pos.bb[7]?.getD 0 &&& compl64 128 :=
    getq_set_self _ _ _ (by simp [hlen] <;> omega)
  simp [ffp_make_move, hEP, hPR, hCAf, hp, hf, ht, hc, posSetBit, posPopBit,
    bbSet, bbGet, int_toNat_cast, apply_ite Position.bb, update_occupancy, hg1, hg2, hg3,
    List.set_set]

theorem roundtrip_castle_bk (pos : Position) (m : Move)
    (hEP : m.flags &&& MF_ENPASSANT = 0) (hPR : m.flags &&& MF_PROMO = 0)
    (hCAf : m.flags &&& MF_CASTLE ≠ 0)
    (hp : m.piece = 11) (hf : m.fromSq = 4) (ht : m.toSq = 6)
    (hc : m.captured = -1) (hlen : pos.bb.length = 12)
    (hbP : pos.bb[11]?.getD 0 < 2 ^ 64) (hbR : pos.bb[7]?.getD 0 < 2 ^ 64)
    (hkf : (pos.bb[11]?.getD 0).testBit 4 = true)
    (hkt : (pos.bb[11]?.getD 0).testBit 6 = false)
    (hrf : (pos.bb[7]?.getD 0).testBit 7 = true)
    (hrt : (pos.bb[7]?.getD 0).testBit 5 = false)
    (hocc : coherentOcc pos) :
    ffp_unmake_move (ffp_make_move pos m).1 m (ffp_make_move pos m).2 = pos := by
  have hbb := make_bb_castle_bk pos m hEP hPR hCAf hp hf ht hc hlen
  have hsd := make_side pos m
  have hu := make_undo pos m
  have hAK : (((pos.bb[11]?.getD 0 &&& compl64 16) ||| 64) &&&
      compl64 64) ||| 16 = pos.bb[11]?.getD 0 := by
    have h2 := moveBits_roundtrip (pos.bb[11]?.getD 0) 4 6 hbP (by omega) (by omega) hkf hkt
    simpa using h2
  have hAR : (((pos.bb[7]?.getD 0 &&& compl64 128) ||| 32) &&&
      compl64 32) ||| 128 = pos.bb[7]?.getD 0 := by
    have h2 := moveBits_roundtrip (pos.bb[7]?.getD 0) 7 5 hbR (by omega) (by omega) hrf hrt
    simpa using h2
  have hR1 : ((pos.bb.set 11 ((pos.bb[11]?.getD 0 &&& compl64 16) |||
      64)).set 7 ((pos.bb[7]?.getD 0 &&& compl64 128) |||
      32))[11]?.getD 0 =
      (pos.bb[11]?.getD 0 &&& compl64 16) ||| 64 := by
    rw [getq_set_ne _ _ _ _ (by omega)]
    exact getq_set_self _ _ _ (by simp [hlen] <;> omega)
  have hR1b : (((pos.bb.set 11 ((pos.bb[11]?.getD 0 &&& compl64 16) |||
      64)).set 7 ((pos.bb[7]?.getD 0 &&& compl64 128) |||
      32)).set 11 (((pos.bb[11]?.getD 0 &&& compl64 16) |||
      64) &&& compl64 64))[11]?.getD 0 =
      ((pos.bb[11]?.getD 0 &&& compl64 16) ||| 64) &&&
        compl64 64 :=
    getq_set_self _ _ _ (by simp [hlen] <;> omega)
  have hR2 : (((pos.bb.set 11 ((pos.bb[11]?.getD 0 &&& compl64 16) |||
      64)).set 7 ((pos.bb[7]?.getD 0 &&& compl64 128) |||
      32)).set 11 (pos.bb[11]?.getD 0))[7]?.getD 0 =
      (pos.bb[7]?.getD 0 &&& compl64 128) ||| 32 := by
    rw [getq_set_ne _ _ _ _ (by omega)]
    exact getq_set_self _ _ _ (by simp [hlen] <;> omega)
  have hR2b : ((((pos.bb.set 11 ((pos.bb[11]?.getD 0 &&& compl64 16) |||
      64)).set 7 ((pos.bb[7]?.getD 0 &&& compl64 128) |||
      32)).set 11 (pos.bb[11]?.getD 0)).set 7
      (((pos.bb[7]?.getD 0 &&& compl64 128) ||| 32) &&&
        compl64 32))[7]?.getD 0 =
      ((pos.bb[7]?.getD 0 &&& compl64 128) ||| 32) &&&
        compl64 32 :=
    getq_set_self _ _ _ (by simp [hlen] <;> omega)
  have hgoal : ffp_unmake_move (ffp_make_move pos m).1 m
      ⟨pos.castling, pos.ep_square, pos.halfmove_clock, pos.fullmove_number, m.captured⟩ = pos := by
    simp [ffp_unmake_move, hEP, hPR, hCAf, hp, hf, ht, hc, hsd, posSetBit,
      posPopBit, bbSet, bbGet, int_toNat_cast, hbb, hAK, hAR, hR1, hR1b, hR2, hR2b,
      getq_set_self, hlen, List.set_set, flipSide_flipSide]
    exact update_eq_of _ _
      (by
        simp [hAK, hAR, hR1, hR1b, hR2, hR2b, getq_set_self, hlen, List.set_set]
        apply List.ext_getElem (by simp [hlen])
        intro n h1 h2
        by_cases hnP : n = 11
        · subst hnP
          rw [List.getElem_set_ne (by omega), List.getElem_set_self,
            ← getq_eq_getElem pos.bb 11 (by omega)]
          exact hAK
        · by_cases hnR : n = 7
          · subst hnR
            rw [List.getElem_set_self, ← getq_eq_getElem pos.bb 7 (by omega)]
            exact hAR
          · rw [List.getElem_set_ne (by omega), List.getElem_set_ne (by omega),
              List.getElem_set_ne (by omega), List.getElem_set_ne (by omega)])
      (by simp [hsd, flipSide_flipSide]) rfl rfl rfl rfl hocc
  rw [hu]
  exact hgoal


theorem make_bb_castle_bq (pos : Position) (m : Move)
    (hEP : m.flags &&& MF_ENPASSANT = 0) (hPR : m.flags &&& MF_PROMO = 0)
    (hCAf : m.flags &&& MF_CASTLE ≠ 0)
    (hp : m.piece = 11) (hf : m.fromSq = 4) (ht : m.toSq = 2)
    (hc : m.captured = -1) (hlen : pos.bb.length = 12) :
    ((ffp_make_move pos m).1).bb =
      (pos.bb.set 11 ((pos.bb.getD 11 0 &&& compl64 16) ||| 4)).set 7
        ((pos.bb.getD 7 0 &&& compl64 1) ||| 8) := by
  have hg1 : (pos.bb.set 11 (pos.bb[11]?.getD 0 &&& compl64 16))[11]?.getD 0 =
      pos.bb[11]?.getD 0 &&& compl64 16 :=
    getq_set_self _ _ _ (by simp [hlen] <;> omega)
  have hg2 : ((pos.bb.set 11 ((pos.bb[11]?.getD 0 &&& compl64 16) ||| 4)))[7]?.getD 0 =
      pos.bb[7]?.getD 0 :=
    getq_set_ne _ _ _ _ (by omega)
  have hg3 : (((pos.bb.set 11 ((pos.bb[11]?.getD 0 &&& compl64 16) |||
      4)).set 7 (pos.bb[7]?.getD 0 &&& compl64 1)))[7]?.getD 0 =
      pos.bb[7]?.getD 0 &&& compl64 1 :=
    getq_set_self _ _ _ (by simp [hlen] <;> omega)
  simp [ffp_make_move, hEP, hPR, hCAf, hp, hf, ht, hc, posSetBit, posPopBit,
    bbSet, bbGet, int_toNat_cast, apply_ite Position.bb, update_occupancy, hg1, hg2, hg3,
    List.set_set]

theorem roundtrip_castle_bq (pos : Position) (m : Move)
    (hEP : m.flags &&& MF_ENPASSANT = 0) (hPR : m.flags &&& MF_PROMO = 0)
    (hCAf : m.flags &&& MF_CASTLE ≠ 0)
    (hp : m.piece = 11) (hf : m.fromSq = 4) (ht : m.toSq = 2)
    (hc : m.captured = -1) (hlen : pos.bb.length = 12)
    (hbP : pos.bb[11]?.getD 0 < 2 ^ 64) (hbR : pos.bb[7]?.getD 0 < 2 ^ 64)
    (hkf : (pos.bb[11]?.getD 0).testBit 4 = true)
    (hkt : (pos.bb[11]?.getD 0).testBit 2 = false)
    (hrf : (pos.bb[7]?.getD 0).testBit 0 = true)
    (hrt : (pos.bb[7]?.getD 0).testBit 3 = false)
    (hocc : coherentOcc pos) :
    ffp_unmake_move (ffp_make_move pos m).1 m (ffp_make_move pos m).2 = pos := by
  have hbb := make_bb_castle_bq pos m hEP hPR hCAf hp hf ht hc hlen
  have hsd := make_side pos m
  have hu := make_undo pos m
  have hAK : (((pos.bb[11]?.getD 0 &&& compl64 16) ||| 4) &&&
      compl64 4) ||| 16 = pos.bb[11]?.getD 0 := by
    have h2 := moveBits_roundtrip (pos.bb[11]?.getD 0) 4 2 hbP (by omega) (by omega) hkf hkt
    simpa using h2
  have hAR : (((pos.bb[7]?.getD 0 &&& compl64 1) ||| 8) &&&
      compl64 8) ||| 1 = pos.bb[7]?.getD 0 := by
    have h2 := moveBits_roundtrip (pos.bb[7]?.getD 0) 0 3 hbR (by omega) (by omega) hrf hrt
    simpa using h2
  have hR1 : ((pos.bb.set 11 ((pos.bb[11]?.getD 0 &&& compl64 16) |||
      4)).set 7 ((pos.bb[7]?.getD 0 &&& compl64 1) |||
      8))[11]?.getD 0 =
      (pos.bb[11]?.getD 0 &&& compl64 16) ||| 4 := by
    rw [getq_set_ne _ _ _ _ (by omega)]
    exact getq_set_self _ _ _ (by simp [hlen] <;> omega)
  have hR1b : (((pos.bb.set 11 ((pos.bb[11]?.getD 0 &&& compl64 16) |||
      4)).set 7 ((pos.bb[7]?.getD 0 &&& compl64 1) |||
      8)).set 11 (((pos.bb[11]?.getD 0 &&& compl64 16) |||
      4) &&& compl64 4))[11]?.getD 0 =
      ((pos.bb[11]?.getD 0 &&& compl64 16) ||| 4) &&&
        compl64 4 :=
    getq_set_self _ _ _ (by simp [hlen] <;> omega)
  have hR2 : (((pos.bb.set 11 ((pos.bb[11]?.getD 0 &&& compl64 16) |||
      4)).set 7 ((pos.bb[7]?.getD 0 &&& compl64 1) |||
      8)).set 11 (pos.bb[11]?.getD 0))[7]?.getD 0 =
      (pos.bb[7]?.getD 0 &&& compl64 1) ||| 8 := by
    rw [getq_set_ne _ _ _ _ (by omega)]
    exact getq_set_self _ _ _ (by simp [hlen] <;> omega)
  have hR2b : ((((pos.bb.set 11 ((pos.bb[11]?.getD 0 &&& compl64 16) |||
      4)).set 7 ((pos.bb[7]?.getD 0 &&& compl64 1) |||
      8)).set 11 (pos.bb[11]?.getD 0)).set 7
      (((pos.bb[7]?.getD 0 &&& compl64 1) ||| 8) &&&
        compl64 8))[7]?.getD 0 =
      ((pos.bb[7]?.getD 0 &&& compl64 1) ||| 8) &&&
        compl64 8 :=
    getq_set_self _ _ _ (by simp [hlen] <;> omega)
  have hgoal : ffp_unmake_move (ffp_make_move pos m).1 m
      ⟨pos.castling, pos.ep_square, pos.halfmove_clock, pos.fullmove_number, m.captured⟩ = pos := by
    simp [ffp_unmake_move, hEP, hPR, hCAf, hp, hf, ht, hc, hsd, posSetBit,
      posPopBit, bbSet, bbGet, int_toNat_cast, hbb, hAK, hAR, hR1, hR1b, hR2, hR2b,
      getq_set_self, hlen, List.set_set, flipSide_flipSide]
    exact update_eq_of _ _
      (by
        simp [hAK, hAR, hR1, hR1b, hR2, hR2b, getq_set_self, hlen, List.set_set]
        apply List.ext_getElem (by simp [hlen])
        intro n h1 h2
        by_cases hnP : n = 11
        · subst hnP
          rw [List.getElem_set_ne (by omega), List.getElem_set_self,
            ← getq_eq_getElem pos.bb 11 (by omega)]
          exact hAK
        · by_cases hnR : n = 7
          · subst hnR
            rw [List.getElem_set_self, ← getq_eq_getElem pos.bb 7 (by omega)]
            exact hAR
          · rw [List.getElem_set_ne (by omega), List.getElem_set_ne (by omega),
              List.getElem_set_ne (by omega), List.getElem_set_ne (by omega)])
      (by simp [hsd, flipSide_flipSide]) rfl rfl rfl rfl hocc
  rw [hu]
  exact hgoal

theorem mem_listFlat {α β : Type} (l : List α) (f : α → List β) (b : β) :
    b ∈ listFlat l f ↔ ∃ a ∈ l, b ∈ f a := by
  induction l with
  | nil => simp [listFlat]
  | cons x xs ih => simp [listFlat, ih]

theorem mem_bitIndices (b s : Nat) : s ∈ bitIndices b ↔ s < 64 ∧ b.testBit s = true := by
  simp [bitIndices, List.mem_filter, List.mem_range]

theorem lsbIdx_pow : ∀ k, k < 64 → lsbIdx (2 ^ k) = k := by decide

theorem bbGet_eq_getq (pos : Position) (i : Nat) : bbGet pos i = pos.bb[i]?.getD 0 := by
  rw [bbGet, List.getD_eq_getElem?_getD]

theorem emptyAt_of_occ (pos : Position) (hC : coherentOcc pos) (t : Nat)
    (h : pos.occ_all.testBit t = false) : ∀ i < 12, (bbGet pos i).testBit t = false := by
  obtain ⟨h1, h2, h3⟩ := hC
  rw [h3, Nat.testBit_or, Bool.or_eq_false_iff, h1, h2] at h
  simp only [Nat.testBit_or, Bool.or_eq_false_iff] at h
  intro i hi
  interval_cases i <;> tauto

theorem whiteClear_of_occ (pos : Position) (hC : coherentOcc pos) (t : Nat)
    (h : pos.occ_white.testBit t = false) : ∀ i < 6, (bbGet pos i).testBit t = false := by
  obtain ⟨h1, -, -⟩ := hC
  rw [h1] at h
  simp only [Nat.testBit_or, Bool.or_eq_false_iff] at h
  intro i hi
  interval_cases i <;> tauto

theorem blackClear_of_occ (pos : Position) (hC : coherentOcc pos) (t : Nat)
    (h : pos.occ_black.testBit t = false) : ∀ i, 6 ≤ i → i < 12 → (bbGet pos i).testBit t = false := by
  obtain ⟨-, h2, -⟩ := hC
  rw [h2] at h
  simp only [Nat.testBit_or, Bool.or_eq_false_iff] at h
  intro i hi1 hi2
  interval_cases i <;> tauto

theorem occ_white_of_board (pos : Position) (hC : coherentOcc pos) (i f : Nat) (hi : i < 6)
    (h : (bbGet pos i).testBit f = true) : pos.occ_white.testBit f = true := by
  obtain ⟨h1, -, -⟩ := hC
  rw [h1]
  simp only [Nat.testBit_or, Bool.or_eq_true]
  interval_cases i <;> tauto

theorem occ_black_of_board (pos : Position) (hC : coherentOcc pos) (i f : Nat) (hi1 : 6 ≤ i)
    (hi2 : i < 12) (h : (bbGet pos i).testBit f = true) : pos.occ_black.testBit f = true := by
  obtain ⟨-, h2, -⟩ := hC
  rw [h2]
  simp only [Nat.testBit_or, Bool.or_eq_true]
  interval_cases i <;> tauto

theorem exists_black_board (pos : Position) (hC : coherentOcc pos) (t : Nat)
    (h : pos.occ_black.testBit t = true) :
    ∃ i, 6 ≤ i ∧ i < 12 ∧ (bbGet pos i).testBit t = true := by
  obtain ⟨-, h2, -⟩ := hC
  rw [h2] at h
  simp only [Nat.testBit_or, Bool.or_eq_true] at h
  rcases h with (((((h | h) | h) | h) | h) | h)
  · exact ⟨6, by omega, by omega, h⟩
  · exact ⟨7, by omega, by omega, h⟩
  · exact ⟨8, by omega, by omega, h⟩
  · exact ⟨9, by omega, by omega, h⟩
  · exact ⟨10, by omega, by omega, h⟩
  · exact ⟨11, by omega, by omega, h⟩

theorem exists_white_board (pos : Position) (hC : coherentOcc pos) (t : Nat)
    (h : pos.occ_white.testBit t = true) :
    ∃ i, i < 6 ∧ (bbGet pos i).testBit t = true := by
  obtain ⟨h1, -, -⟩ := hC
  rw [h1] at h
  simp only [Nat.testBit_or, Bool.or_eq_true] at h
  rcases h with (((((h | h) | h) | h) | h) | h)
  · exact ⟨0, by omega, h⟩
  · exact ⟨1, by omega, h⟩
  · exact ⟨2, by omega, h⟩
  · exact ⟨3, by omega, h⟩
  · exact ⟨4, by omega, h⟩
  · exact ⟨5, by omega, h⟩

theorem clear_of_disjoint (pos : Position) (hD : disjointBB pos) (c i t : Nat)
    (hc12 : c < 12) (hi : i < 12) (hne : i ≠ c)
    (hc : (bbGet pos c).testBit t = true) : (bbGet pos i).testBit t = false := by
  have h := hD i hi c hc12 hne
  rw [and_eq_zero_iff_bits] at h
  have h2 := h t
  by_cases hb : (bbGet pos i).testBit t
  · exact absurd ⟨hb, hc⟩ h2
  · simpa using hb

theorem pawnCapScan_spec (pos : Position) (lo sq : Nat)
    (hex : ∃ i, lo ≤ i ∧ i < lo + 6 ∧ (bbGet pos i).testBit sq = true) :
    ∃ c, lo ≤ c ∧ c < lo + 6 ∧ pawnCapScan pos lo sq = (c : Int) ∧
      (bbGet pos c).testBit sq = true := by
  obtain ⟨i, hi1, hi2, hib⟩ := hex
  have hmem : ∃ x ∈ (List.range 6).map (fun j => lo + j),
      (bbGet pos x).testBit sq = true := by
    refine ⟨i, ?_, hib⟩
    simp only [List.mem_map, List.mem_range]
    exact ⟨i - lo, by omega, by omega⟩
  have hsome : (((List.range 6).map (fun j => lo + j)).find?
      (fun p => (bbGet pos p).testBit sq)).isSome = true := by
    rw [List.find?_isSome]
    simpa using hmem
  rw [Option.isSome_iff_exists] at hsome
  obtain ⟨c, hc⟩ := hsome
  have hpc := List.find?_some hc
  have hcm := List.mem_of_find?_eq_some hc
  simp only [List.mem_map, List.mem_range] at hcm
  obtain ⟨j, hj, hcj⟩ := hcm
  refine ⟨c, by omega, by omega, ?_, by simpa using hpc⟩
  simp [pawnCapScan, hc]

theorem victimChainB_spec (pos : Position) (t : Nat) (hC : coherentOcc pos)
    (h : pos.occ_black.testBit t = true) :
    ∃ c : Nat, 6 ≤ c ∧ c < 12 ∧ victimChainB pos t = (c : Int) ∧
      (bbGet pos c).testBit t = true := by
  by_cases h6 : (bbGet pos 6).testBit t
  · exact ⟨6, by omega, by omega, by simp [victimChainB, h6], h6⟩
  · by_cases h7 : (bbGet pos 7).testBit t
    · exact ⟨7, by omega, by omega, by simp [victimChainB, h6, h7], h7⟩
    · by_cases h8 : (bbGet pos 8).testBit t
      · exact ⟨8, by omega, by omega, by simp [victimChainB, h6, h7, h8], h8⟩
      · by_cases h9 : (bbGet pos 9).testBit t
        · exact ⟨9, by omega, by omega, by simp [victimChainB, h6, h7, h8, h9], h9⟩
        · by_cases h10 : (bbGet pos 10).testBit t
          · exact ⟨10, by omega, by omega, by simp [victimChainB, h6, h7, h8, h9, h10], h10⟩
          · obtain ⟨i, hi1, hi2, hib⟩ := exists_black_board pos hC t h
            have h11 : (bbGet pos 11).testBit t = true := by
              interval_cases i <;> simp_all
            exact ⟨11, by omega, by omega,
              by simp [victimChainB, h6, h7, h8, h9, h10], h11⟩

theorem victimChainW_spec (pos : Position) (t : Nat) (hC : coherentOcc pos)
    (h : pos.occ_white.testBit t = true) :
    ∃ c : Nat, c < 6 ∧ victimChainW pos t = (c : Int) ∧
      (bbGet pos c).testBit t = true := by
  by_cases h0 : (bbGet pos 0).testBit t
  · exact ⟨0, by omega, by simp [victimChainW, h0], h0⟩
  · by_cases h1 : (bbGet pos 1).testBit t
    · exact ⟨1, by omega, by simp [victimChainW, h0, h1], h1⟩
    · by_cases h2 : (bbGet pos 2).testBit t
      · exact ⟨2, by omega, by simp [victimChainW, h0, h1, h2], h2⟩
      · by_cases h3 : (bbGet pos 3).testBit t
        · exact ⟨3, by omega, by simp [victimChainW, h0, h1, h2, h3], h3⟩
        · by_cases h4 : (bbGet pos 4).testBit t
          · exact ⟨4, by omega, by simp [victimChainW, h0, h1, h2, h3, h4], h4⟩
          · obtain ⟨i, hi, hib⟩ := exists_white_board pos hC t h
            have h5 : (bbGet pos 5).testBit t = true := by
              interval_cases i <;> simp_all
            exact ⟨5, by omega, by simp [victimChainW, h0, h1, h2, h3, h4], h5⟩

theorem attacked_white_pawn (pos : Position) (t : Nat)
    (h : (white_pawn_attacks (bbGet pos 0)).testBit t = true) :
    ffp_is_square_attacked pos t Side.WHITE = true := by
  have hx : white_pawn_attacks (bbGet pos 0) &&& ((1 : Nat) <<< t) ≠ 0 :=
    (and_shl_ne_zero _ _).mpr h
  simp [ffp_is_square_attacked, hx]

theorem attacked_white_knight (pos : Position) (s t : Nat) (hs64 : s < 64)
    (hsb : (bbGet pos 2).testBit s = true)
    (hat : (knight_attacks_from ((1 : Nat) <<< s)).testBit t = true) :
    ffp_is_square_attacked pos t Side.WHITE = true := by
  have hx : knight_attacks_from ((1 : Nat) <<< s) &&& ((1 : Nat) <<< t) ≠ 0 :=
    (and_shl_ne_zero _ _).mpr hat
  simp only [ffp_is_square_attacked, Bool.or_eq_true, List.any_eq_true]
  exact Or.inl (Or.inl (Or.inl (Or.inr ⟨s, (mem_bitIndices _ _).mpr ⟨hs64, hsb⟩, by simpa using hx⟩)))

theorem attacked_white_bishop (pos : Position) (s t : Nat) (hs64 : s < 64)
    (hsb : (bbGet pos 3 ||| bbGet pos 4).testBit s = true)
    (hat : (bishop_attacks_from ((1 : Nat) <<< s) pos.occ_all).testBit t = true) :
    ffp_is_square_attacked pos t Side.WHITE = true := by
  have hx : bishop_attacks_from ((1 : Nat) <<< s) pos.occ_all &&& ((1 : Nat) <<< t) ≠ 0 :=
    (and_shl_ne_zero _ _).mpr hat
  simp only [ffp_is_square_attacked, Bool.or_eq_true, List.any_eq_true]
  exact Or.inl (Or.inl (Or.inr ⟨s, (mem_bitIndices _ _).mpr ⟨hs64, hsb⟩, by simpa using hx⟩))

theorem attacked_white_rook (pos : Position) (s t : Nat) (hs64 : s < 64)
    (hsb : (bbGet pos 1 ||| bbGet pos 4).testBit s = true)
    (hat : (rook_attacks_from ((1 : Nat) <<< s) pos.occ_all).testBit t = true) :
    ffp_is_square_attacked pos t Side.WHITE = true := by
  have hx : rook_attacks_from ((1 : Nat) <<< s) pos.occ_all &&& ((1 : Nat) <<< t) ≠ 0 :=
    (and_shl_ne_zero _ _).mpr hat
  simp only [ffp_is_square_attacked, Bool.or_eq_true, List.any_eq_true]
  exact Or.inl (Or.inr ⟨s, (mem_bitIndices _ _).mpr ⟨hs64, hsb⟩, by simpa using hx⟩)

theorem attacked_white_king (pos : Position) (t : Nat)
    (h : (king_attacks_from (bbGet pos 5)).testBit t = true) :
    ffp_is_square_attacked pos t Side.WHITE = true := by
  have hx : king_attacks_from (bbGet pos 5) &&& ((1 : Nat) <<< t) ≠ 0 :=
    (and_shl_ne_zero _ _).mpr h
  simp [ffp_is_square_attacked, hx]

theorem attacked_black_pawn (pos : Position) (t : Nat)
    (h : (black_pawn_attacks (bbGet pos 6)).testBit t = true) :
    ffp_is_square_attacked pos t Side.BLACK = true := by
  have hx : black_pawn_attacks (bbGet pos 6) &&& ((1 : Nat) <<< t) ≠ 0 :=
    (and_shl_ne_zero _ _).mpr h
  simp [ffp_is_square_attacked, hx]

theorem attacked_black_knight (pos : Position) (s t : Nat) (hs64 : s < 64)
    (hsb : (bbGet pos 8).testBit s = true)
    (hat : (knight_attacks_from ((1 : Nat) <<< s)).testBit t = true) :
    ffp_is_square_attacked pos t Side.BLACK = true := by
  have hx : knight_attacks_from ((1 : Nat) <<< s) &&& ((1 : Nat) <<< t) ≠ 0 :=
    (and_shl_ne_zero _ _).mpr hat
  simp only [ffp_is_square_attacked, Bool.or_eq_true, List.any_eq_true]
  exact Or.inl (Or.inl (Or.inl (Or.inr ⟨s, (mem_bitIndices _ _).mpr ⟨hs64, hsb⟩, by simpa using hx⟩)))

theorem attacked_black_bishop (pos : Position) (s t : Nat) (hs64 : s < 64)
    (hsb : (bbGet pos 9 ||| bbGet pos 10).testBit s = true)
    (hat : (bishop_attacks_from ((1 : Nat) <<< s) pos.occ_all).testBit t = true) :
    ffp_is_square_attacked pos t Side.BLACK = true := by
  have hx : bishop_attacks_from ((1 : Nat) <<< s) pos.occ_all &&& ((1 : Nat) <<< t) ≠ 0 :=
    (and_shl_ne_zero _ _).mpr hat
  simp only [ffp_is_square_attacked, Bool.or_eq_true, List.any_eq_true]
  exact Or.inl (Or.inl (Or.inr ⟨s, (mem_bitIndices _ _).mpr ⟨hs64, hsb⟩, by simpa using hx⟩))

theorem attacked_black_rook (pos : Position) (s t : Nat) (hs64 : s < 64)
    (hsb : (bbGet pos 7 ||| bbGet pos 10).testBit s = true)
    (hat : (rook_attacks_from ((1 : Nat) <<< s) pos.occ_all).testBit t = true) :
    ffp_is_square_attacked pos t Side.BLACK = true := by
  have hx : rook_attacks_from ((1 : Nat) <<< s) pos.occ_all &&& ((1 : Nat) <<< t) ≠ 0 :=
    (and_shl_ne_zero _ _).mpr hat
  simp only [ffp_is_square_attacked, Bool.or_eq_true, List.any_eq_true]
  exact Or.inl (Or.inr ⟨s, (mem_bitIndices _ _).mpr ⟨hs64, hsb⟩, by simpa using hx⟩)

theorem attacked_black_king (pos : Position) (t : Nat)
    (h : (king_attacks_from (bbGet pos 11)).testBit t = true) :
    ffp_is_square_attacked pos t Side.BLACK = true := by
  have hx : king_attacks_from (bbGet pos 11) &&& ((1 : Nat) <<< t) ≠ 0 :=
    (and_shl_ne_zero _ _).mpr h
  simp [ffp_is_square_attacked, hx]

theorem no_bk_at (pos : Position) (t : Nat) (hQ : QuiescentInv pos)
    (hside : pos.side = Side.WHITE)
    (hatt : ffp_is_square_attacked pos t Side.WHITE = true) :
    (bbGet pos 11).testBit t = false := by
  obtain ⟨hR, hD, hC, hK, hEp, hCa, hN⟩ := hQ
  obtain ⟨-, k, hk64, hbk⟩ := hK
  by_contra hb
  simp only [Bool.not_eq_false] at hb
  rw [hbk] at hb
  have hkt : k = t := by
    by_contra hne
    rw [Nat.testBit_two_pow_of_ne hne] at hb
    simp at hb
  have hns := hN.1 hside
  rw [hbk, hkt, lsbIdx_pow t (by omega)] at hns
  rw [hatt] at hns
  simp at hns

theorem no_wk_at (pos : Position) (t : Nat) (hQ : QuiescentInv pos)
    (hside : pos.side = Side.BLACK)
    (hatt : ffp_is_square_attacked pos t Side.BLACK = true) :
    (bbGet pos 5).testBit t = false := by
  obtain ⟨hR, hD, hC, hK, hEp, hCa, hN⟩ := hQ
  obtain ⟨⟨k, hk64, hbk⟩, -⟩ := hK
  by_contra hb
  simp only [Bool.not_eq_false] at hb
  rw [hbk] at hb
  have hkt : k = t := by
    by_contra hne
    rw [Nat.testBit_two_pow_of_ne hne] at hb
    simp at hb
  have hns := hN.2 hside
  rw [hbk, hkt, lsbIdx_pow t (by omega)] at hns
  rw [hatt] at hns
  simp at hns

theorem roundtrip_of_facts (pos : Position) (m : Move) (hR : bbRep pos)
    (hC : coherentOcc pos) (hF : MoveFacts pos m) :
    ffp_unmake_move (ffp_make_move pos m).1 m (ffp_make_move pos m).2 = pos := by
  obtain ⟨hlen, hlt⟩ := hR
  have hglt : ∀ i, i < 12 → pos.bb[i]?.getD 0 < 2 ^ 64 := by
    intro i hi
    rw [← bbGet_eq_getq]
    exact hlt i hi
  rcases hF with hN | hE | hP | hCa
  · obtain ⟨p, f, t, hmp, hmf, hmt, hmpr, hp12, hf64, ht64, hft, -, -, hfbit, hEP, hPR, hCA,
      hcap, -⟩ := hN
    rcases hcap with ⟨hc1, hemp⟩ | ⟨c, hc, hc12, hcp, -, -, hcbit, hoth, -⟩
    · exact roundtrip_nocap pos m p f t hEP hPR hCA hmp hmf hmt hc1 hlen hp12 hf64 ht64
        (hglt p hp12) (by rw [← bbGet_eq_getq]; exact hfbit)
        (by rw [← bbGet_eq_getq]; exact hemp p hp12) hC
    · exact roundtrip_capture pos m p f t c hEP hPR hCA hmp hmf hmt hc hlen hp12 hc12
        hcp hf64 ht64 (hglt p hp12) (hglt c hc12)
        (by rw [← bbGet_eq_getq]; exact hfbit)
        (by rw [← bbGet_eq_getq]; exact hoth p hp12 (fun h => hcp h.symm))
        (by rw [← bbGet_eq_getq]; exact hcbit) hC
  · obtain ⟨f, t, hmf, hmt, hmpr, hf64, hEPf, hPR, hCA, hD, hemp, hep, hside⟩ := hE
    rcases hside with ⟨hs, hmp, hmc, ht1, ht2, hfbit, hcbit⟩ | ⟨hs, hmp, hmc, ht1, ht2, hfbit, hcbit⟩
    · exact roundtrip_ep_white pos m f t hEPf hPR hCA hs hmp hmf hmt hlen hf64 (by omega)
        (hglt 0 (by omega)) (hglt 6 (by omega))
        (by rw [← bbGet_eq_getq]; exact hfbit)
        (by rw [← bbGet_eq_getq]; exact hemp 0 (by omega))
        (by rw [← bbGet_eq_getq]; exact hcbit) hC
    · exact roundtrip_ep_black pos m f t hEPf hPR hCA hs hmp hmf hmt (by omega) hlen hf64
        (by omega) (hglt 0 (by omega)) (hglt 6 (by omega))
        (by rw [← bbGet_eq_getq]; exact hfbit)
        (by rw [← bbGet_eq_getq]; exact hemp 6 (by omega))
        (by rw [← bbGet_eq_getq]; exact hcbit) hC
  · obtain ⟨f, t, q, hmf, hmt, hmq, hf64, ht64, hft, hq12, hEP, hPRf, hCA, hD, hside, hcap⟩ := hP
    rcases hside with ⟨hs, hmp, hq1, hq4, htr, hfbit⟩ | ⟨hs, hmp, hq7, hq10, htr, hfbit⟩
    · rcases hcap with ⟨hc1, hemp⟩ | ⟨c, hc, hc12, hcw, -, hcbit, hoth⟩
      · exact roundtrip_promo_white_nocap pos m f t q hEP hPRf hCA hs hmp hmf hmt hc1 hmq
          hlen hq12 (by omega) hf64 ht64 (hglt 0 (by omega)) (hglt q hq12)
          (by rw [← bbGet_eq_getq]; exact hfbit)
          (by rw [← bbGet_eq_getq]; exact hemp 0 (by omega))
          (by rw [← bbGet_eq_getq]; exact hemp q hq12) hC
      · have hcr := hcw hs
        exact roundtrip_promo_white_cap pos m f t c q hEP hPRf hCA hs hmp hmf hmt hc hmq
          hlen hc12 hq12 (by omega) (by omega) (by omega) hf64 ht64
          (hglt 0 (by omega)) (hglt c hc12) (hglt q hq12)
          (by rw [← bbGet_eq_getq]; exact hfbit)
          (by rw [← bbGet_eq_getq]; exact hoth 0 (by omega) (by omega))
          (by rw [← bbGet_eq_getq]; exact hcbit)
          (by rw [← bbGet_eq_getq]; exact hoth q hq12 (by omega)) hC
    · rcases hcap with ⟨hc1, hemp⟩ | ⟨c, hc, hc12, -, hcb, hcbit, hoth⟩
      · exact roundtrip_promo_black_nocap pos m f t q hEP hPRf hCA hs hmp hmf hmt hc1 hmq
          hlen hq12 (by omega) hf64 ht64 (hglt 6 (by omega)) (hglt q hq12)
          (by rw [← bbGet_eq_getq]; exact hfbit)
          (by rw [← bbGet_eq_getq]; exact hemp 6 (by omega))
          (by rw [← bbGet_eq_getq]; exact hemp q hq12) hC
      · have hcr := hcb hs
        exact roundtrip_promo_black_cap pos m f t c q hEP hPRf hCA hs hmp hmf hmt hc hmq
          hlen hc12 hq12 (by omega) (by omega) (by omega) hf64 ht64
          (hglt 6 (by omega)) (hglt c hc12) (hglt q hq12)
          (by rw [← bbGet_eq_getq]; exact hfbit)
          (by rw [← bbGet_eq_getq]; exact hoth 6 (by omega) (by omega))
          (by rw [← bbGet_eq_getq]; exact hcbit)
          (by rw [← bbGet_eq_getq]; exact hoth q hq12 (by omega)) hC
  · obtain ⟨hc1, hmpr, hEP, hPR, hCAf, hD, hside⟩ := hCa
    rcases hside with ⟨hs, hmp, hmf, hkf, hdisj⟩ | ⟨hs, hmp, hmf, hkf, hdisj⟩
    · rcases hdisj with ⟨hmt, hrf, he61, he62⟩ | ⟨hmt, hrf, he59, he58⟩
      · exact roundtrip_castle_wk pos m hEP hPR hCAf hmp hmf hmt hc1 hlen
          (hglt 5 (by omega)) (hglt 1 (by omega))
          (by rw [← bbGet_eq_getq]; exact hkf)
          (by rw [← bbGet_eq_getq]; exact he62 5 (by omega))
          (by rw [← bbGet_eq_getq]; exact hrf)
          (by rw [← bbGet_eq_getq]; exact he61 1 (by omega)) hC
      · exact roundtrip_castle_wq pos m hEP hPR hCAf hmp hmf hmt hc1 hlen
          (hglt 5 (by omega)) (hglt 1 (by omega))
          (by rw [← bbGet_eq_getq]; exact hkf)
          (by rw [← bbGet_eq_getq]; exact he58 5 (by omega))
          (by rw [← bbGet_eq_getq]; exact hrf)
          (by rw [← bbGet_eq_getq]; exact he59 1 (by omega)) hC
    · rcases hdisj with ⟨hmt, hrf, he5, he6⟩ | ⟨hmt, hrf, he3, he2⟩
      · exact roundtrip_castle_bk pos m hEP hPR hCAf hmp hmf hmt hc1 hlen
          (hglt 11 (by omega)) (hglt 7 (by omega))
          (by rw [← bbGet_eq_getq]; exact hkf)
          (by rw [← bbGet_eq_getq]; exact he6 11 (by omega))
          (by rw [← bbGet_eq_getq]; exact hrf)
          (by rw [← bbGet_eq_getq]; exact he5 7 (by omega)) hC
      · exact roundtrip_castle_bq pos m hEP hPR hCAf hmp hmf hmt hc1 hlen
          (hglt 11 (by omega)) (hglt 7 (by omega))
          (by rw [← bbGet_eq_getq]; exact hkf)
          (by rw [← bbGet_eq_getq]; exact he2 11 (by omega))
          (by rw [← bbGet_eq_getq]; exact hrf)
          (by rw [← bbGet_eq_getq]; exact he3 7 (by omega)) hC

theorem compl64_false (x t : Nat) (ht : t < 64) (h : (compl64 x).testBit t = true) :
    x.testBit t = false := by
  rw [compl64_testBit] at h
  rcases hx : x.testBit t
  · rfl
  · rw [hx] at h
    simp [ht] at h

theorem and_true_left (a b t : Nat) (h : (a &&& b).testBit t = true) : a.testBit t = true := by
  rw [Nat.testBit_and] at h
  simp only [Bool.and_eq_true] at h
  exact h.1

theorem and_true_right (a b t : Nat) (h : (a &&& b).testBit t = true) : b.testBit t = true := by
  rw [Nat.testBit_and] at h
  simp only [Bool.and_eq_true] at h
  exact h.2

theorem whitePawn_facts (pos : Position) (m : Move) (hQ : QuiescentInv pos)
    (hE : EpConsistent pos) (hside : pos.side = Side.WHITE)
    (hm : m ∈ whitePawnMoves pos) : MoveFacts pos m := by
  have hQ2 := hQ
  obtain ⟨⟨hlen, hlt⟩, hD, hC, hK, hEp, hCa, hN⟩ := hQ2
  have hp0lt : bbGet pos 0 < 2 ^ 64 := hlt 0 (by omega)
  simp only [whitePawnMoves, List.mem_append] at hm
  rcases hm with (((((((hm | hm) | hm) | hm) | hm) | hm) | hm) | hm)
  · -- quiet push
    rw [List.mem_map] at hm
    obtain ⟨t, htm, rfl⟩ := hm
    rw [mem_bitIndices] at htm
    obtain ⟨ht64, htb⟩ := htm
    have hsingle := and_true_left _ _ _ htb
    have hpw : (bbGet pos 0).testBit (t + 8) = true := by
      have := and_true_left _ _ _ hsingle
      rwa [shift_north_testBit] at this
    have hocc : pos.occ_all.testBit t = false :=
      compl64_false _ _ ht64 (and_true_right _ _ _ hsingle)
    refine Or.inl ⟨0, t + 8, t, by simp [mkMove], by simp [mkMove], by simp [mkMove],
      by simp [mkMove], by omega, testBit_lt64 _ _ hp0lt hpw, ht64, by omega,
      fun _ => by omega, fun h => by rw [hside] at h; exact Side.noConfusion h,
      hpw, by simp only [mkMove, MF_QUIET, MF_CAPTURE, MF_PROMO, MF_ENPASSANT, MF_CASTLE, MF_DOUBLE] <;> decide, by simp only [mkMove, MF_QUIET, MF_CAPTURE, MF_PROMO, MF_ENPASSANT, MF_CASTLE, MF_DOUBLE] <;> decide, by simp only [mkMove, MF_QUIET, MF_CAPTURE, MF_PROMO, MF_ENPASSANT, MF_CASTLE, MF_DOUBLE] <;> decide,
      Or.inl ⟨by simp [mkMove], emptyAt_of_occ pos hC t hocc⟩, ?_⟩
    intro h
    simp [mkMove, MF_QUIET, MF_DOUBLE] at h
  · -- double push
    rw [List.mem_map] at hm
    obtain ⟨t, htm, rfl⟩ := hm
    rw [mem_bitIndices] at htm
    obtain ⟨ht64, htb⟩ := htm
    have hs8 : ((shift_north (bbGet pos 0) &&& compl64 pos.occ_all) &&&
        RANK_MASK 3).testBit (t + 8) = true := by
      have := and_true_left _ _ _ htb
      rwa [shift_north_testBit] at this
    have hsingle8 := and_true_left _ _ _ hs8
    have hrank := rank_mask3_range _ (and_true_right _ _ _ hs8)
    have hpw : (bbGet pos 0).testBit (t + 16) = true := by
      have := and_true_left _ _ _ hsingle8
      rw [shift_north_testBit] at this
      rwa [show t + 8 + 8 = t + 16 by omega] at this
    have hocc8 : pos.occ_all.testBit (t + 8) = false :=
      compl64_false _ _ (by omega) (and_true_right _ _ _ hsingle8)
    have hocc : pos.occ_all.testBit t = false :=
      compl64_false _ _ ht64 (and_true_right _ _ _ htb)
    refine Or.inl ⟨0, t + 16, t, by simp [mkMove], by simp [mkMove], by simp [mkMove],
      by simp [mkMove], by omega, testBit_lt64 _ _ hp0lt hpw, ht64, by omega,
      fun _ => by omega, fun h => by rw [hside] at h; exact Side.noConfusion h,
      hpw, by simp only [mkMove, MF_QUIET, MF_CAPTURE, MF_PROMO, MF_ENPASSANT, MF_CASTLE, MF_DOUBLE] <;> decide, by simp only [mkMove, MF_QUIET, MF_CAPTURE, MF_PROMO, MF_ENPASSANT, MF_CASTLE, MF_DOUBLE] <;> decide, by simp only [mkMove, MF_QUIET, MF_CAPTURE, MF_PROMO, MF_ENPASSANT, MF_CASTLE, MF_DOUBLE] <;> decide,
      Or.inl ⟨by simp [mkMove], emptyAt_of_occ pos hC t hocc⟩, ?_⟩
    intro h
    refine ⟨by simp [mkMove], Or.inl ⟨hside, rfl, rfl, by omega, by omega,
      emptyAt_of_occ pos hC (t + 8) hocc8⟩⟩
  · -- promo push
    rw [mem_listFlat] at hm
    obtain ⟨t, htm, hm4⟩ := hm
    rw [mem_bitIndices] at htm
    obtain ⟨ht64, htb⟩ := htm
    have hsingle := and_true_left _ _ _ htb
    have hpw : (bbGet pos 0).testBit (t + 8) = true := by
      have := and_true_left _ _ _ hsingle
      rwa [shift_north_testBit] at this
    have hocc : pos.occ_all.testBit t = false :=
      compl64_false _ _ ht64 (and_true_right _ _ _ hsingle)
    have ht8 : t < 8 := rank_mask8_range _ (and_true_right _ _ _ htb)
    have hq : ∃ q : Nat, m = mkMove ((t : Int) + 8) (t : Int) 0 (-1) ((q : Int)) MF_PROMO ∧
        1 ≤ q ∧ q ≤ 4 := by
      simp only [List.mem_cons, List.not_mem_nil, or_false] at hm4
      rcases hm4 with rfl | rfl | rfl | rfl
      · exact ⟨4, by norm_num, by omega, by omega⟩
      · exact ⟨1, by norm_num, by omega, by omega⟩
      · exact ⟨3, by norm_num, by omega, by omega⟩
      · exact ⟨2, by norm_num, by omega, by omega⟩
    obtain ⟨q, rfl, hq1, hq4⟩ := hq
    refine Or.inr (Or.inr (Or.inl ⟨t + 8, t, q, by simp [mkMove], by simp [mkMove],
      by simp [mkMove], testBit_lt64 _ _ hp0lt hpw, ht64, by omega, by omega,
      by simp only [mkMove, MF_QUIET, MF_CAPTURE, MF_PROMO, MF_ENPASSANT, MF_CASTLE, MF_DOUBLE] <;> decide, by simp only [mkMove, MF_QUIET, MF_CAPTURE, MF_PROMO, MF_ENPASSANT, MF_CASTLE, MF_DOUBLE] <;> decide, by simp only [mkMove, MF_QUIET, MF_CAPTURE, MF_PROMO, MF_ENPASSANT, MF_CASTLE, MF_DOUBLE] <;> decide, by simp only [mkMove, MF_QUIET, MF_CAPTURE, MF_PROMO, MF_ENPASSANT, MF_CASTLE, MF_DOUBLE] <;> decide,
      Or.inl ⟨hside, by simp [mkMove], hq1, hq4, ht8, hpw⟩,
      Or.inl ⟨by simp [mkMove], emptyAt_of_occ pos hC t hocc⟩⟩))
  · -- capture left (normL)
    rw [List.mem_map] at hm
    obtain ⟨t, htm, rfl⟩ := hm
    rw [mem_bitIndices] at htm
    obtain ⟨ht64, htb⟩ := htm
    have hcapl := and_true_left _ _ _ htb
    have hpw : (bbGet pos 0).testBit (t + 9) = true :=
      shift_nw_testBit _ _ (and_true_left _ _ _ hcapl)
    have hopp : pos.occ_black.testBit t = true := and_true_right _ _ _ hcapl
    obtain ⟨c, hc6, hc12, hscan, hcbit⟩ := pawnCapScan_spec pos 6 t
      (by obtain ⟨i, h1, h2, h3⟩ := exists_black_board pos hC t hopp
          exact ⟨i, h1, by omega, h3⟩)
    have hc11 : c ≠ 11 := by
      intro hc
      have hatt : ffp_is_square_attacked pos t Side.WHITE = true := by
        apply attacked_white_pawn
        rw [white_pawn_attacks, Nat.testBit_or]
        rw [show (shift_nw (bbGet pos 0)).testBit t = true from and_true_left _ _ _ hcapl]
        simp
      have := no_bk_at pos t hQ hside hatt
      rw [hc] at hcbit
      rw [this] at hcbit
      exact Bool.noConfusion hcbit
    refine Or.inl ⟨0, t + 9, t, by simp [mkMove], by simp [mkMove], by simp [mkMove],
      by simp [mkMove], by omega, testBit_lt64 _ _ hp0lt hpw, ht64, by omega,
      fun _ => by omega, fun h => by rw [hside] at h; exact Side.noConfusion h,
      hpw, by simp only [mkMove, MF_QUIET, MF_CAPTURE, MF_PROMO, MF_ENPASSANT, MF_CASTLE, MF_DOUBLE] <;> decide, by simp only [mkMove, MF_QUIET, MF_CAPTURE, MF_PROMO, MF_ENPASSANT, MF_CASTLE, MF_DOUBLE] <;> decide, by simp only [mkMove, MF_QUIET, MF_CAPTURE, MF_PROMO, MF_ENPASSANT, MF_CASTLE, MF_DOUBLE] <;> decide,
      Or.inr ⟨c, by simp [mkMove, hscan], by omega, by omega,
        fun _ => ⟨hc6, by omega⟩, fun h => by rw [hside] at h; exact Side.noConfusion h,
        hcbit, fun i hi hic => clear_of_disjoint pos hD c i t (by omega) hi hic hcbit,
        by simp only [mkMove, MF_QUIET, MF_CAPTURE, MF_PROMO, MF_ENPASSANT, MF_CASTLE, MF_DOUBLE] <;> decide⟩, ?_⟩
    intro h
    simp [mkMove, MF_CAPTURE, MF_DOUBLE] at h
  · -- capture right (normR)
    rw [List.mem_map] at hm
    obtain ⟨t, htm, rfl⟩ := hm
    rw [mem_bitIndices] at htm
    obtain ⟨ht64, htb⟩ := htm
    have hcapr := and_true_left _ _ _ htb
    have hpw : (bbGet pos 0).testBit (t + 7) = true :=
      shift_ne_testBit _ _ (and_true_left _ _ _ hcapr)
    have hopp : pos.occ_black.testBit t = true := and_true_right _ _ _ hcapr
    obtain ⟨c, hc6, hc12, hscan, hcbit⟩ := pawnCapScan_spec pos 6 t
      (by obtain ⟨i, h1, h2, h3⟩ := exists_black_board pos hC t hopp
          exact ⟨i, h1, by omega, h3⟩)
    have hc11 : c ≠ 11 := by
      intro hc
      have hatt : ffp_is_square_attacked pos t Side.WHITE = true := by
        apply attacked_white_pawn
        rw [white_pawn_attacks, Nat.testBit_or]
        rw [show (shift_ne (bbGet pos 0)).testBit t = true from and_true_left _ _ _ hcapr]
        simp
      have := no_bk_at pos t hQ hside hatt
      rw [hc] at hcbit
      rw [this] at hcbit
      exact Bool.noConfusion hcbit
    refine Or.inl ⟨0, t + 7, t, by simp [mkMove], by simp [mkMove], by simp [mkMove],
      by simp [mkMove], by omega, testBit_lt64 _ _ hp0lt hpw, ht64, by omega,
      fun _ => by omega, fun h => by rw [hside] at h; exact Side.noConfusion h,
      hpw, by simp only [mkMove, MF_QUIET, MF_CAPTURE, MF_PROMO, MF_ENPASSANT, MF_CASTLE, MF_DOUBLE] <;> decide, by simp only [mkMove, MF_QUIET, MF_CAPTURE, MF_PROMO, MF_ENPASSANT, MF_CASTLE, MF_DOUBLE] <;> decide, by simp only [mkMove, MF_QUIET, MF_CAPTURE, MF_PROMO, MF_ENPASSANT, MF_CASTLE, MF_DOUBLE] <;> decide,
      Or.inr ⟨c, by simp [mkMove, hscan], by omega, by omega,
        fun _ => ⟨hc6, by omega⟩, fun h => by rw [hside] at h; exact Side.noConfusion h,
        hcbit, fun i hi hic => clear_of_disjoint pos hD c i t (by omega) hi hic hcbit,
        by simp only [mkMove, MF_QUIET, MF_CAPTURE, MF_PROMO, MF_ENPASSANT, MF_CASTLE, MF_DOUBLE] <;> decide⟩, ?_⟩
    intro h
    simp [mkMove, MF_CAPTURE, MF_DOUBLE] at h
  · -- promo capture left
    rw [mem_listFlat] at hm
    obtain ⟨t, htm, hm4⟩ := hm
    rw [mem_bitIndices] at htm
    obtain ⟨ht64, htb⟩ := htm
    have hcapl := and_true_left _ _ _ htb
    have hpw : (bbGet pos 0).testBit (t + 9) = true :=
      shift_nw_testBit _ _ (and_true_left _ _ _ hcapl)
    have hopp : pos.occ_black.testBit t = true := and_true_right _ _ _ hcapl
    have ht8 : t < 8 := rank_mask8_range _ (and_true_right _ _ _ htb)
    obtain ⟨c, hc6, hc12, hscan, hcbit⟩ := pawnCapScan_spec pos 6 t
      (by obtain ⟨i, h1, h2, h3⟩ := exists_black_board pos hC t hopp
          exact ⟨i, h1, by omega, h3⟩)
    have hc11 : c ≠ 11 := by
      intro hc
      have hatt : ffp_is_square_attacked pos t Side.WHITE = true := by
        apply attacked_white_pawn
        rw [white_pawn_attacks, Nat.testBit_or]
        rw [show (shift_nw (bbGet pos 0)).testBit t = true from and_true_left _ _ _ hcapl]
        simp
      have := no_bk_at pos t hQ hside hatt
      rw [hc] at hcbit
      rw [this] at hcbit
      exact Bool.noConfusion hcbit
    have hq : ∃ q : Nat, m = mkMove ((t : Int) + 9) (t : Int) 0 (pawnCapScan pos 6 t)
        ((q : Int)) (MF_CAPTURE ||| MF_PROMO) ∧ 1 ≤ q ∧ q ≤ 4 := by
      simp only [List.mem_cons, List.not_mem_nil, or_false] at hm4
      rcases hm4 with rfl | rfl | rfl | rfl
      · exact ⟨4, by norm_num, by omega, by omega⟩
      · exact ⟨1, by norm_num, by omega, by omega⟩
      · exact ⟨3, by norm_num, by omega, by omega⟩
      · exact ⟨2, by norm_num, by omega, by omega⟩
    obtain ⟨q, rfl, hq1, hq4⟩ := hq
    refine Or.inr (Or.inr (Or.inl ⟨t + 9, t, q, by simp [mkMove], by simp [mkMove],
      by simp [mkMove], testBit_lt64 _ _ hp0lt hpw, ht64, by omega, by omega,
      by simp only [mkMove, MF_QUIET, MF_CAPTURE, MF_PROMO, MF_ENPASSANT, MF_CASTLE, MF_DOUBLE] <;> decide, by simp only [mkMove, MF_QUIET, MF_CAPTURE, MF_PROMO, MF_ENPASSANT, MF_CASTLE, MF_DOUBLE] <;> decide, by simp only [mkMove, MF_QUIET, MF_CAPTURE, MF_PROMO, MF_ENPASSANT, MF_CASTLE, MF_DOUBLE] <;> decide, by simp only [mkMove, MF_QUIET, MF_CAPTURE, MF_PROMO, MF_ENPASSANT, MF_CASTLE, MF_DOUBLE] <;> decide,
      Or.inl ⟨hside, by simp [mkMove], hq1, hq4, ht8, hpw⟩,
      Or.inr ⟨c, by simp [mkMove, hscan], by omega,
        fun _ => ⟨hc6, by omega⟩, fun h => by rw [hside] at h; exact Side.noConfusion h,
        hcbit, fun i hi hic => clear_of_disjoint pos hD c i t (by omega) hi hic hcbit⟩⟩))
  · -- promo capture right
    rw [mem_listFlat] at hm
    obtain ⟨t, htm, hm4⟩ := hm
    rw [mem_bitIndices] at htm
    obtain ⟨ht64, htb⟩ := htm
    have hcapr := and_true_left _ _ _ htb
    have hpw : (bbGet pos 0).testBit (t + 7) = true :=
      shift_ne_testBit _ _ (and_true_left _ _ _ hcapr)
    have hopp : pos.occ_black.testBit t = true := and_true_right _ _ _ hcapr
    have ht8 : t < 8 := rank_mask8_range _ (and_true_right _ _ _ htb)
    obtain ⟨c, hc6, hc12, hscan, hcbit⟩ := pawnCapScan_spec pos 6 t
      (by obtain ⟨i, h1, h2, h3⟩ := exists_black_board pos hC t hopp
          exact ⟨i, h1, by omega, h3⟩)
    have hc11 : c ≠ 11 := by
      intro hc
      have hatt : ffp_is_square_attacked pos t Side.WHITE = true := by
        apply attacked_white_pawn
        rw [white_pawn_attacks, Nat.testBit_or]
        rw [show (shift_ne (bbGet pos 0)).testBit t = true from and_true_left _ _ _ hcapr]
        simp
      have := no_bk_at pos t hQ hside hatt
      rw [hc] at hcbit
      rw [this] at hcbit
      exact Bool.noConfusion hcbit
    have hq : ∃ q : Nat, m = mkMove ((t : Int) + 7) (t : Int) 0 (pawnCapScan pos 6 t)
        ((q : Int)) (MF_CAPTURE ||| MF_PROMO) ∧ 1 ≤ q ∧ q ≤ 4 := by
      simp only [List.mem_cons, List.not_mem_nil, or_false] at hm4
      rcases hm4 with rfl | rfl | rfl | rfl
      · exact ⟨4, by norm_num, by omega, by omega⟩
      · exact ⟨1, by norm_num, by omega, by omega⟩
      · exact ⟨3, by norm_num, by omega, by omega⟩
      · exact ⟨2, by norm_num, by omega, by omega⟩
    obtain ⟨q, rfl, hq1, hq4⟩ := hq
    refine Or.inr (Or.inr (Or.inl ⟨t + 7, t, q, by simp [mkMove], by simp [mkMove],
      by simp [mkMove], testBit_lt64 _ _ hp0lt hpw, ht64, by omega, by omega,
      by simp only [mkMove, MF_QUIET, MF_CAPTURE, MF_PROMO, MF_ENPASSANT, MF_CASTLE, MF_DOUBLE] <;> decide, by simp only [mkMove, MF_QUIET, MF_CAPTURE, MF_PROMO, MF_ENPASSANT, MF_CASTLE, MF_DOUBLE] <;> decide, by simp only [mkMove, MF_QUIET, MF_CAPTURE, MF_PROMO, MF_ENPASSANT, MF_CASTLE, MF_DOUBLE] <;> decide, by simp only [mkMove, MF_QUIET, MF_CAPTURE, MF_PROMO, MF_ENPASSANT, MF_CASTLE, MF_DOUBLE] <;> decide,
      Or.inl ⟨hside, by simp [mkMove], hq1, hq4, ht8, hpw⟩,
      Or.inr ⟨c, by simp [mkMove, hscan], by omega,
        fun _ => ⟨hc6, by omega⟩, fun h => by rw [hside] at h; exact Side.noConfusion h,
        hcbit, fun i hi hic => clear_of_disjoint pos hD c i t (by omega) hi hic hcbit⟩⟩))
  · -- en passant block
    by_cases hep : pos.ep_square ≠ -1
    · rw [if_pos hep, List.mem_append] at hm
      have hrange : 16 ≤ pos.ep_square ∧ pos.ep_square < 24 := by
        rcases hEp with h | ⟨-, h1, h2⟩ | ⟨h, -⟩
        · exact absurd h hep
        · exact ⟨h1, h2⟩
        · rw [hside] at h
          exact Side.noConfusion h
      set t : Nat := pos.ep_square.toNat with hts
      have htv : pos.ep_square = (t : Int) := by omega
      have ht16 : 16 ≤ t := by omega
      have ht24 : t < 24 := by omega
      obtain ⟨hempty, hbehind, -⟩ := hE hep
      have hcbit : (bbGet pos 6).testBit (t + 8) = true := hbehind hside
      rcases hm with hm | hm
      · by_cases hnw : shift_nw (bbGet pos 0) &&& ((1 : Nat) <<< t) ≠ 0
        · rw [if_pos (by simpa [hts] using hnw)] at hm
          simp only [List.mem_singleton] at hm
          subst hm
          have hpw : (bbGet pos 0).testBit (t + 9) = true :=
            shift_nw_testBit _ _ ((and_shl_ne_zero _ _).mp hnw)
          refine Or.inr (Or.inl ⟨t + 9, t, by rw [mkMove]; simp [htv] <;> omega,
            by rw [mkMove]; simpa using htv, by simp [mkMove],
            testBit_lt64 _ _ hp0lt hpw, by simp only [mkMove, MF_QUIET, MF_CAPTURE, MF_PROMO, MF_ENPASSANT, MF_CASTLE, MF_DOUBLE] <;> decide, by simp only [mkMove, MF_QUIET, MF_CAPTURE, MF_PROMO, MF_ENPASSANT, MF_CASTLE, MF_DOUBLE] <;> decide, by simp only [mkMove, MF_QUIET, MF_CAPTURE, MF_PROMO, MF_ENPASSANT, MF_CASTLE, MF_DOUBLE] <;> decide, by simp only [mkMove, MF_QUIET, MF_CAPTURE, MF_PROMO, MF_ENPASSANT, MF_CASTLE, MF_DOUBLE] <;> decide,
            hempty, htv,
            Or.inl ⟨hside, by simp [mkMove], by simp [mkMove], ht16, ht24, hpw, hcbit⟩⟩)
        · rw [if_neg (by simpa [hts] using hnw)] at hm
          exact absurd hm (List.not_mem_nil m)
      · by_cases hne : shift_ne (bbGet pos 0) &&& ((1 : Nat) <<< t) ≠ 0
        · rw [if_pos (by simpa [hts] using hne)] at hm
          simp only [List.mem_singleton] at hm
          subst hm
          have hpw : (bbGet pos 0).testBit (t + 7) = true :=
            shift_ne_testBit _ _ ((and_shl_ne_zero _ _).mp hne)
          refine Or.inr (Or.inl ⟨t + 7, t, by rw [mkMove]; simp [htv] <;> omega,
            by rw [mkMove]; simpa using htv, by simp [mkMove],
            testBit_lt64 _ _ hp0lt hpw, by simp only [mkMove, MF_QUIET, MF_CAPTURE, MF_PROMO, MF_ENPASSANT, MF_CASTLE, MF_DOUBLE] <;> decide, by simp only [mkMove, MF_QUIET, MF_CAPTURE, MF_PROMO, MF_ENPASSANT, MF_CASTLE, MF_DOUBLE] <;> decide, by simp only [mkMove, MF_QUIET, MF_CAPTURE, MF_PROMO, MF_ENPASSANT, MF_CASTLE, MF_DOUBLE] <;> decide, by simp only [mkMove, MF_QUIET, MF_CAPTURE, MF_PROMO, MF_ENPASSANT, MF_CASTLE, MF_DOUBLE] <;> decide,
            hempty, htv,
            Or.inl ⟨hside, by simp [mkMove], by simp [mkMove], ht16, ht24, hpw, hcbit⟩⟩)
        · rw [if_neg (by simpa [hts] using hne)] at hm
          exact absurd hm (List.not_mem_nil m)
    · rw [if_neg hep] at hm
      exact absurd hm (List.not_mem_nil m)

theorem pieceMoves_facts_white (pos : Position) (m : Move) (p : Nat) (attOf : Nat → Nat)
    (hQ : QuiescentInv pos) (hside : pos.side = Side.WHITE) (hp6 : p < 6)
    (hatt : ∀ s t, s < 64 → t < 64 → (bbGet pos p).testBit s = true →
      (attOf s).testBit t = true → ffp_is_square_attacked pos t Side.WHITE = true)
    (hm : m ∈ pieceMoves pos p attOf pos.occ_white pos.occ_black victimChainB) :
    MoveFacts pos m := by
  have hQ2 := hQ
  obtain ⟨⟨hlen, hlt⟩, hD, hC, hK, hEp, hCa, hN⟩ := hQ2
  rw [pieceMoves, mem_listFlat] at hm
  obtain ⟨s, hsmem, hm2⟩ := hm
  rw [List.mem_map] at hm2
  obtain ⟨t, htmem, rfl⟩ := hm2
  rw [mem_bitIndices] at hsmem htmem
  obtain ⟨hs64, hsb⟩ := hsmem
  obtain ⟨ht64, htb⟩ := htmem
  have hattb : (attOf s).testBit t = true := and_true_left _ _ _ htb
  have hownt : pos.occ_white.testBit t = false :=
    compl64_false _ _ ht64 (and_true_right _ _ _ htb)
  have howns : pos.occ_white.testBit s = true := occ_white_of_board pos hC p s hp6 hsb
  have hst : s ≠ t := fun h => by rw [h, hownt] at howns; exact Bool.noConfusion howns
  by_cases hob : pos.occ_black.testBit t
  · obtain ⟨c, hc6, hc12, hchain, hcbit⟩ := victimChainB_spec pos t hC hob
    have hc11 : c ≠ 11 := by
      intro hc
      have := no_bk_at pos t hQ hside (hatt s t hs64 ht64 hsb hattb)
      rw [hc, this] at hcbit
      exact Bool.noConfusion hcbit
    refine Or.inl ⟨p, s, t, by simp [mkMove], by simp [mkMove], by simp [mkMove],
      by simp [mkMove], by omega, hs64, ht64, hst,
      fun _ => hp6, fun h => by rw [hside] at h; exact Side.noConfusion h,
      hsb, ?_, ?_, ?_,
      Or.inr ⟨c, by simp [mkMove, hob, hchain], by omega, by omega,
        fun _ => ⟨hc6, by omega⟩, fun h => by rw [hside] at h; exact Side.noConfusion h,
        hcbit, fun i hi hic => clear_of_disjoint pos hD c i t (by omega) hi hic hcbit, ?_⟩,
      ?_⟩
    · simp only [mkMove, hob, if_true]
      rw [if_pos (by omega : victimChainB pos t ≠ -1)]
      decide
    · simp only [mkMove, hob, if_true]
      rw [if_pos (by omega : victimChainB pos t ≠ -1)]
      decide
    · simp only [mkMove, hob, if_true]
      rw [if_pos (by omega : victimChainB pos t ≠ -1)]
      decide
    · simp only [mkMove, hob, if_true]
      rw [if_pos (by omega : victimChainB pos t ≠ -1)]
      decide
    · intro h
      simp only [mkMove, hob, if_true] at h
      rw [if_pos (by omega : victimChainB pos t ≠ -1)] at h
      simp [MF_CAPTURE, MF_DOUBLE] at h
  · have hempty : emptyAt pos t := by
      intro i hi
      by_cases hi6 : i < 6
      · exact whiteClear_of_occ pos hC t hownt i hi6
      · exact blackClear_of_occ pos hC t (by simpa using hob) i (by omega) hi
    refine Or.inl ⟨p, s, t, by simp [mkMove], by simp [mkMove], by simp [mkMove],
      by simp [mkMove], by omega, hs64, ht64, hst,
      fun _ => hp6, fun h => by rw [hside] at h; exact Side.noConfusion h,
      hsb, ?_, ?_, ?_, Or.inl ⟨by simp [mkMove, hob], hempty⟩, ?_⟩
    · simp [mkMove, hob]; decide
    · simp [mkMove, hob]; decide
    · simp [mkMove, hob]; decide
    · intro h
      simp [mkMove, hob, MF_QUIET, MF_DOUBLE] at h

theorem pieceMoves_facts_black (pos : Position) (m : Move) (p : Nat) (attOf : Nat → Nat)
    (hQ : QuiescentInv pos) (hside : pos.side = Side.BLACK) (hp6 : 6 ≤ p) (hp12 : p < 12)
    (hatt : ∀ s t, s < 64 → t < 64 → (bbGet pos p).testBit s = true →
      (attOf s).testBit t = true → ffp_is_square_attacked pos t Side.BLACK = true)
    (hm : m ∈ pieceMoves pos p attOf pos.occ_black pos.occ_white victimChainW) :
    MoveFacts pos m := by
  have hQ2 := hQ
  obtain ⟨⟨hlen, hlt⟩, hD, hC, hK, hEp, hCa, hN⟩ := hQ2
  rw [pieceMoves, mem_listFlat] at hm
  obtain ⟨s, hsmem, hm2⟩ := hm
  rw [List.mem_map] at hm2
  obtain ⟨t, htmem, rfl⟩ := hm2
  rw [mem_bitIndices] at hsmem htmem
  obtain ⟨hs64, hsb⟩ := hsmem
  obtain ⟨ht64, htb⟩ := htmem
  have hattb : (attOf s).testBit t = true := and_true_left _ _ _ htb
  have hownt : pos.occ_black.testBit t = false :=
    compl64_false _ _ ht64 (and_true_right _ _ _ htb)
  have howns : pos.occ_black.testBit s = true := occ_black_of_board pos hC p s hp6 hp12 hsb
  have hst : s ≠ t := fun h => by rw [h, hownt] at howns; exact Bool.noConfusion howns
  by_cases hob : pos.occ_white.testBit t
  · obtain ⟨c, hc6, hchain, hcbit⟩ := victimChainW_spec pos t hC hob
    have hc5 : c ≠ 5 := by
      intro hc
      have := no_wk_at pos t hQ hside (hatt s t hs64 ht64 hsb hattb)
      rw [hc, this] at hcbit
      exact Bool.noConfusion hcbit
    refine Or.inl ⟨p, s, t, by simp [mkMove], by simp [mkMove], by simp [mkMove],
      by simp [mkMove], by omega, hs64, ht64, hst,
      fun h => by rw [hside] at h; exact Side.noConfusion h, fun _ => hp6,
      hsb, ?_, ?_, ?_,
      Or.inr ⟨c, by simp [mkMove, hob, hchain], by omega, by omega,
        fun h => by rw [hside] at h; exact Side.noConfusion h, fun _ => by omega,
        hcbit, fun i hi hic => clear_of_disjoint pos hD c i t (by omega) hi hic hcbit, ?_⟩,
      ?_⟩
    · simp only [mkMove, hob, if_true]
      rw [if_pos (by omega : victimChainW pos t ≠ -1)]
      decide
    · simp only [mkMove, hob, if_true]
      rw [if_pos (by omega : victimChainW pos t ≠ -1)]
      decide
    · simp only [mkMove, hob, if_true]
      rw [if_pos (by omega : victimChainW pos t ≠ -1)]
      decide
    · simp only [mkMove, hob, if_true]
      rw [if_pos (by omega : victimChainW pos t ≠ -1)]
      decide
    · intro h
      simp only [mkMove, hob, if_true] at h
      rw [if_pos (by omega : victimChainW pos t ≠ -1)] at h
      simp [MF_CAPTURE, MF_DOUBLE] at h
  · have hempty : emptyAt pos t := by
      intro i hi
      by_cases hi6 : i < 6
      · exact whiteClear_of_occ pos hC t (by simpa using hob) i hi6
      · exact blackClear_of_occ pos hC t hownt i (by omega) hi
    refine Or.inl ⟨p, s, t, by simp [mkMove], by simp [mkMove], by simp [mkMove],
      by simp [mkMove], by omega, hs64, ht64, hst,
      fun h => by rw [hside] at h; exact Side.noConfusion h, fun _ => hp6,
      hsb, ?_, ?_, ?_, Or.inl ⟨by simp [mkMove, hob], hempty⟩, ?_⟩
    · simp [mkMove, hob]; decide
    · simp [mkMove, hob]; decide
    · simp [mkMove, hob]; decide
    · intro h
      simp [mkMove, hob, MF_QUIET, MF_DOUBLE] at h

theorem occ_and_mask_clear (occ mask t : Nat) (h : occ &&& mask = 0)
    (hbit : mask.testBit t = true) : occ.testBit t = false := by
  rw [and_eq_zero_iff_bits] at h
  have h2 := h t
  by_cases ho : occ.testBit t
  · exact absurd ⟨ho, hbit⟩ h2
  · simpa using ho

theorem whiteKing_facts (pos : Position) (m : Move) (hQ : QuiescentInv pos)
    (hside : pos.side = Side.WHITE) (hm : m ∈ whiteKingMoves pos) : MoveFacts pos m := by
  have hQ2 := hQ
  obtain ⟨⟨hlen, hlt⟩, hD, hC, hK, hEp, hCa, hN⟩ := hQ2
  obtain ⟨⟨k, hk64, hbk⟩, -⟩ := hK
  have hlsb : lsbIdx (bbGet pos 5) = k := by rw [hbk]; exact lsbIdx_pow k hk64
  have hkb : (bbGet pos 5).testBit k = true := by rw [hbk]; exact Nat.testBit_two_pow_self
  simp only [whiteKingMoves, List.mem_append] at hm
  rcases hm with (hm | hm) | hm
  · rw [List.mem_map] at hm
    obtain ⟨t, htmem, rfl⟩ := hm
    rw [mem_bitIndices] at htmem
    obtain ⟨ht64, htb⟩ := htmem
    rw [hlsb] at htb
    have hattb : (king_attacks_from ((1 : Nat) <<< k)).testBit t = true :=
      and_true_left _ _ _ htb
    have hattb2 : (king_attacks_from (bbGet pos 5)).testBit t = true := by
      rwa [hbk, ← one_shl]
    have hownt : pos.occ_white.testBit t = false :=
      compl64_false _ _ ht64 (and_true_right _ _ _ htb)
    have howns : pos.occ_white.testBit k = true := occ_white_of_board pos hC 5 k (by omega) hkb
    have hst : k ≠ t := fun h => by rw [h, hownt] at howns; exact Bool.noConfusion howns
    by_cases hob : pos.occ_black.testBit t
    · obtain ⟨c, hc6, hc12, hchain, hcbit⟩ := victimChainB_spec pos t hC hob
      have hc11 : c ≠ 11 := by
        intro hc
        have := no_bk_at pos t hQ hside (attacked_white_king pos t hattb2)
        rw [hc, this] at hcbit
        exact Bool.noConfusion hcbit
      refine Or.inl ⟨5, k, t, by simp [mkMove, hlsb], by simp [mkMove, hlsb],
        by simp [mkMove], by simp [mkMove], by omega, hk64, ht64, hst,
        fun _ => by omega, fun h => by rw [hside] at h; exact Side.noConfusion h,
        hkb, ?_, ?_, ?_,
        Or.inr ⟨c, by simp [mkMove, hob, hchain], by omega, by omega,
          fun _ => ⟨hc6, by omega⟩, fun h => by rw [hside] at h; exact Side.noConfusion h,
          hcbit, fun i hi hic => clear_of_disjoint pos hD c i t (by omega) hi hic hcbit, ?_⟩,
        ?_⟩
      · simp only [mkMove, hob, if_true]
        rw [if_pos (by omega : victimChainB pos t ≠ -1)]
        decide
      · simp only [mkMove, hob, if_true]
        rw [if_pos (by omega : victimChainB pos t ≠ -1)]
        decide
      · simp only [mkMove, hob, if_true]
        rw [if_pos (by omega : victimChainB pos t ≠ -1)]
        decide
      · simp only [mkMove, hob, if_true]
        rw [if_pos (by omega : victimChainB pos t ≠ -1)]
        decide
      · intro h
        simp only [mkMove, hob, if_true] at h
        rw [if_pos (by omega : victimChainB pos t ≠ -1)] at h
        simp [MF_CAPTURE, MF_DOUBLE] at h
    · have hempty : emptyAt pos t := by
        intro i hi
        by_cases hi6 : i < 6
        · exact whiteClear_of_occ pos hC t hownt i hi6
        · exact blackClear_of_occ pos hC t (by simpa using hob) i (by omega) hi
      refine Or.inl ⟨5, k, t, by simp [mkMove, hlsb], by simp [mkMove, hlsb],
        by simp [mkMove], by simp [mkMove], by omega, hk64, ht64, hst,
        fun _ => by omega, fun h => by rw [hside] at h; exact Side.noConfusion h,
        hkb, ?_, ?_, ?_, Or.inl ⟨by simp [mkMove, hob], hempty⟩, ?_⟩
      · simp [mkMove, hob]; decide
      · simp [mkMove, hob]; decide
      · simp [mkMove, hob]; decide
      · intro h
        simp [mkMove, hob, MF_QUIET, MF_DOUBLE] at h
  · by_cases hcond : pos.castling &&& 1 ≠ 0 ∧
        pos.occ_all &&& (((1 : Nat) <<< 61) ||| ((1 : Nat) <<< 62)) = 0 ∧
        ¬ffp_is_square_attacked pos 60 Side.BLACK ∧ ¬ffp_is_square_attacked pos 61 Side.BLACK ∧
        ¬ffp_is_square_attacked pos 62 Side.BLACK
    · rw [if_pos hcond] at hm
      simp only [List.mem_singleton] at hm
      subst hm
      obtain ⟨hc1, hocc2, -, -, -⟩ := hcond
      obtain ⟨hb5, hb1⟩ := hCa.2.1 hc1
      have he61 : emptyAt pos 61 := emptyAt_of_occ pos hC 61
        (occ_and_mask_clear _ _ _ hocc2 (by decide))
      have he62 : emptyAt pos 62 := emptyAt_of_occ pos hC 62
        (occ_and_mask_clear _ _ _ hocc2 (by decide))
      exact Or.inr (Or.inr (Or.inr ⟨rfl, rfl, by decide, by decide, by decide, by decide,
        Or.inl ⟨hside, rfl, rfl, hb5, Or.inl ⟨rfl, hb1, he61, he62⟩⟩⟩))
    · rw [if_neg hcond] at hm
      exact absurd hm (List.not_mem_nil m)
  · by_cases hcond : pos.castling &&& 2 ≠ 0 ∧
        pos.occ_all &&& (((1 : Nat) <<< 57) ||| ((1 : Nat) <<< 58) ||| ((1 : Nat) <<< 59)) = 0 ∧
        ¬ffp_is_square_attacked pos 60 Side.BLACK ∧ ¬ffp_is_square_attacked pos 59 Side.BLACK ∧
        ¬ffp_is_square_attacked pos 58 Side.BLACK
    · rw [if_pos hcond] at hm
      simp only [List.mem_singleton] at hm
      subst hm
      obtain ⟨hc2, hocc2, -, -, -⟩ := hcond
      obtain ⟨hb5, hb1⟩ := hCa.2.2.1 hc2
      have he59 : emptyAt pos 59 := emptyAt_of_occ pos hC 59
        (occ_and_mask_clear _ _ _ hocc2 (by decide))
      have he58 : emptyAt pos 58 := emptyAt_of_occ pos hC 58
        (occ_and_mask_clear _ _ _ hocc2 (by decide))
      exact Or.inr (Or.inr (Or.inr ⟨rfl, rfl, by decide, by decide, by decide, by decide,
        Or.inl ⟨hside, rfl, rfl, hb5, Or.inr ⟨rfl, hb1, he59, he58⟩⟩⟩))
    · rw [if_neg hcond] at hm
      exact absurd hm (List.not_mem_nil m)

theorem blackKing_facts (pos : Position) (m : Move) (hQ : QuiescentInv pos)
    (hside : pos.side = Side.BLACK) (hm : m ∈ blackKingMoves pos) : MoveFacts pos m := by
  have hQ2 := hQ
  obtain ⟨⟨hlen, hlt⟩, hD, hC, hK, hEp, hCa, hN⟩ := hQ2
  obtain ⟨-, k, hk64, hbk⟩ := hK
  have hlsb : lsbIdx (bbGet pos 11) = k := by rw [hbk]; exact lsbIdx_pow k hk64
  have hkb : (bbGet pos 11).testBit k = true := by rw [hbk]; exact Nat.testBit_two_pow_self
  simp only [blackKingMoves, List.mem_append] at hm
  rcases hm with (hm | hm) | hm
  · rw [List.mem_map] at hm
    obtain ⟨t, htmem, rfl⟩ := hm
    rw [mem_bitIndices] at htmem
    obtain ⟨ht64, htb⟩ := htmem
    rw [hlsb] at htb
    have hattb : (king_attacks_from ((1 : Nat) <<< k)).testBit t = true :=
      and_true_left _ _ _ htb
    have hattb2 : (king_attacks_from (bbGet pos 11)).testBit t = true := by
      rwa [hbk, ← one_shl]
    have hownt : pos.occ_black.testBit t = false :=
      compl64_false _ _ ht64 (and_true_right _ _ _ htb)
    have howns : pos.occ_black.testBit k = true :=
      occ_black_of_board pos hC 11 k (by omega) (by omega) hkb
    have hst : k ≠ t := fun h => by rw [h, hownt] at howns; exact Bool.noConfusion howns
    by_cases hob : pos.occ_white.testBit t
    · obtain ⟨c, hc6, hchain, hcbit⟩ := victimChainW_spec pos t hC hob
      have hc5 : c ≠ 5 := by
        intro hc
        have := no_wk_at pos t hQ hside (attacked_black_king pos t hattb2)
        rw [hc, this] at hcbit
        exact Bool.noConfusion hcbit
      refine Or.inl ⟨11, k, t, by simp [mkMove, hlsb], by simp [mkMove, hlsb],
        by simp [mkMove], by simp [mkMove], by omega, hk64, ht64, hst,
        fun h => by rw [hside] at h; exact Side.noConfusion h, fun _ => by omega,
        hkb, ?_, ?_, ?_,
        Or.inr ⟨c, by simp [mkMove, hob, hchain], by omega, by omega,
          fun h => by rw [hside] at h; exact Side.noConfusion h, fun _ => by omega,
          hcbit, fun i hi hic => clear_of_disjoint pos hD c i t (by omega) hi hic hcbit, ?_⟩,
        ?_⟩
      · simp only [mkMove, hob, if_true]
        rw [if_pos (by omega : victimChainW pos t ≠ -1)]
        decide
      · simp only [mkMove, hob, if_true]
        rw [if_pos (by omega : victimChainW pos t ≠ -1)]
        decide
      · simp only [mkMove, hob, if_true]
        rw [if_pos (by omega : victimChainW pos t ≠ -1)]
        decide
      · simp only [mkMove, hob, if_true]
        rw [if_pos (by omega : victimChainW pos t ≠ -1)]
        decide
      · intro h
        simp only [mkMove, hob, if_true] at h
        rw [if_pos (by omega : victimChainW pos t ≠ -1)] at h
        simp [MF_CAPTURE, MF_DOUBLE] at h
    · have hempty : emptyAt pos t := by
        intro i hi
        by_cases hi6 : i < 6
        · exact whiteClear_of_occ pos hC t (by simpa using hob) i hi6
        · exact blackClear_of_occ pos hC t hownt i (by omega) hi
      refine Or.inl ⟨11, k, t, by simp [mkMove, hlsb], by simp [mkMove, hlsb],
        by simp [mkMove], by simp [mkMove], by omega, hk64, ht64, hst,
        fun h => by rw [hside] at h; exact Side.noConfusion h, fun _ => by omega,
        hkb, ?_, ?_, ?_, Or.inl ⟨by simp [mkMove, hob], hempty⟩, ?_⟩
      · simp [mkMove, hob]; decide
      · simp [mkMove, hob]; decide
      · simp [mkMove, hob]; decide
      · intro h
        simp [mkMove, hob, MF_QUIET, MF_DOUBLE] at h
  · by_cases hcond : pos.castling &&& 4 ≠ 0 ∧
        pos.occ_all &&& (((1 : Nat) <<< 5) ||| ((1 : Nat) <<< 6)) = 0 ∧
        ¬ffp_is_square_attacked pos 4 Side.WHITE ∧ ¬ffp_is_square_attacked pos 5 Side.WHITE ∧
        ¬ffp_is_square_attacked pos 6 Side.WHITE
    · rw [if_pos hcond] at hm
      simp only [List.mem_singleton] at hm
      subst hm
      obtain ⟨hc4, hocc2, -, -, -⟩ := hcond
      obtain ⟨hb11, hb7⟩ := hCa.2.2.2.1 hc4
      have he5 : emptyAt pos 5 := emptyAt_of_occ pos hC 5
        (occ_and_mask_clear _ _ _ hocc2 (by decide))
      have he6 : emptyAt pos 6 := emptyAt_of_occ pos hC 6
        (occ_and_mask_clear _ _ _ hocc2 (by decide))
      exact Or.inr (Or.inr (Or.inr ⟨rfl, rfl, by decide, by decide, by decide, by decide,
        Or.inr ⟨hside, rfl, rfl, hb11, Or.inl ⟨rfl, hb7, he5, he6⟩⟩⟩))
    · rw [if_neg hcond] at hm
      exact absurd hm (List.not_mem_nil m)
  · by_cases hcond : pos.castling &&& 8 ≠ 0 ∧
        pos.occ_all &&& (((1 : Nat) <<< 1) ||| ((1 : Nat) <<< 2) ||| ((1 : Nat) <<< 3)) = 0 ∧
        ¬ffp_is_square_attacked pos 4 Side.WHITE ∧ ¬ffp_is_square_attacked pos 3 Side.WHITE ∧
        ¬ffp_is_square_attacked pos 2 Side.WHITE
    · rw [if_pos hcond] at hm
      simp only [List.mem_singleton] at hm
      subst hm
      obtain ⟨hc8, hocc2, -, -, -⟩ := hcond
      obtain ⟨hb11, hb7⟩ := hCa.2.2.2.2 hc8
      have he3 : emptyAt pos 3 := emptyAt_of_occ pos hC 3
        (occ_and_mask_clear _ _ _ hocc2 (by decide))
      have he2 : emptyAt pos 2 := emptyAt_of_occ pos hC 2
        (occ_and_mask_clear _ _ _ hocc2 (by decide))
      exact Or.inr (Or.inr (Or.inr ⟨rfl, rfl, by decide, by decide, by decide, by decide,
        Or.inr ⟨hside, rfl, rfl, hb11, Or.inr ⟨rfl, hb7, he3, he2⟩⟩⟩))
    · rw [if_neg hcond] at hm
      exact absurd hm (List.not_mem_nil m)

theorem shift_south_dec (b t : Nat) (h : (shift_south b).testBit t = true) :
    8 ≤ t ∧ t < 64 ∧ b.testBit (t - 8) = true := by
  rw [shift_south_testBit] at h
  simp only [Bool.and_eq_true, decide_eq_true_eq] at h
  exact ⟨h.1.1, h.2, h.1.2⟩

theorem blackPawn_facts (pos : Position) (m : Move) (hQ : QuiescentInv pos)
    (hE : EpConsistent pos) (hside : pos.side = Side.BLACK)
    (hge : 0 ≤ m.fromSq)
    (hfb : (bbGet pos m.piece.toNat).testBit m.fromSq.toNat = true)
    (hm : m ∈ blackPawnMoves pos) : MoveFacts pos m := by
  have hQ2 := hQ
  obtain ⟨⟨hlen, hlt⟩, hD, hC, hK, hEp, hCa, hN⟩ := hQ2
  have hp6lt : bbGet pos 6 < 2 ^ 64 := hlt 6 (by omega)
  simp only [blackPawnMoves, List.mem_append] at hm
  rcases hm with (((((((hm | hm) | hm) | hm) | hm) | hm) | hm) | hm)
  · -- quiet push
    rw [List.mem_map] at hm
    obtain ⟨t, htm, rfl⟩ := hm
    rw [mem_bitIndices] at htm
    obtain ⟨ht64, htb⟩ := htm
    have hsingle := and_true_left _ _ _ htb
    obtain ⟨ht8, -, hpw⟩ := shift_south_dec _ _ (and_true_left _ _ _ hsingle)
    have hocc : pos.occ_all.testBit t = false :=
      compl64_false _ _ ht64 (and_true_right _ _ _ hsingle)
    refine Or.inl ⟨6, t - 8, t, by simp [mkMove], by simp [mkMove]; omega, by simp [mkMove],
      by simp [mkMove], by omega, by omega, ht64, by omega,
      fun h => by rw [hside] at h; exact Side.noConfusion h, fun _ => by omega,
      hpw, by simp only [mkMove, MF_QUIET, MF_CAPTURE, MF_PROMO, MF_ENPASSANT, MF_CASTLE, MF_DOUBLE] <;> decide, by simp only [mkMove, MF_QUIET, MF_CAPTURE, MF_PROMO, MF_ENPASSANT, MF_CASTLE, MF_DOUBLE] <;> decide, by simp only [mkMove, MF_QUIET, MF_CAPTURE, MF_PROMO, MF_ENPASSANT, MF_CASTLE, MF_DOUBLE] <;> decide,
      Or.inl ⟨by simp [mkMove], emptyAt_of_occ pos hC t hocc⟩, ?_⟩
    intro h
    simp [mkMove, MF_QUIET, MF_DOUBLE] at h
  · -- double push
    rw [List.mem_map] at hm
    obtain ⟨t, htm, rfl⟩ := hm
    rw [mem_bitIndices] at htm
    obtain ⟨ht64, htb⟩ := htm
    obtain ⟨ht8, -, hs8⟩ := shift_south_dec _ _ (and_true_left _ _ _ htb)
    have hsingle8 := and_true_left _ _ _ hs8
    have hrank := rank_mask6_range _ (and_true_right _ _ _ hs8)
    obtain ⟨ht16, -, hpw⟩ := shift_south_dec _ _ (and_true_left _ _ _ hsingle8)
    have hpw2 : (bbGet pos 6).testBit (t - 16) = true := by
      rwa [show t - 8 - 8 = t - 16 by omega] at hpw
    have hocc8 : pos.occ_all.testBit (t - 8) = false :=
      compl64_false _ _ (by omega) (and_true_right _ _ _ hsingle8)
    have hocc : pos.occ_all.testBit t = false :=
      compl64_false _ _ ht64 (and_true_right _ _ _ htb)
    refine Or.inl ⟨6, t - 16, t, by simp [mkMove], by simp [mkMove]; omega, by simp [mkMove],
      by simp [mkMove], by omega, by omega, ht64, by omega,
      fun h => by rw [hside] at h; exact Side.noConfusion h, fun _ => by omega,
      hpw2, by simp only [mkMove, MF_QUIET, MF_CAPTURE, MF_PROMO, MF_ENPASSANT, MF_CASTLE, MF_DOUBLE] <;> decide, by simp only [mkMove, MF_QUIET, MF_CAPTURE, MF_PROMO, MF_ENPASSANT, MF_CASTLE, MF_DOUBLE] <;> decide, by simp only [mkMove, MF_QUIET, MF_CAPTURE, MF_PROMO, MF_ENPASSANT, MF_CASTLE, MF_DOUBLE] <;> decide,
      Or.inl ⟨by simp [mkMove], emptyAt_of_occ pos hC t hocc⟩, ?_⟩
    intro h
    refine ⟨by simp [mkMove], Or.inr ⟨hside, rfl, by omega, by omega, by omega,
      emptyAt_of_occ pos hC (t - 8) hocc8⟩⟩
  · -- promo push
    rw [mem_listFlat] at hm
    obtain ⟨t, htm, hm4⟩ := hm
    rw [mem_bitIndices] at htm
    obtain ⟨ht64, htb⟩ := htm
    have hsingle := and_true_left _ _ _ htb
    obtain ⟨ht8, -, hpw⟩ := shift_south_dec _ _ (and_true_left _ _ _ hsingle)
    have hocc : pos.occ_all.testBit t = false :=
      compl64_false _ _ ht64 (and_true_right _ _ _ hsingle)
    have ht56 := rank_mask1_range _ (and_true_right _ _ _ htb)
    have hq : ∃ q : Nat, m = mkMove ((t : Int) - 8) (t : Int) 6 (-1) ((q : Int)) MF_PROMO ∧
        7 ≤ q ∧ q ≤ 10 := by
      simp only [List.mem_cons, List.not_mem_nil, or_false] at hm4
      rcases hm4 with rfl | rfl | rfl | rfl
      · exact ⟨10, by norm_num, by omega, by omega⟩
      · exact ⟨7, by norm_num, by omega, by omega⟩
      · exact ⟨9, by norm_num, by omega, by omega⟩
      · exact ⟨8, by norm_num, by omega, by omega⟩
    obtain ⟨q, rfl, hq1, hq4⟩ := hq
    refine Or.inr (Or.inr (Or.inl ⟨t - 8, t, q, by simp [mkMove]; omega, by simp [mkMove],
      by simp [mkMove], by omega, ht64, by omega, by omega,
      by simp only [mkMove, MF_QUIET, MF_CAPTURE, MF_PROMO, MF_ENPASSANT, MF_CASTLE, MF_DOUBLE] <;> decide, by simp only [mkMove, MF_QUIET, MF_CAPTURE, MF_PROMO, MF_ENPASSANT, MF_CASTLE, MF_DOUBLE] <;> decide, by simp only [mkMove, MF_QUIET, MF_CAPTURE, MF_PROMO, MF_ENPASSANT, MF_CASTLE, MF_DOUBLE] <;> decide, by simp only [mkMove, MF_QUIET, MF_CAPTURE, MF_PROMO, MF_ENPASSANT, MF_CASTLE, MF_DOUBLE] <;> decide,
      Or.inr ⟨hside, by simp [mkMove], hq1, hq4, by omega, hpw⟩,
      Or.inl ⟨by simp [mkMove], emptyAt_of_occ pos hC t hocc⟩⟩))
  · -- capture left (normL, shift_sw with from = to - 9)
    rw [List.mem_map] at hm
    obtain ⟨t, htm, rfl⟩ := hm
    rw [mem_bitIndices] at htm
    obtain ⟨ht64, htb⟩ := htm
    have hcapl := and_true_left _ _ _ htb
    obtain ⟨ht7, -, -⟩ := shift_sw_testBit _ _ (and_true_left _ _ _ hcapl)
    have ht9 : 9 ≤ t := by
      simp only [mkMove] at hge
      omega
    have hfbit : (bbGet pos 6).testBit (t - 9) = true := by
      simpa [mkMove, show ((t : Int) - 9).toNat = t - 9 by omega] using hfb
    have hopp : pos.occ_white.testBit t = true := and_true_right _ _ _ hcapl
    obtain ⟨c, hc0, hc6, hscan, hcbit⟩ := pawnCapScan_spec pos 0 t
      (by obtain ⟨i, h1, h3⟩ := exists_white_board pos hC t hopp
          exact ⟨i, by omega, by omega, h3⟩)
    have hc5 : c ≠ 5 := by
      intro hc
      have hatt : ffp_is_square_attacked pos t Side.BLACK = true := by
        apply attacked_black_pawn
        rw [black_pawn_attacks, Nat.testBit_or]
        rw [show (shift_sw (bbGet pos 6)).testBit t = true from and_true_left _ _ _ hcapl]
        simp
      have := no_wk_at pos t hQ hside hatt
      rw [hc] at hcbit
      rw [this] at hcbit
      exact Bool.noConfusion hcbit
    refine Or.inl ⟨6, t - 9, t, by simp [mkMove], by simp [mkMove]; omega, by simp [mkMove],
      by simp [mkMove], by omega, by omega, ht64, by omega,
      fun h => by rw [hside] at h; exact Side.noConfusion h, fun _ => by omega,
      hfbit, by simp only [mkMove, MF_QUIET, MF_CAPTURE, MF_PROMO, MF_ENPASSANT, MF_CASTLE, MF_DOUBLE] <;> decide, by simp only [mkMove, MF_QUIET, MF_CAPTURE, MF_PROMO, MF_ENPASSANT, MF_CASTLE, MF_DOUBLE] <;> decide, by simp only [mkMove, MF_QUIET, MF_CAPTURE, MF_PROMO, MF_ENPASSANT, MF_CASTLE, MF_DOUBLE] <;> decide,
      Or.inr ⟨c, by simp [mkMove, hscan], by omega, by omega,
        fun h => by rw [hside] at h; exact Side.noConfusion h, fun _ => by omega,
        hcbit, fun i hi hic => clear_of_disjoint pos hD c i t (by omega) hi hic hcbit,
        by simp only [mkMove, MF_QUIET, MF_CAPTURE, MF_PROMO, MF_ENPASSANT, MF_CASTLE, MF_DOUBLE] <;> decide⟩, ?_⟩
    intro h
    simp [mkMove, MF_CAPTURE, MF_DOUBLE] at h
  · -- capture right (normR, shift_se with from = to - 7)
    rw [List.mem_map] at hm
    obtain ⟨t, htm, rfl⟩ := hm
    rw [mem_bitIndices] at htm
    obtain ⟨ht64, htb⟩ := htm
    have hcapr := and_true_left _ _ _ htb
    obtain ⟨ht9, -, -⟩ := shift_se_testBit _ _ (and_true_left _ _ _ hcapr)
    have hfbit : (bbGet pos 6).testBit (t - 7) = true := by
      simpa [mkMove, show ((t : Int) - 7).toNat = t - 7 by omega] using hfb
    have hopp : pos.occ_white.testBit t = true := and_true_right _ _ _ hcapr
    obtain ⟨c, hc0, hc6, hscan, hcbit⟩ := pawnCapScan_spec pos 0 t
      (by obtain ⟨i, h1, h3⟩ := exists_white_board pos hC t hopp
          exact ⟨i, by omega, by omega, h3⟩)
    have hc5 : c ≠ 5 := by
      intro hc
      have hatt : ffp_is_square_attacked pos t Side.BLACK = true := by
        apply attacked_black_pawn
        rw [black_pawn_attacks, Nat.testBit_or]
        rw [show (shift_se (bbGet pos 6)).testBit t = true from and_true_left _ _ _ hcapr]
        simp
      have := no_wk_at pos t hQ hside hatt
      rw [hc] at hcbit
      rw [this] at hcbit
      exact Bool.noConfusion hcbit
    refine Or.inl ⟨6, t - 7, t, by simp [mkMove], by simp [mkMove]; omega, by simp [mkMove],
      by simp [mkMove], by omega, by omega, ht64, by omega,
      fun h => by rw [hside] at h; exact Side.noConfusion h, fun _ => by omega,
      hfbit, by simp only [mkMove, MF_QUIET, MF_CAPTURE, MF_PROMO, MF_ENPASSANT, MF_CASTLE, MF_DOUBLE] <;> decide, by simp only [mkMove, MF_QUIET, MF_CAPTURE, MF_PROMO, MF_ENPASSANT, MF_CASTLE, MF_DOUBLE] <;> decide, by simp only [mkMove, MF_QUIET, MF_CAPTURE, MF_PROMO, MF_ENPASSANT, MF_CASTLE, MF_DOUBLE] <;> decide,
      Or.inr ⟨c, by simp [mkMove, hscan], by omega, by omega,
        fun h => by rw [hside] at h; exact Side.noConfusion h, fun _ => by omega,
        hcbit, fun i hi hic => clear_of_disjoint pos hD c i t (by omega) hi hic hcbit,
        by simp only [mkMove, MF_QUIET, MF_CAPTURE, MF_PROMO, MF_ENPASSANT, MF_CASTLE, MF_DOUBLE] <;> decide⟩, ?_⟩
    intro h
    simp [mkMove, MF_CAPTURE, MF_DOUBLE] at h
  · -- promo capture left
    rw [mem_listFlat] at hm
    obtain ⟨t, htm, hm4⟩ := hm
    rw [mem_bitIndices] at htm
    obtain ⟨ht64, htb⟩ := htm
    have hcapl := and_true_left _ _ _ htb
    obtain ⟨ht7, -, -⟩ := shift_sw_testBit _ _ (and_true_left _ _ _ hcapl)
    have ht56 := rank_mask1_range _ (and_true_right _ _ _ htb)
    have hopp : pos.occ_white.testBit t = true := and_true_right _ _ _ hcapl
    obtain ⟨c, hc0, hc6, hscan, hcbit⟩ := pawnCapScan_spec pos 0 t
      (by obtain ⟨i, h1, h3⟩ := exists_white_board pos hC t hopp
          exact ⟨i, by omega, by omega, h3⟩)
    have hc5 : c ≠ 5 := by
      intro hc
      have hatt : ffp_is_square_attacked pos t Side.BLACK = true := by
        apply attacked_black_pawn
        rw [black_pawn_attacks, Nat.testBit_or]
        rw [show (shift_sw (bbGet pos 6)).testBit t = true from and_true_left _ _ _ hcapl]
        simp
      have := no_wk_at pos t hQ hside hatt
      rw [hc] at hcbit
      rw [this] at hcbit
      exact Bool.noConfusion hcbit
    have hq : ∃ q : Nat, m = mkMove ((t : Int) - 9) (t : Int) 6 (pawnCapScan pos 0 t)
        ((q : Int)) (MF_CAPTURE ||| MF_PROMO) ∧ 7 ≤ q ∧ q ≤ 10 := by
      simp only [List.mem_cons, List.not_mem_nil, or_false] at hm4
      rcases hm4 with rfl | rfl | rfl | rfl
      · exact ⟨10, by norm_num, by omega, by omega⟩
      · exact ⟨7, by norm_num, by omega, by omega⟩
      · exact ⟨9, by norm_num, by omega, by omega⟩
      · exact ⟨8, by norm_num, by omega, by omega⟩
    obtain ⟨q, rfl, hq1, hq4⟩ := hq
    have hfbit : (bbGet pos 6).testBit (t - 9) = true := by
      simpa [mkMove, show ((t : Int) - 9).toNat = t - 9 by omega] using hfb
    refine Or.inr (Or.inr (Or.inl ⟨t - 9, t, q, by simp [mkMove]; omega, by simp [mkMove],
      by simp [mkMove], by omega, ht64, by omega, by omega,
      by simp only [mkMove, MF_QUIET, MF_CAPTURE, MF_PROMO, MF_ENPASSANT, MF_CASTLE, MF_DOUBLE] <;> decide, by simp only [mkMove, MF_QUIET, MF_CAPTURE, MF_PROMO, MF_ENPASSANT, MF_CASTLE, MF_DOUBLE] <;> decide, by simp only [mkMove, MF_QUIET, MF_CAPTURE, MF_PROMO, MF_ENPASSANT, MF_CASTLE, MF_DOUBLE] <;> decide, by simp only [mkMove, MF_QUIET, MF_CAPTURE, MF_PROMO, MF_ENPASSANT, MF_CASTLE, MF_DOUBLE] <;> decide,
      Or.inr ⟨hside, by simp [mkMove], hq1, hq4, by omega, hfbit⟩,
      Or.inr ⟨c, by simp [mkMove, hscan], by omega,
        fun h => by rw [hside] at h; exact Side.noConfusion h, fun _ => by omega,
        hcbit, fun i hi hic => clear_of_disjoint pos hD c i t (by omega) hi hic hcbit⟩⟩))
  · -- promo capture right
    rw [mem_listFlat] at hm
    obtain ⟨t, htm, hm4⟩ := hm
    rw [mem_bitIndices] at htm
    obtain ⟨ht64, htb⟩ := htm
    have hcapr := and_true_left _ _ _ htb
    obtain ⟨ht9, -, -⟩ := shift_se_testBit _ _ (and_true_left _ _ _ hcapr)
    have ht56 := rank_mask1_range _ (and_true_right _ _ _ htb)
    have hopp : pos.occ_white.testBit t = true := and_true_right _ _ _ hcapr
    obtain ⟨c, hc0, hc6, hscan, hcbit⟩ := pawnCapScan_spec pos 0 t
      (by obtain ⟨i, h1, h3⟩ := exists_white_board pos hC t hopp
          exact ⟨i, by omega, by omega, h3⟩)
    have hc5 : c ≠ 5 := by
      intro hc
      have hatt : ffp_is_square_attacked pos t Side.BLACK = true := by
        apply attacked_black_pawn
        rw [black_pawn_attacks, Nat.testBit_or]
        rw [show (shift_se (bbGet pos 6)).testBit t = true from and_true_left _ _ _ hcapr]
        simp
      have := no_wk_at pos t hQ hside hatt
      rw [hc] at hcbit
      rw [this] at hcbit
      exact Bool.noConfusion hcbit
    have hq : ∃ q : Nat, m = mkMove ((t : Int) - 7) (t : Int) 6 (pawnCapScan pos 0 t)
        ((q : Int)) (MF_CAPTURE ||| MF_PROMO) ∧ 7 ≤ q ∧ q ≤ 10 := by
      simp only [List.mem_cons, List.not_mem_nil, or_false] at hm4
      rcases hm4 with rfl | rfl | rfl | rfl
      · exact ⟨10, by norm_num, by omega, by omega⟩
      · exact ⟨7, by norm_num, by omega, by omega⟩
      · exact ⟨9, by norm_num, by omega, by omega⟩
      · exact ⟨8, by norm_num, by omega, by omega⟩
    obtain ⟨q, rfl, hq1, hq4⟩ := hq
    have hfbit : (bbGet pos 6).testBit (t - 7) = true := by
      simpa [mkMove, show ((t : Int) - 7).toNat = t - 7 by omega] using hfb
    refine Or.inr (Or.inr (Or.inl ⟨t - 7, t, q, by simp [mkMove]; omega, by simp [mkMove],
      by simp [mkMove], by omega, ht64, by omega, by omega,
      by simp only [mkMove, MF_QUIET, MF_CAPTURE, MF_PROMO, MF_ENPASSANT, MF_CASTLE, MF_DOUBLE] <;> decide, by simp only [mkMove, MF_QUIET, MF_CAPTURE, MF_PROMO, MF_ENPASSANT, MF_CASTLE, MF_DOUBLE] <;> decide, by simp only [mkMove, MF_QUIET, MF_CAPTURE, MF_PROMO, MF_ENPASSANT, MF_CASTLE, MF_DOUBLE] <;> decide, by simp only [mkMove, MF_QUIET, MF_CAPTURE, MF_PROMO, MF_ENPASSANT, MF_CASTLE, MF_DOUBLE] <;> decide,
      Or.inr ⟨hside, by simp [mkMove], hq1, hq4, by omega, hfbit⟩,
      Or.inr ⟨c, by simp [mkMove, hscan], by omega,
        fun h => by rw [hside] at h; exact Side.noConfusion h, fun _ => by omega,
        hcbit, fun i hi hic => clear_of_disjoint pos hD c i t (by omega) hi hic hcbit⟩⟩))
  · -- en passant block
    by_cases hep : pos.ep_square ≠ -1
    · rw [if_pos hep, List.mem_append] at hm
      have hrange : 40 ≤ pos.ep_square ∧ pos.ep_square < 48 := by
        rcases hEp with h | ⟨h, -⟩ | ⟨-, h1, h2⟩
        · exact absurd h hep
        · rw [hside] at h
          exact Side.noConfusion h
        · exact ⟨h1, h2⟩
      set t : Nat := pos.ep_square.toNat with hts
      have htv : pos.ep_square = (t : Int) := by omega
      have ht40 : 40 ≤ t := by omega
      have ht48 : t < 48 := by omega
      obtain ⟨hempty, -, hbehind⟩ := hE hep
      have hcbit : (bbGet pos 0).testBit (t - 8) = true := hbehind hside
      rcases hm with hm | hm
      · by_cases hsw : shift_sw (bbGet pos 6) &&& ((1 : Nat) <<< t) ≠ 0
        · rw [if_pos (by simpa [hts] using hsw)] at hm
          simp only [List.mem_singleton] at hm
          subst hm
          have hfbit : (bbGet pos 6).testBit (t - 9) = true := by
            simpa [mkMove, htv, show ((t : Int) - 9).toNat = t - 9 by omega] using hfb
          refine Or.inr (Or.inl ⟨t - 9, t, by rw [mkMove]; simp [htv] <;> omega,
            by rw [mkMove]; simpa using htv, by simp [mkMove],
            by omega, by simp only [mkMove, MF_QUIET, MF_CAPTURE, MF_PROMO, MF_ENPASSANT, MF_CASTLE, MF_DOUBLE] <;> decide, by simp only [mkMove, MF_QUIET, MF_CAPTURE, MF_PROMO, MF_ENPASSANT, MF_CASTLE, MF_DOUBLE] <;> decide, by simp only [mkMove, MF_QUIET, MF_CAPTURE, MF_PROMO, MF_ENPASSANT, MF_CASTLE, MF_DOUBLE] <;> decide, by simp only [mkMove, MF_QUIET, MF_CAPTURE, MF_PROMO, MF_ENPASSANT, MF_CASTLE, MF_DOUBLE] <;> decide,
            hempty, htv,
            Or.inr ⟨hside, by simp [mkMove], by simp [mkMove], ht40, ht48, hfbit, hcbit⟩⟩)
        · rw [if_neg (by simpa [hts] using hsw)] at hm
          exact absurd hm (List.not_mem_nil m)
      · by_cases hse : shift_se (bbGet pos 6) &&& ((1 : Nat) <<< t) ≠ 0
        · rw [if_pos (by simpa [hts] using hse)] at hm
          simp only [List.mem_singleton] at hm
          subst hm
          have hfbit : (bbGet pos 6).testBit (t - 7) = true := by
            simpa [mkMove, htv, show ((t : Int) - 7).toNat = t - 7 by omega] using hfb
          refine Or.inr (Or.inl ⟨t - 7, t, by rw [mkMove]; simp [htv] <;> omega,
            by rw [mkMove]; simpa using htv, by simp [mkMove],
            by omega, by simp only [mkMove, MF_QUIET, MF_CAPTURE, MF_PROMO, MF_ENPASSANT, MF_CASTLE, MF_DOUBLE] <;> decide, by simp only [mkMove, MF_QUIET, MF_CAPTURE, MF_PROMO, MF_ENPASSANT, MF_CASTLE, MF_DOUBLE] <;> decide, by simp only [mkMove, MF_QUIET, MF_CAPTURE, MF_PROMO, MF_ENPASSANT, MF_CASTLE, MF_DOUBLE] <;> decide, by simp only [mkMove, MF_QUIET, MF_CAPTURE, MF_PROMO, MF_ENPASSANT, MF_CASTLE, MF_DOUBLE] <;> decide,
            hempty, htv,
            Or.inr ⟨hside, by simp [mkMove], by simp [mkMove], ht40, ht48, hfbit, hcbit⟩⟩)
        · rw [if_neg (by simpa [hts] using hse)] at hm
          exact absurd hm (List.not_mem_nil m)
    · rw [if_neg hep] at hm
      exact absurd hm (List.not_mem_nil m)

theorem pseudo_facts_white (pos : Position) (m : Move) (hQ : QuiescentInv pos)
    (hE : EpConsistent pos) (hside : pos.side = Side.WHITE)
    (hm : m ∈ ffp_generate_pseudo_legal pos) : MoveFacts pos m := by
  rw [ffp_generate_pseudo_legal] at hm
  rw [hside] at hm
  simp only [List.mem_append] at hm
  rcases hm with ((((hm | hm) | hm) | hm) | hm) | hm
  · exact whitePawn_facts pos m hQ hE hside hm
  · exact pieceMoves_facts_white pos m 2 _ hQ hside (by omega)
      (fun s t hs ht hsb hat => attacked_white_knight pos s t hs hsb hat) hm
  · refine pieceMoves_facts_white pos m 3 _ hQ hside (by omega) ?_ hm
    intro s t hs ht hsb hat
    refine attacked_white_bishop pos s t hs ?_ hat
    rw [Nat.testBit_or, hsb]
    simp
  · refine pieceMoves_facts_white pos m 1 _ hQ hside (by omega) ?_ hm
    intro s t hs ht hsb hat
    refine attacked_white_rook pos s t hs ?_ hat
    rw [Nat.testBit_or, hsb]
    simp
  · refine pieceMoves_facts_white pos m 4 _ hQ hside (by omega) ?_ hm
    intro s t hs ht hsb hat
    rw [queen_attacks_from, Nat.testBit_or] at hat
    simp only [Bool.or_eq_true] at hat
    rcases hat with hat | hat
    · refine attacked_white_rook pos s t hs ?_ hat
      rw [Nat.testBit_or, hsb]
      simp
    · refine attacked_white_bishop pos s t hs ?_ hat
      rw [Nat.testBit_or, hsb]
      simp
  · exact whiteKing_facts pos m hQ hside hm

theorem pseudo_facts (pos : Position) (m : Move) (hQ : QuiescentInv pos)
    (hE : EpConsistent pos) (hge : 0 ≤ m.fromSq)
    (hfb : (bbGet pos m.piece.toNat).testBit m.fromSq.toNat = true)
    (hm : m ∈ ffp_generate_pseudo_legal pos) : MoveFacts pos m := by
  rcases hside : pos.side with - | -
  · rw [ffp_generate_pseudo_legal] at hm
    rw [hside] at hm
    simp only [List.mem_append] at hm
    rcases hm with ((((hm | hm) | hm) | hm) | hm) | hm
    · exact blackPawn_facts pos m hQ hE hside hge hfb hm
    · exact pieceMoves_facts_black pos m 8 _ hQ hside (by omega) (by omega)
        (fun s t hs ht hsb hat => attacked_black_knight pos s t hs hsb hat) hm
    · refine pieceMoves_facts_black pos m 9 _ hQ hside (by omega) (by omega) ?_ hm
      intro s t hs ht hsb hat
      refine attacked_black_bishop pos s t hs ?_ hat
      rw [Nat.testBit_or, hsb]
      simp
    · refine pieceMoves_facts_black pos m 7 _ hQ hside (by omega) (by omega) ?_ hm
      intro s t hs ht hsb hat
      refine attacked_black_rook pos s t hs ?_ hat
      rw [Nat.testBit_or, hsb]
      simp
    · refine pieceMoves_facts_black pos m 10 _ hQ hside (by omega) (by omega) ?_ hm
      intro s t hs ht hsb hat
      rw [queen_attacks_from, Nat.testBit_or] at hat
      simp only [Bool.or_eq_true] at hat
      rcases hat with hat | hat
      · refine attacked_black_rook pos s t hs ?_ hat
        rw [Nat.testBit_or, hsb]
        simp
      · refine attacked_black_bishop pos s t hs ?_ hat
        rw [Nat.testBit_or, hsb]
        simp
    · exact blackKing_facts pos m hQ hside hm
  · exact pseudo_facts_white pos m hQ hE hside hm

theorem legal_sub_pseudo (pos : Position) (m : Move) (hm : m ∈ ffp_generate_legal pos) :
    m ∈ ffp_generate_pseudo_legal pos := by
  rw [ffp_generate_legal, List.mem_filter] at hm
  exact hm.1

theorem make_unmake_guarded (pos : Position) (m : Move) (hQ : QuiescentInv pos)
    (hE : EpConsistent pos) (hm : m ∈ ffp_generate_legal pos) (hge : 0 ≤ m.fromSq)
    (hfb : (bbGet pos m.piece.toNat).testBit m.fromSq.toNat = true) :
    ffp_unmake_move (ffp_make_move pos m).1 m (ffp_make_move pos m).2 = pos :=
  roundtrip_of_facts pos m hQ.1 hQ.2.2.1
    (pseudo_facts pos m hQ hE hge hfb (legal_sub_pseudo pos m hm))

theorem make_unmake_white (pos : Position) (m : Move) (hQ : QuiescentInv pos)
    (hE : EpConsistent pos) (hside : pos.side = Side.WHITE)
    (hm : m ∈ ffp_generate_legal pos) :
    ffp_unmake_move (ffp_make_move pos m).1 m (ffp_make_move pos m).2 = pos :=
  roundtrip_of_facts pos m hQ.1 hQ.2.2.1
    (pseudo_facts_white pos m hQ hE hside (legal_sub_pseudo pos m hm))

theorem alphabeta_zero (pos : Position) (a b : Int) (ctx : SearchContext) :
    (alphabeta pos 0 a b ctx).2.2 = pos := by
  rw [alphabeta]
  by_cases hr : (search_should_abort ctx).1
  · rw [if_pos hr]
  · rw [if_neg hr]

theorem rootLoop_d0 (ms : List Move) (pos : Position) (hQ : QuiescentInv pos)
    (hE : EpConsistent pos) (hside : pos.side = Side.WHITE)
    (hms : ∀ m ∈ ms, m ∈ ffp_generate_legal pos) :
    ∀ (ctx : SearchContext) (bs : Int) (bm : Move) (fnd : Bool),
      (rootLoop ms pos 0 ctx bs bm fnd).2.2.2.2 = pos := by
  induction ms with
  | nil => intro ctx bs bm fnd; rfl
  | cons mv rest ih =>
    intro ctx bs bm fnd
    simp only [rootLoop]
    by_cases hr : (search_should_abort ctx).1
    · rw [if_pos hr]
    · rw [if_neg hr]
      have hz := alphabeta_zero (ffp_make_move pos mv).1 (-(30000 : Int)) (30000 : Int)
        (search_should_abort ctx).2
      rw [hz, make_unmake_white pos mv hQ hE hside (hms mv (by simp))]
      split
      · rfl
      · split
        · exact ih (fun m hm => hms m (by simp [hm])) _ _ _ _
        · exact ih (fun m hm => hms m (by simp [hm])) _ _ _ _

theorem search_white_depth1 (pos : Position) (limits : SearchLimits)
    (hQ : QuiescentInv pos) (hE : EpConsistent pos) (hside : pos.side = Side.WHITE)
    (hmd : limits.max_depth = 1) : (ffp_search pos limits).2 = pos := by
  rw [ffp_search]
  rw [if_neg (by omega : ¬limits.max_depth ≤ 0)]
  by_cases hlen : (ffp_generate_legal pos).length = 0
  · rw [if_pos hlen]
  · rw [if_neg hlen]
    rw [hmd]
    show (idLoop (ffp_generate_legal pos) 1 (Int.toNat 1) pos _ _ _).2.2.1 = pos
    rw [show Int.toNat 1 = 1 from rfl]
    rw [idLoop]
    have hrl := rootLoop_d0 (ffp_generate_legal pos) pos hQ hE hside (fun m hm => hm)
    rw [show (1 : Nat) - 1 = 0 from rfl]
    rw [hrl]
    split
    · rfl
    · split
      · rfl
      · rfl

theorem coherent_update (q : Position) : coherentOcc (update_occupancy q) :=
  ⟨rfl, rfl, rfl⟩

theorem make_coherent (pos : Position) (m : Move) : coherentOcc (ffp_make_move pos m).1 := by
  simp only [ffp_make_move]
  exact coherent_update _

theorem unmake_coherent (pos : Position) (m : Move) (u : Undo) :
    coherentOcc (ffp_unmake_move pos m u) := by
  simp only [ffp_unmake_move]
  exact coherent_update _

theorem coh_fenClocksTail2 (pos : Position) (t : List Char) :
    coherentOcc (fenClocksTail2 pos t).2 := by
  rcases t with - | ⟨c, t⟩
  · exact coherent_update _
  · exact coherent_update _

theorem coh_fenClocksTail (pos : Position) (t : List Char) :
    coherentOcc (fenClocksTail pos t).2 := by
  rcases t with - | ⟨c, t⟩
  · exact coherent_update _
  · exact coh_fenClocksTail2 _ _

theorem coh_fenClocks (pos : Position) (t : List Char) :
    coherentOcc (fenClocks pos t).2 := coh_fenClocksTail _ _

theorem coh_fenEpSq (pos : Position) (c : Char) (t : List Char)
    (h : (fenEpSq pos c t).1 = true) : coherentOcc (fenEpSq pos c t).2 := by
  rcases t with - | ⟨r, t2⟩
  · simp [fenEpSq] at h
  · simp only [fenEpSq]
    by_cases hc : 97 ≤ c.toNat ∧ c.toNat ≤ 104 ∧ 49 ≤ r.toNat ∧ r.toNat ≤ 56
    · rw [if_pos hc]
      exact coh_fenClocks _ _
    · rw [fenEpSq, if_neg hc] at h
      simp at h

theorem coh_fenEp (pos : Position) (t : List Char) (h : (fenEp pos t).1 = true) :
    coherentOcc (fenEp pos t).2 := by
  rcases t with - | ⟨c, t⟩
  · simp [fenEp] at h
  · simp only [fenEp]
    by_cases hc : c = '-'
    · rw [if_pos hc]
      exact coh_fenClocks _ _
    · rw [if_neg hc]
      rw [fenEp, if_neg hc] at h
      exact coh_fenEpSq _ _ _ h

theorem coh_fenAfterCastling (pos : Position) (cast : Nat) (t : List Char)
    (h : (fenAfterCastling pos cast t).1 = true) :
    coherentOcc (fenAfterCastling pos cast t).2 := by
  rcases t with - | ⟨c2, rest5⟩
  · simp [fenAfterCastling] at h
  · simp only [fenAfterCastling]
    by_cases hc : c2 = ' '
    · rw [if_pos hc]
      rw [fenAfterCastling, if_pos hc] at h
      exact coh_fenEp _ _ h
    · rw [fenAfterCastling, if_neg hc] at h
      simp at h

theorem coh_fenCastlingRes (pos : Position) (r : Except Nat (Nat × List Char))
    (h : (fenCastlingRes pos r).1 = true) : coherentOcc (fenCastlingRes pos r).2 := by
  rcases r with cpart | ⟨cast, rest4⟩
  · simp [fenCastlingRes] at h
  · exact coh_fenAfterCastling _ _ _ h

theorem coh_fenDashTail (pos : Position) (t : List Char)
    (h : (fenDashTail pos t).1 = true) : coherentOcc (fenDashTail pos t).2 := by
  rcases t with - | ⟨c2, rest5⟩
  · simp [fenDashTail] at h
  · simp only [fenDashTail]
    by_cases hc : c2 = ' '
    · rw [if_pos hc]
      rw [fenDashTail, if_pos hc] at h
      exact coh_fenEp _ _ h
    · rw [fenDashTail, if_neg hc] at h
      simp at h

theorem coh_fenCastling (pos : Position) (t : List Char)
    (h : (fenCastling pos t).1 = true) : coherentOcc (fenCastling pos t).2 := by
  rcases t with - | ⟨c, t⟩
  · exact coh_fenCastlingRes _ _ h
  · simp only [fenCastling]
    by_cases hc : c = '-'
    · rw [if_pos hc]
      rw [fenCastling, if_pos hc] at h
      exact coh_fenDashTail _ _ h
    · rw [if_neg hc]
      rw [fenCastling, if_neg hc] at h
      exact coh_fenCastlingRes _ _ h

theorem coh_fenSideSp (pos : Position) (t : List Char)
    (h : (fenSideSp pos t).1 = true) : coherentOcc (fenSideSp pos t).2 := by
  rcases t with - | ⟨c2, rest3⟩
  · simp [fenSideSp] at h
  · simp only [fenSideSp]
    by_cases hc : c2 = ' '
    · rw [if_pos hc]
      rw [fenSideSp, if_pos hc] at h
      exact coh_fenCastling _ _ h
    · rw [fenSideSp, if_neg hc] at h
      simp at h

theorem coh_fenSideGo (pos : Position) (t : List Char)
    (h : (fenSideGo pos t).1 = true) : coherentOcc (fenSideGo pos t).2 := by
  rcases t with - | ⟨c, rest2⟩
  · simp [fenSideGo] at h
  · simp only [fenSideGo]
    by_cases hc : c ≠ 'w' ∧ c ≠ 'b'
    · rw [fenSideGo, if_pos hc] at h
      simp at h
    · rw [if_neg hc]
      rw [fenSideGo, if_neg hc] at h
      exact coh_fenSideSp _ _ h

theorem coh_fenTop (r : Except Position (Position × Int × Int × List Char))
    (h : (fenTop r).1 = true) : coherentOcc (fenTop r).2 := by
  rcases r with p | ⟨pos, file, rank, rest⟩
  · simp [fenTop] at h
  · simp only [fenTop]
    by_cases hrf : rank ≠ 0 ∨ file ≠ 8
    · rw [fenTop, if_pos hrf] at h
      simp at h
    · rw [if_neg hrf]
      rw [fenTop, if_neg hrf] at h
      exact coh_fenSideGo _ _ h

theorem from_fen_coherent (fen : List Char) (h : (ffp_position_from_fen fen).1 = true) :
    coherentOcc (ffp_position_from_fen fen).2 := coh_fenTop _ h


/-- C2 (counterpart on the code): from the S3 FEN the loader stores
en-passant square 45, not 21 (f6 in the board indexing): the parser maps the
rank character bottom-up while the board counts rows from the top.  No move
from 28 (e5) to 21 (f6) is generated at all, so the claimed
ENPASSANT|CAPTURE move e5f6 does not exist; the only en-passant move
generated goes from 54 (g2) to 45 (board f3). -/
theorem C2_ep_square_mirrored :
    (ffp_position_from_fen s3fen).1 = true ∧
    (ffp_position_from_fen s3fen).2.ep_square = 45 ∧
    (ffp_generate_legal (ffp_position_from_fen s3fen).2).filter
      (fun m => m.fromSq = 28 ∧ m.toSq = 21) = [] ∧
    (ffp_generate_legal (ffp_position_from_fen s3fen).2).filter
      (fun m => m.flags &&& MF_ENPASSANT ≠ 0) =
      [mkMove 54 45 0 6 (-1) (MF_ENPASSANT ||| MF_CAPTURE)] := by
  refine ⟨by decide, by decide, by decide, by decide⟩

/-- C3 (counterpart on the code): the legal white double push from square 52
(e2) to 36 (e4) is rendered "e7e5" by `ffp_move_to_string` (the rank
characters are computed as `'1' + sq/8`, bottom-up, contradicting the
board's a8=0 indexing), and `ffp_move_from_string` fails to find the move
under its proper name "e2e4". -/
theorem C3_move_strings_mirrored :
    e2e4Move ∈ ffp_generate_legal ffp_position_set_start ∧
    ffp_move_to_string e2e4Move = "e7e5".toList ∧
    "e7e5".toList ≠ "e2e4".toList ∧
    ffp_move_from_string ffp_position_set_start ("e2e4".toList) = none := by
  refine ⟨by decide, by decide, by decide, by decide⟩

/-- C4 (counterpart on the code): `ffp_position_to_fen` emits the ranks
bottom-up (`rank*8+file` with rank from 7 down to 0 names the first rank of
the string, which holds the 8th-rank squares 56..63), so the FEN round trip
fails even on the canonical start FEN. -/
theorem C4_to_fen_ranks_bottom_up :
    (ffp_position_from_fen FFP_FEN_STARTPOS).1 = true ∧
    ffp_position_to_fen (ffp_position_from_fen FFP_FEN_STARTPOS).2 128 = some mirroredStartFen ∧
    mirroredStartFen ≠ FFP_FEN_STARTPOS := by
  refine ⟨by decide, by decide, by decide⟩

/-- Auxiliary: `ghostEpPos` satisfies the six quiescent-point invariants
yet its en-passant target (square 21) has no black pawn behind it; the
generated legal en-passant capture does not round-trip, because unmake
restores a pawn make never removed.  This shows the `EpConsistent`
hypothesis of `make_unmake_guarded` cannot be dropped. -/
theorem ghostEp_roundtrip_failure :
    QuiescentInv ghostEpPos ∧ ghostEpMove ∈ ffp_generate_legal ghostEpPos ∧
    ffp_unmake_move (ffp_make_move ghostEpPos ghostEpMove).1 ghostEpMove
      (ffp_make_move ghostEpPos ghostEpMove).2 ≠ ghostEpPos := by
  refine ⟨by decide, by decide, by decide⟩

/-- C5 counterexample: the loader accepts an en-passant square on rank 4,
and also accepts an empty castling field (two consecutive spaces), both of
which the claim says it rejects. -/
theorem C5_counterexample :
    (ffp_position_from_fen epRank4Fen).1 = true ∧
    (ffp_position_from_fen emptyCastleFen).1 = true := by
  refine ⟨by decide, by decide⟩

/-- C6 counterexample: on a FEN that fails in the castling field, the
returned position keeps the parsed placement, side and partial castling
rights: it is not the cleared state. -/
theorem C6_counterexample :
    (ffp_position_from_fen badCastleFen).1 = false ∧
    (ffp_position_from_fen badCastleFen).2 ≠ ffp_position_clear := by
  refine ⟨by decide, by decide⟩

/-- C7 counterexample: loading `epRookFen` succeeds and a legal en-passant
capture onto the occupied square 45 exists; after `ffp_make_move` of that
legal move, the white pawn set intersects the black rook set and the two
cached colour occupancies overlap, so the piece sets are not pairwise
disjoint after a public operation. -/
theorem C7_counterexample :
    (ffp_position_from_fen epRookFen).1 = true ∧
    epRookMove ∈ ffp_generate_legal epRookPos ∧
    bbGet (ffp_make_move epRookPos epRookMove).1 0 &&&
      bbGet (ffp_make_move epRookPos epRookMove).1 7 ≠ 0 ∧
    (ffp_make_move epRookPos epRookMove).1.occ_white &&&
      (ffp_make_move epRookPos epRookMove).1.occ_black ≠ 0 := by
  refine ⟨by decide, by decide, by decide, by decide⟩

/-- C8 counterexample: at depth 0 `alphabeta` returns `evaluate` even with
no legal moves and the mover in check (`matePos` is checkmated Black, a
queen down, so the value is -900), not the claimed `-20000 + (5 - 0)`. -/
theorem C8_counterexample :
    ffp_generate_legal matePos = [] ∧
    ffp_is_square_attacked matePos (kingSqOfMover matePos) (flipSide matePos.side) = true ∧
    (search_should_abort ctx0).1 = false ∧
    (alphabeta matePos 0 (-30000) 30000 ctx0).1 = -900 ∧
    ((-900 : Int) ≠ -20000 + (5 - 0)) := by
  refine ⟨by decide, by decide, by decide, by decide, by decide⟩

/-- Auxiliary: on `ghostEpPos` (en-passant data inconsistent) a depth-1
search returns with a black pawn added by the unpaired en-passant
restore. -/
theorem ghostEp_search_mutation :
    (ffp_search ghostEpPos depth1Limits).2 ≠ ghostEpPos := by decide


/-- C10: `ffp_generate_legal_array` always returns the full legal-move
count, even past `max_moves`; with a non-null buffer and positive
`max_moves` it writes exactly `min(count, max_moves)` moves in generation
order, never more than `max_moves`; with a null buffer or `max_moves = 0`
it writes nothing. -/
theorem C10_legal_array_contract (pos : Position) (nonNull : Bool) (max_moves : Int)
    (hmm : 0 ≤ max_moves) :
    (ffp_generate_legal_array pos nonNull max_moves).1 = ((ffp_generate_legal pos).length : Int) ∧
    (ffp_generate_legal_array pos true max_moves).2 =
      (ffp_generate_legal pos).take (min (ffp_generate_legal pos).length max_moves.toNat) ∧
    ((ffp_generate_legal_array pos nonNull max_moves).2).length ≤ max_moves.toNat ∧
    (ffp_generate_legal_array pos false max_moves).2 = [] ∧
    (ffp_generate_legal_array pos nonNull 0).2 = [] := by
  unfold ffp_generate_legal_array
  refine ⟨rfl, ?_, ?_, by simp, by simp⟩
  · by_cases hpos : max_moves > 0
    · simp only [true_and, hpos, if_pos]
      congr 1
      split
      · rename_i hlt
        have : (ffp_generate_legal pos).length ≤ max_moves.toNat := by omega
        omega
      · rename_i hge
        omega
    · simp only [hpos, and_false, if_neg, not_false_iff]
      have : max_moves = 0 := by omega
      simp [this]
  · split
    · rename_i hc
      rw [List.length_take]
      split
      · omega
      · omega
    · simp

/-- C8 (amended: depth at least 1; at depth 0 the source returns the static
evaluation): with no abort pending and no legal moves, `alphabeta` at depth
`d+1` returns `-20000 + (5 - depth)` when the mover is in check and 0 for
stalemate; `ffp_search` on such a root returns no best move, score
`-20000` in check else 0, `depth_reached` 0, and the position unchanged. -/
theorem C8_amended :
    (∀ (pos : Position) (d : Nat) (alpha beta : Int) (ctx : SearchContext),
      (search_should_abort ctx).1 = false →
      ffp_generate_legal pos = [] →
      (alphabeta pos (d + 1) alpha beta ctx).1 =
        if ffp_is_square_attacked pos (kingSqOfMover pos) (flipSide pos.side)
        then -20000 + (5 - ((d : Int) + 1)) else 0) ∧
    (∀ (pos : Position) (limits : SearchLimits),
      ffp_generate_legal pos = [] →
      (ffp_search pos limits).1 =
        { best_move := noMove, depth_reached := 0,
          score := if ffp_is_square_attacked pos (kingSqOfMover pos) (flipSide pos.side)
                   then -20000 else 0,
          nodes := 0, aborted := false } ∧
      (ffp_search pos limits).2 = pos) := by
  constructor
  · intro pos d alpha beta ctx hab hml
    unfold alphabeta
    simp only [hab, Bool.false_eq_true, if_false, hml, List.length_nil, if_pos]
    cases hside : pos.side <;> simp [kingSqOfMover, hside] <;> split <;> rfl
  · intro pos limits hml
    unfold ffp_search
    simp only [hml, List.length_nil, if_pos]
    cases hside : pos.side <;> simp [kingSqOfMover, hside]


theorem placementLoop_preserves (cs : List Char) : ∀ (pos : Position) (f r : Int),
    (∀ p, placementLoop cs pos f r = Except.error p →
      p.halfmove_clock = pos.halfmove_clock ∧ p.fullmove_number = pos.fullmove_number ∧
      p.occ_white = pos.occ_white ∧ p.occ_black = pos.occ_black ∧ p.occ_all = pos.occ_all) ∧
    (∀ p f2 r2 rest, placementLoop cs pos f r = Except.ok (p, f2, r2, rest) →
      p.halfmove_clock = pos.halfmove_clock ∧ p.fullmove_number = pos.fullmove_number ∧
      p.occ_white = pos.occ_white ∧ p.occ_black = pos.occ_black ∧ p.occ_all = pos.occ_all) := by
  induction cs with
  | nil =>
    intro pos f r
    constructor
    · intro p hp; simp [placementLoop] at hp
    · intro p f2 r2 rest hp
      simp only [placementLoop, Except.ok.injEq, Prod.mk.injEq] at hp
      obtain ⟨h1, -, -, -⟩ := hp
      subst h1
      exact ⟨rfl, rfl, rfl, rfl, rfl⟩
  | cons c cs ih =>
    intro pos f r
    constructor
    · intro p hp
      simp only [placementLoop] at hp
      split_ifs at hp
      all_goals first
        | exact Except.noConfusion hp
        | (injection hp with h; subst h; exact ⟨rfl, rfl, rfl, rfl, rfl⟩)
        | exact (ih pos 0 (r - 1)).1 p hp
        | exact (ih pos (f + ((c.toNat : Int) - 48)) r).1 p hp
        | exact (ih (posSetBit pos (pieceOfChar c).toNat ((7 - r) * 8 + f).toNat) (f + 1) r).1 p hp
    · intro p f2 r2 rest hp
      simp only [placementLoop] at hp
      split_ifs at hp
      all_goals first
        | exact Except.noConfusion hp
        | (simp only [Except.ok.injEq, Prod.mk.injEq] at hp
           obtain ⟨h1, -, -, -⟩ := hp
           subst h1
           exact ⟨rfl, rfl, rfl, rfl, rfl⟩)
        | exact (ih pos 0 (r - 1)).2 p f2 r2 rest hp
        | exact (ih pos (f + ((c.toNat : Int) - 48)) r).2 p f2 r2 rest hp
        | exact (ih (posSetBit pos (pieceOfChar c).toNat ((7 - r) * 8 + f).toNat) (f + 1) r).2 p f2 r2 rest hp

theorem fenClocksTail2_true (pos : Position) (rest : List Char) :
    (fenClocksTail2 pos rest).1 = true := by
  cases rest <;> rfl

theorem fenClocksTail_true (pos : Position) (rest : List Char) :
    (fenClocksTail pos rest).1 = true := by
  cases rest with
  | nil => rfl
  | cons c t => simp only [fenClocksTail, fenClocksTail2_true]

theorem fenClocks_true (pos : Position) (rest : List Char) : (fenClocks pos rest).1 = true :=
  fenClocksTail_true pos (skipOneSpace rest)

theorem fenEp_false_scalars (pos : Position) (rest : List Char)
    (h : (fenEp pos rest).1 = false) :
    (fenEp pos rest).2.halfmove_clock = pos.halfmove_clock ∧
    (fenEp pos rest).2.fullmove_number = pos.fullmove_number ∧
    (fenEp pos rest).2.occ_white = pos.occ_white ∧
    (fenEp pos rest).2.occ_black = pos.occ_black ∧
    (fenEp pos rest).2.occ_all = pos.occ_all := by
  rcases rest with - | ⟨c, t⟩
  · exact ⟨rfl, rfl, rfl, rfl, rfl⟩
  · simp only [fenEp] at h ⊢
    by_cases hc : c = '-'
    · rw [if_pos hc, fenClocks_true] at h; simp at h
    · rw [if_neg hc] at h ⊢
      rcases t with - | ⟨r, t2⟩
      · exact ⟨rfl, rfl, rfl, rfl, rfl⟩
      · simp only [fenEpSq] at h ⊢
        by_cases hr : 97 ≤ c.toNat ∧ c.toNat ≤ 104 ∧ 49 ≤ r.toNat ∧ r.toNat ≤ 56
        · rw [if_pos hr, fenClocks_true] at h; simp at h
        · rw [if_neg hr] at h ⊢
          exact ⟨rfl, rfl, rfl, rfl, rfl⟩

theorem fenAfterCastling_false_scalars (pos : Position) (cast : Nat) (rest : List Char)
    (h : (fenAfterCastling pos cast rest).1 = false) :
    (fenAfterCastling pos cast rest).2.halfmove_clock = pos.halfmove_clock ∧
    (fenAfterCastling pos cast rest).2.fullmove_number = pos.fullmove_number ∧
    (fenAfterCastling pos cast rest).2.occ_white = pos.occ_white ∧
    (fenAfterCastling pos cast rest).2.occ_black = pos.occ_black ∧
    (fenAfterCastling pos cast rest).2.occ_all = pos.occ_all := by
  rcases rest with - | ⟨c2, rest5⟩
  · exact ⟨rfl, rfl, rfl, rfl, rfl⟩
  · simp only [fenAfterCastling] at h ⊢
    by_cases hc2 : c2 = ' '
    · rw [if_pos hc2] at h ⊢
      exact fenEp_false_scalars _ _ h
    · rw [if_neg hc2] at h ⊢
      exact ⟨rfl, rfl, rfl, rfl, rfl⟩

theorem fenCastlingLetters_false_scalars (pos : Position) (other : List Char)
    (h : (fenCastlingLetters pos other).1 = false) :
    (fenCastlingLetters pos other).2.halfmove_clock = pos.halfmove_clock ∧
    (fenCastlingLetters pos other).2.fullmove_number = pos.fullmove_number ∧
    (fenCastlingLetters pos other).2.occ_white = pos.occ_white ∧
    (fenCastlingLetters pos other).2.occ_black = pos.occ_black ∧
    (fenCastlingLetters pos other).2.occ_all = pos.occ_all := by
  unfold fenCastlingLetters at h ⊢
  rcases hcl : castlingLoop other 0 with cpart | ⟨cast, rest4⟩ <;> (try rw [hcl] at h) <;>
    (try rw [hcl])
  · exact ⟨rfl, rfl, rfl, rfl, rfl⟩
  · simp only [fenCastlingRes] at h ⊢
    exact fenAfterCastling_false_scalars _ _ _ h

theorem fenCastling_false_scalars (pos : Position) (rest : List Char)
    (h : (fenCastling pos rest).1 = false) :
    (fenCastling pos rest).2.halfmove_clock = pos.halfmove_clock ∧
    (fenCastling pos rest).2.fullmove_number = pos.fullmove_number ∧
    (fenCastling pos rest).2.occ_white = pos.occ_white ∧
    (fenCastling pos rest).2.occ_black = pos.occ_black ∧
    (fenCastling pos rest).2.occ_all = pos.occ_all := by
  rcases rest with - | ⟨c, t⟩
  · exact fenCastlingLetters_false_scalars _ _ h
  · simp only [fenCastling] at h ⊢
    by_cases hc : c = '-'
    · rw [if_pos hc] at h ⊢
      rcases t with - | ⟨c2, rest5⟩
      · exact ⟨rfl, rfl, rfl, rfl, rfl⟩
      · simp only [fenDashTail] at h ⊢
        by_cases hc2 : c2 = ' '
        · rw [if_pos hc2] at h ⊢
          exact fenEp_false_scalars _ _ h
        · rw [if_neg hc2] at h ⊢
          exact ⟨rfl, rfl, rfl, rfl, rfl⟩
    · rw [if_neg hc] at h ⊢
      exact fenCastlingLetters_false_scalars _ _ h

theorem fenSide_false_scalars (pos : Position) (rest : List Char)
    (h : (fenSide pos rest).1 = false) :
    (fenSide pos rest).2.halfmove_clock = pos.halfmove_clock ∧
    (fenSide pos rest).2.fullmove_number = pos.fullmove_number ∧
    (fenSide pos rest).2.occ_white = pos.occ_white ∧
    (fenSide pos rest).2.occ_black = pos.occ_black ∧
    (fenSide pos rest).2.occ_all = pos.occ_all := by
  unfold fenSide at h ⊢
  rcases hss : skipSpaces rest with - | ⟨c, rest2⟩ <;> (try rw [hss] at h) <;> (try rw [hss])
  · exact ⟨rfl, rfl, rfl, rfl, rfl⟩
  · simp only [fenSideGo] at h ⊢
    by_cases hw : c ≠ 'w' ∧ c ≠ 'b'
    · rw [if_pos hw] at h ⊢
      exact ⟨rfl, rfl, rfl, rfl, rfl⟩
    · rw [if_neg hw] at h ⊢
      rcases rest2 with - | ⟨c2, rest3⟩
      · exact ⟨rfl, rfl, rfl, rfl, rfl⟩
      · simp only [fenSideSp] at h ⊢
        by_cases hc2 : c2 = ' '
        · rw [if_pos hc2] at h ⊢
          exact fenCastling_false_scalars _ _ h
        · rw [if_neg hc2] at h ⊢
          exact ⟨rfl, rfl, rfl, rfl, rfl⟩

/-- C6 amended: whenever the loader returns false, the halfmove clock,
fullmove number and the three cached occupancies still hold their cleared
values (the failure always happens before the clock fields are parsed and
before `update_occupancy` runs); placement bits, side, castling and
en-passant parsed before the failure do remain. -/
theorem C6_loader_failure_state (fen : List Char)
    (h : (ffp_position_from_fen fen).1 = false) :
    (ffp_position_from_fen fen).2.halfmove_clock = 0 ∧
    (ffp_position_from_fen fen).2.fullmove_number = 1 ∧
    (ffp_position_from_fen fen).2.occ_white = 0 ∧
    (ffp_position_from_fen fen).2.occ_black = 0 ∧
    (ffp_position_from_fen fen).2.occ_all = 0 := by
  unfold ffp_position_from_fen at h ⊢
  rcases hpl : placementLoop fen ffp_position_clear 0 7 with p | ⟨pos, file, rank, rest⟩ <;>
    (try rw [hpl] at h) <;> (try rw [hpl])
  · have := (placementLoop_preserves fen ffp_position_clear 0 7).1 p hpl
    simpa [fenTop, ffp_position_clear] using this
  · have hok := (placementLoop_preserves fen ffp_position_clear 0 7).2 pos file rank rest hpl
    simp only [ffp_position_clear] at hok
    simp only [fenTop] at h ⊢
    by_cases hrf : rank ≠ 0 ∨ file ≠ 8
    · rw [if_pos hrf] at h ⊢
      exact ⟨hok.1, hok.2.1, hok.2.2.1, hok.2.2.2.1, hok.2.2.2.2⟩
    · rw [if_neg hrf] at h ⊢
      have := fenSide_false_scalars pos rest h
      refine ⟨?_, ?_, ?_, ?_, ?_⟩ <;> omega

/-- Witness for C10 at the start position with `max_moves = 5`. -/
theorem C10_witness :
    ((0 : Int) ≤ 5) ∧
    ((ffp_generate_legal_array ffp_position_set_start true 5).1 =
      ((ffp_generate_legal ffp_position_set_start).length : Int) ∧
    (ffp_generate_legal_array ffp_position_set_start true 5).2 =
      (ffp_generate_legal ffp_position_set_start).take
        (min (ffp_generate_legal ffp_position_set_start).length (5 : Int).toNat)) :=
  ⟨by decide,
   (C10_legal_array_contract ffp_position_set_start true 5 (by decide)).1,
   (C10_legal_array_contract ffp_position_set_start true 5 (by decide)).2.1⟩

/-- Witness for the amended C8 on the concrete mate position at depth 1. -/
theorem C8_amended_witness :
    ((search_should_abort ctx0).1 = false) ∧ (ffp_generate_legal matePos = []) ∧
    ((alphabeta matePos (0 + 1) (-30000) 30000 ctx0).1 =
      if ffp_is_square_attacked matePos (kingSqOfMover matePos) (flipSide matePos.side)
      then -20000 + (5 - (((0 : Nat) : Int) + 1)) else 0) ∧
    ((ffp_search matePos depth1Limits).1 =
      { best_move := noMove, depth_reached := 0,
        score := if ffp_is_square_attacked matePos (kingSqOfMover matePos) (flipSide matePos.side)
                 then -20000 else 0,
        nodes := 0, aborted := false } ∧
    (ffp_search matePos depth1Limits).2 = matePos) :=
  ⟨by decide, by decide,
   C8_amended.1 matePos 0 (-30000) 30000 ctx0 (by decide) (by decide),
   C8_amended.2 matePos depth1Limits (by decide)⟩

/-- Witness for the amended C6 on the concrete failing FEN. -/
theorem C6_witness :
    ((ffp_position_from_fen badCastleFen).1 = false) ∧
    ((ffp_position_from_fen badCastleFen).2.halfmove_clock = 0 ∧
    (ffp_position_from_fen badCastleFen).2.fullmove_number = 1 ∧
    (ffp_position_from_fen badCastleFen).2.occ_white = 0 ∧
    (ffp_position_from_fen badCastleFen).2.occ_black = 0 ∧
    (ffp_position_from_fen badCastleFen).2.occ_all = 0) :=
  ⟨by decide, C6_loader_failure_state badCastleFen (by decide)⟩

theorem placementLoop_neg_rank (cs : List Char) (pos : Position) (f r : Int) (hr : r < 0) :
    placementLoop cs pos f r = Except.ok (pos, f, r, cs) := by
  cases cs with
  | nil => rfl
  | cons c t => simp [placementLoop, hr]

theorem fenEp_true_shape (pos : Position) (rest : List Char)
    (h : (fenEp pos rest).1 = true) : epFieldChk rest = true := by
  rcases rest with - | ⟨c, t⟩
  · simp [fenEp] at h
  · simp only [fenEp] at h
    simp only [epFieldChk]
    by_cases hc : c = '-'
    · rw [if_pos hc]
    · rw [if_neg hc] at h ⊢
      rcases t with - | ⟨r, t2⟩
      · simp [fenEpSq] at h
      · simp only [fenEpSq] at h
        simp only [epFieldChk2]
        by_cases hcond : 97 ≤ c.toNat ∧ c.toNat ≤ 104 ∧ 49 ≤ r.toNat ∧ r.toNat ≤ 56
        · simp [hcond]
        · rw [if_neg hcond] at h
          simp at h

theorem castlingLoop_sound (cs : List Char) : ∀ (acc cast : Nat) (v : List Char),
    castlingLoop cs acc = Except.ok (cast, ' ' :: v) → epFieldChk v = true →
    castLettersChk cs = true := by
  induction cs with
  | nil =>
    intro acc cast v h hep
    simp [castlingLoop] at h
  | cons ch t ih =>
    intro acc cast v h hep
    simp only [castlingLoop] at h
    simp only [castLettersChk]
    by_cases hsp : ch = ' '
    · rw [if_pos hsp] at h
      simp only [Except.ok.injEq, Prod.mk.injEq] at h
      obtain ⟨-, h2⟩ := h
      rw [if_pos hsp]
      rw [hsp] at h2
      injection h2 with h3 h4
      rw [h4]
      exact hep
    · rw [if_neg hsp] at h
      rw [if_neg hsp]
      by_cases hK : ch = 'K'
      · rw [if_pos hK] at h
        have : ch = 'K' ∨ ch = 'Q' ∨ ch = 'k' ∨ ch = 'q' := Or.inl hK
        rw [if_pos this]
        exact ih _ _ _ h hep
      · rw [if_neg hK] at h
        by_cases hQ : ch = 'Q'
        · rw [if_pos hQ] at h
          have : ch = 'K' ∨ ch = 'Q' ∨ ch = 'k' ∨ ch = 'q' := Or.inr (Or.inl hQ)
          rw [if_pos this]
          exact ih _ _ _ h hep
        · rw [if_neg hQ] at h
          by_cases hk : ch = 'k'
          · rw [if_pos hk] at h
            have : ch = 'K' ∨ ch = 'Q' ∨ ch = 'k' ∨ ch = 'q' := Or.inr (Or.inr (Or.inl hk))
            rw [if_pos this]
            exact ih _ _ _ h hep
          · rw [if_neg hk] at h
            by_cases hq : ch = 'q'
            · rw [if_pos hq] at h
              have : ch = 'K' ∨ ch = 'Q' ∨ ch = 'k' ∨ ch = 'q' :=
                Or.inr (Or.inr (Or.inr hq))
              rw [if_pos this]
              exact ih _ _ _ h hep
            · rw [if_neg hq] at h
              exact Except.noConfusion h

theorem fenCastlingLetters_true_shape (pos : Position) (other : List Char)
    (h : (fenCastlingLetters pos other).1 = true) : castLettersChk other = true := by
  unfold fenCastlingLetters at h
  rcases hcl : castlingLoop other 0 with cpart | ⟨cast, rest4⟩ <;> rw [hcl] at h
  · simp [fenCastlingRes] at h
  · simp only [fenCastlingRes] at h
    rcases rest4 with - | ⟨c2, rest5⟩
    · simp [fenAfterCastling] at h
    · simp only [fenAfterCastling] at h
      by_cases hc2 : c2 = ' '
      · rw [if_pos hc2] at h
        have hep := fenEp_true_shape _ _ h
        rw [hc2] at hcl
        exact castlingLoop_sound other 0 cast rest5 hcl hep
      · rw [if_neg hc2] at h
        simp at h

theorem fenCastling_true_shape (pos : Position) (rest : List Char)
    (h : (fenCastling pos rest).1 = true) : castFieldChk rest = true := by
  rcases rest with - | ⟨c, t⟩
  · have := fenCastlingLetters_true_shape pos [] h
    simp [castLettersChk] at this
  · simp only [fenCastling] at h
    simp only [castFieldChk]
    by_cases hc : c = '-'
    · rw [if_pos hc] at h ⊢
      rcases t with - | ⟨c2, rest5⟩
      · simp [fenDashTail] at h
      · simp only [fenDashTail] at h
        simp only [castDashChk]
        by_cases hc2 : c2 = ' '
        · rw [if_pos hc2] at h ⊢
          exact fenEp_true_shape _ _ h
        · rw [if_neg hc2] at h
          simp at h
    · rw [if_neg hc] at h ⊢
      exact fenCastlingLetters_true_shape _ _ h

theorem fenSideGo_true_shape (pos : Position) (cs : List Char)
    (h : (fenSideGo pos cs).1 = true) : fenGoodSide cs = true := by
  rcases cs with - | ⟨c, rest2⟩
  · simp [fenSideGo] at h
  · simp only [fenSideGo] at h
    simp only [fenGoodSide]
    by_cases hw : c ≠ 'w' ∧ c ≠ 'b'
    · rw [if_pos hw] at h
      simp at h
    · rw [if_neg hw] at h
      have hwb : c = 'w' ∨ c = 'b' := by
        by_cases h1 : c = 'w'
        · exact Or.inl h1
        · by_cases h2 : c = 'b'
          · exact Or.inr h2
          · exact absurd ⟨h1, h2⟩ hw
      rw [if_pos hwb]
      rcases rest2 with - | ⟨c2, rest3⟩
      · simp [fenSideSp] at h
      · simp only [fenSideSp] at h
        simp only [fenGoodSp]
        by_cases hc2 : c2 = ' '
        · rw [if_pos hc2] at h ⊢
          exact fenCastling_true_shape _ _ h
        · rw [if_neg hc2] at h
          simp at h

theorem placeChk_shape (cs : List Char) : ∀ (f r : Int) (rest : List Char),
    placeChk cs f r = some rest → rest = [] ∨ ∃ t, rest = ' ' :: t := by
  induction cs with
  | nil =>
    intro f r rest h
    simp only [placeChk] at h
    split at h
    · injection h with h2; exact Or.inl h2.symm
    · exact Option.noConfusion h
  | cons c t ih =>
    intro f r rest h
    simp only [placeChk] at h
    split_ifs at h
    · injection h with h2
      exact Or.inr ⟨t, by rw [← h2]; rename_i hsp _; rw [hsp]⟩
    · exact ih _ _ _ h
    · exact ih _ _ _ h
    · exact ih _ _ _ h

theorem placementLoop_sound (cs : List Char) :
    ∀ (pos : Position) (f r : Int) (p2 : Position) (rest : List Char),
    placementLoop cs pos f r = Except.ok (p2, 8, 0, rest) → placeChk cs f r = some rest := by
  induction cs with
  | nil =>
    intro pos f r p2 rest h
    simp only [placementLoop, Except.ok.injEq, Prod.mk.injEq] at h
    obtain ⟨-, hf, hr, hrest⟩ := h
    simp [placeChk, hf.symm, hr.symm, hrest]
  | cons c t ih =>
    intro pos f r p2 rest h
    simp only [placementLoop] at h
    by_cases hr0 : r < 0
    · rw [if_pos hr0] at h
      simp only [Except.ok.injEq, Prod.mk.injEq] at h
      omega
    · rw [if_neg hr0] at h
      by_cases hsp : c = ' '
      · rw [if_pos hsp] at h
        simp only [Except.ok.injEq, Prod.mk.injEq] at h
        obtain ⟨-, hf, hrk, hrest⟩ := h
        simp only [placeChk, if_pos hsp]
        rw [if_pos ⟨hf, hrk⟩, hrest]
      · rw [if_neg hsp] at h
        by_cases hsl : c = '/'
        · rw [if_pos hsl] at h
          by_cases hf8 : f ≠ 8
          · rw [if_pos hf8] at h
            exact Except.noConfusion h
          · rw [if_neg hf8] at h
            have hf : f = 8 := by omega
            have hrpos : r > 0 := by
              by_contra hle
              have : r - 1 < 0 := by omega
              rw [placementLoop_neg_rank t pos 0 (r - 1) this] at h
              simp only [Except.ok.injEq, Prod.mk.injEq] at h
              omega
            simp only [placeChk, if_neg hsp, if_pos hsl]
            rw [if_pos ⟨hf, hrpos⟩]
            exact ih _ _ _ _ _ h
        · rw [if_neg hsl] at h
          by_cases hdg : isdigitC c = true
          · simp only [hdg, if_pos] at h
            by_cases hn : (c.toNat : Int) - 48 < 1 ∨ (c.toNat : Int) - 48 > 8
            · rw [if_pos hn] at h
              exact Except.noConfusion h
            · rw [if_neg hn] at h
              by_cases hfn : f + ((c.toNat : Int) - 48) > 8
              · rw [if_pos hfn] at h
                exact Except.noConfusion h
              · rw [if_neg hfn] at h
                simp only [placeChk, if_neg hsp, if_neg hsl, hdg, if_pos]
                have hcnd : 1 ≤ (c.toNat : Int) - 48 ∧ (c.toNat : Int) - 48 ≤ 8 ∧
                    f + ((c.toNat : Int) - 48) ≤ 8 := by omega
                rw [if_pos hcnd]
                exact ih _ _ _ _ _ h
          · simp only [hdg] at h
            simp only [Bool.false_eq_true, if_neg, if_false] at h
            by_cases hpc : pieceOfChar c = -1
            · rw [if_pos hpc] at h
              exact Except.noConfusion h
            · rw [if_neg hpc] at h
              by_cases hf8 : f ≥ 8
              · rw [if_pos hf8] at h
                exact Except.noConfusion h
              · rw [if_neg hf8] at h
                split at h
                · exact Except.noConfusion h
                · simp only [placeChk, if_neg hsp, if_neg hsl, hdg]
                  simp only [Bool.false_eq_true, if_false]
                  have : (pieceOfChar c ≠ -1 ∧ f < 8) := ⟨hpc, by omega⟩
                  rw [if_pos this]
                  exact ih _ _ _ _ _ h

/-- C5 amended: `ffp_position_from_fen` accepts only strings of the shape
described by the spec grammar with two deviations the code makes:
the en-passant field may name any rank 1..8 (not only 3 and 6) and the
castling field may be empty.  In particular the loader rejects every input
with a wrong rank sum, an unknown piece character, castling characters
outside KQkq, or a missing mandatory separator. -/
theorem C5_loader_soundness (fen : List Char)
    (h : (ffp_position_from_fen fen).1 = true) : fenGood fen = true := by
  unfold ffp_position_from_fen at h
  unfold fenGood
  rcases hpl : placementLoop fen ffp_position_clear 0 7 with p | ⟨pos, file, rank, rest⟩ <;>
    rw [hpl] at h
  · simp [fenTop] at h
  · simp only [fenTop] at h
    by_cases hrf : rank ≠ 0 ∨ file ≠ 8
    · rw [if_pos hrf] at h
      simp at h
    · rw [if_neg hrf] at h
      have hfile : file = 8 := by omega
      have hrank : rank = 0 := by omega
      subst hfile hrank
      have hchk := placementLoop_sound fen ffp_position_clear 0 7 pos rest hpl
      rw [hchk]
      simp only [fenGoodTop]
      rcases placeChk_shape fen 0 7 rest hchk with hnil | ⟨t, hsp⟩
      · subst hnil
        simp [fenSide, skipSpaces, fenSideGo] at h
      · subst hsp
        simp only [fenGoodRest, if_pos rfl]
        unfold fenSide at h
        rw [show skipSpaces (' ' :: t) = skipSpaces t from rfl] at h
        exact fenSideGo_true_shape _ _ h


theorem C5_soundness_witness :
    (ffp_position_from_fen epRank4Fen).1 = true ∧ fenGood epRank4Fen = true :=
  ⟨by decide, C5_loader_soundness epRank4Fen (by decide)⟩

/-- C1 (counterpart on the code): the black pawn capture sections pair
`shift_sw` with from = to-9 and `shift_se` with from = to-7, the offsets
swapped, so a generated legal black capture can record a from square that
holds no black pawn.  On `probePos` (which satisfies all six quiescent
invariants and has consistent en-passant data) the legal list contains the
capture of the e4 pawn recorded as from 29 (f5) although the capturing
pawn stands on 27 (d5); make pops an empty square and unmake restores the
pawn to f5, so the round trip does not restore the position. -/
theorem C1_black_capture_bug :
    QuiescentInv probePos ∧ EpConsistent probePos ∧
    blackCapMove ∈ ffp_generate_legal probePos ∧
    (bbGet probePos 6).testBit 29 = false ∧
    ffp_unmake_move (ffp_make_move probePos blackCapMove).1 blackCapMove
      (ffp_make_move probePos blackCapMove).2 ≠ probePos := by
  refine ⟨by decide, by decide, by decide, by decide, by decide⟩

/-- C1 auxiliary witness for the guarded positive theorem: the start
position satisfies the hypotheses of `make_unmake_guarded` at the double
push e2e4, whose round trip therefore restores the start position. -/
theorem make_unmake_guarded_witness :
    QuiescentInv ffp_position_set_start ∧ EpConsistent ffp_position_set_start ∧
    e2e4Move ∈ ffp_generate_legal ffp_position_set_start ∧
    ffp_unmake_move (ffp_make_move ffp_position_set_start e2e4Move).1 e2e4Move
      (ffp_make_move ffp_position_set_start e2e4Move).2 = ffp_position_set_start :=
  ⟨by decide, by decide, by decide,
    make_unmake_guarded ffp_position_set_start e2e4Move (by decide) (by decide) (by decide)
      (by decide) (by decide)⟩

/-- C7 (amended): the occupancy cache equations (each colour occupancy is
the union of its six piece sets and occ_all is their union) hold after
every public operation: position_clear, every successful
position_from_fen, position_set_start, make_move and unmake_move; the
disjointness half of the claim is refuted by `C7_counterexample`. -/
theorem C7_cache_equations :
    coherentOcc ffp_position_clear ∧
    (∀ fen, (ffp_position_from_fen fen).1 = true →
      coherentOcc (ffp_position_from_fen fen).2) ∧
    coherentOcc ffp_position_set_start ∧
    (∀ pos m, coherentOcc (ffp_make_move pos m).1) ∧
    (∀ pos m u, coherentOcc (ffp_unmake_move pos m u)) :=
  ⟨by decide, from_fen_coherent, by decide, make_coherent, unmake_coherent⟩

/-- C7 witness: the cache equations at concrete operations. -/
theorem C7_cache_witness :
    coherentOcc (ffp_position_from_fen s3fen).2 ∧
    coherentOcc (ffp_make_move ffp_position_set_start e2e4Move).1 :=
  ⟨C7_cache_equations.2.1 s3fen (by decide),
   C7_cache_equations.2.2.2.1 ffp_position_set_start e2e4Move⟩

/-- C9 (counterpart on the code): `ffp_search` does not return the borrowed
position bit-identical even on a position satisfying all six quiescent
invariants with consistent en-passant data: on `probePos` a depth-1 search
makes and unmakes the mis-recorded black pawn capture (from square f5
instead of d5, the swapped-offset bug of the black capture generator) and
returns with the pawn moved to f5. -/
theorem C9_search_mutates :
    QuiescentInv probePos ∧ EpConsistent probePos ∧
    (ffp_search probePos depth1Limits).2 ≠ probePos := by
  refine ⟨by decide, by decide, by decide⟩

/-- C9 auxiliary witness for the positive depth-1 theorem: a depth-1 search
from the start position returns it unchanged. -/
theorem search_white_depth1_witness :
    QuiescentInv ffp_position_set_start ∧ EpConsistent ffp_position_set_start ∧
    ffp_position_set_start.side = Side.WHITE ∧ depth1Limits.max_depth = 1 ∧
    (ffp_search ffp_position_set_start depth1Limits).2 = ffp_position_set_start :=
  ⟨by decide, by decide, by decide, by decide,
    search_white_depth1 ffp_position_set_start depth1Limits (by decide) (by decide)
      (by decide) (by decide)⟩
